import Mathlib

/-!
# Mentor-mentee matching application: the matching-request lifecycle

A shallow embedding of the mounted matching API (`backend/routes/matching-new.js`,
mounted under `/api` by `backend/server.js`), of the signup and login handlers
(`backend/routes/auth.js`), of `GET /me`, `PUT /profile` and `GET /mentors`
(`backend/routes/api.js`) and of the middleware order of `backend/server.js`,
together with the parts of `backend/models/index.js`, `backend/middleware/auth.js`
and `backend/middleware/security.js` they rely on.

The relational store is a list of rows in insertion order.  Each handler is a
pure function from the resolved caller, the call arguments and the table it
works on to the HTTP response and the new table.  Library calls (Joi's email
check, the model's email validator, bcrypt, `jwt.verify`, `xss`, the image
checks, the row order of `ORDER BY`) are parameters, and the clock is an
argument.  For the claims on failing and on interleaved store operations the
accept handler is also given as a step function that runs from one `await` to
the next, and for the claim on reachable states the user table and the request
table are put together in one store on which signup, profile update and the
matching API run.
-/

namespace MentoMenti

/-! ## Data model (`models/index.js`) -/

/-- The `role` column of `User`: `DataTypes.ENUM("mentor", "mentee")`. -/
inductive Role
  | mentor
  | mentee
  deriving DecidableEq, Repr

/-- A row of the `User` table.  `password` holds what the signup handler stores,
the hash; `skills` is the list the column getter parses from the stored text. -/
structure User where
  id : Nat
  email : String := ""
  password : String := ""
  name : String := ""
  role : Role
  profileImage : Option String := none
  bio : Option String := none
  skills : List String := []
  isActive : Bool := true
  deriving DecidableEq, Repr

/-- The values the handlers write to the `status` column of `MatchingRequest`.
The model declares the column as `ENUM("pending", "accepted", "rejected")`; the
sqlite dialect keeps it as text without a check, so the `cancelled` written by
the cancel handler is stored like the other three. -/
inductive Status
  | pending
  | accepted
  | rejected
  | cancelled
  deriving DecidableEq, Repr

/-- A row of the `MatchingRequest` table (`message` has `allowNull: true`). -/
structure MatchingRequest where
  id : Nat
  menteeId : Nat
  mentorId : Nat
  message : Option String
  status : Status
  deriving DecidableEq, Repr

/-- `User.findOne({ where })`: the first row satisfying the condition. -/
def User.findOne (users : List User) (cond : User → Bool) : Option User :=
  users.find? cond

/-- `User.findByPk(userId)`. -/
def User.findByPk (users : List User) (userId : Nat) : Option User :=
  users.find? (fun u => u.id == userId)

/-- `MatchingRequest.findOne({ where })`: the first row satisfying the condition. -/
def MatchingRequest.findOne (rows : List MatchingRequest)
    (cond : MatchingRequest → Bool) : Option MatchingRequest :=
  rows.find? cond

/-- `MatchingRequest.findAll({ where })`: every row satisfying the condition. -/
def MatchingRequest.findAll (rows : List MatchingRequest)
    (cond : MatchingRequest → Bool) : List MatchingRequest :=
  rows.filter cond

/-- `MatchingRequest.update({ status }, { where })`: sets `status` on every row
satisfying the condition. -/
def MatchingRequest.update (rows : List MatchingRequest) (status : Status)
    (cond : MatchingRequest → Bool) : List MatchingRequest :=
  rows.map (fun r => if cond r then { r with status := status } else r)

/-- `instance.save()` after `instance.status = status`: writes the changed
column to the row whose primary key is the one of the instance. -/
def MatchingRequest.save (rows : List MatchingRequest) (inst : MatchingRequest)
    (status : Status) : List MatchingRequest :=
  rows.map (fun r => if r.id == inst.id then { r with status := status } else r)

/-- The primary key an `autoIncrement` column gives the next inserted row: one
more than the largest key in the table (rows are never deleted by this API). -/
def nextId (rows : List MatchingRequest) : Nat :=
  (rows.map (fun r => r.id)).foldr max 0 + 1

/-- `MatchingRequest.create({ mentorId, menteeId, message, status: "pending" })`.
The model validator `len: [0, 500]` on `message` runs before the insert and
throws when it fails. -/
def MatchingRequest.create (rows : List MatchingRequest) (mentorId menteeId : Nat)
    (message : String) : Except String (MatchingRequest × List MatchingRequest) :=
  if message.length ≤ 500 then
    let r : MatchingRequest :=
      { id := nextId rows, menteeId := menteeId, mentorId := mentorId,
        message := some message, status := Status.pending }
    Except.ok (r, rows ++ [r])
  else
    Except.error "SequelizeValidationError"

/-! ## HTTP responses -/

/-- The claims object the login handler and `generateToken` pass to `jwt.sign`.
A signed token is identified with the claims it carries; `userId` is the custom
claim only `generateToken` adds. -/
structure JwtPayload where
  iss : String
  sub : String
  aud : String
  exp : Nat
  nbf : Nat
  iat : Nat
  jti : String
  userId : Option Nat
  name : String
  email : String
  role : Role
  deriving DecidableEq, Repr

/-- An element of the list `GET /mentors` sends: `id`, `email`, `role` and the
`profile` members `name`, `bio`, `imageUrl` and `skills`. -/
structure MentorJson where
  id : Nat
  email : String
  role : Role
  name : String
  bio : Option String
  imageUrl : String
  skills : List String
  deriving DecidableEq, Repr

/-- The JSON bodies the handlers send. -/
inductive Body
  | error (error : String)
  | validation (error : String) (details : String)
  | conflict (error : String) (currentRequestId : Nat) (currentMentorId : Nat)
  | request (id : Nat) (mentorId : Nat) (menteeId : Nat) (message : Option String)
      (status : Status)
  | requests (rows : List MatchingRequest)
  | validationList (error : String) (details : List String)
  | message (message : String)
  | token (token : JwtPayload)
  | me (id : Nat) (email : String) (role : Role) (name : String) (bio : Option String)
      (imageUrl : String) (skills : Option (List String))
  | mentors (list : List MentorJson)
  deriving DecidableEq, Repr

/-- An HTTP response: status code and JSON body. -/
structure Response where
  status : Nat
  body : Body
  deriving DecidableEq, Repr

/-- The object `{ id, mentorId, menteeId, message, status }` sent on success. -/
def requestJson (r : MatchingRequest) : Body :=
  Body.request r.id r.mentorId r.menteeId r.message r.status

/-! ## Token verification (`middleware/auth.js`) -/

/-- What `jwt.verify(token, JWT_SECRET)` does with the presented token: it throws
on a bad signature or an expired token, otherwise it returns the payload, of
which the middleware uses the subject. -/
inductive Token
  | badSignature
  | expired
  | decoded (sub : Nat)
  deriving DecidableEq, Repr

/-- `authenticateToken`: `none` is a request without a token in the
`Authorization` header.  On success the resolved user is attached as `req.user`. -/
def authenticateToken (users : List User) (token : Option Token) : Except Response User :=
  match token with
  | none => Except.error ⟨401, Body.error "Access token required"⟩
  | some Token.badSignature => Except.error ⟨403, Body.error "Invalid token"⟩
  | some Token.expired => Except.error ⟨403, Body.error "Invalid token"⟩
  | some (Token.decoded sub) =>
    match User.findByPk users sub with
    | none => Except.error ⟨403, Body.error "Invalid token"⟩
    | some user => Except.ok user

/-! ## Request-body validation (`createRequestSchema`) -/

/-- The `mentorId` member of the JSON body as `Joi.number()` sees it: absent, a
number whose value is the integer `n` (a numeric string is converted), a number
that is not an integer, or a value that is not a number. -/
inductive NumField
  | missing
  | int (n : Int)
  | nonInteger
  | notNumber
  deriving DecidableEq, Repr

/-- The `message` member of the JSON body as `Joi.string()` sees it. -/
inductive StrField
  | missing
  | str (s : String)
  | notString
  deriving DecidableEq, Repr

/-- The parsed JSON body of `POST /match-requests`.  `unknownKeys` lists the
members other than `mentorId` and `message`. -/
structure CreateBody where
  mentorId : NumField
  message : StrField
  unknownKeys : List String := []
  deriving DecidableEq, Repr

/-- The text Joi reports for a member: the quoted label followed by the reason. -/
def joiMessage (label reason : String) : String :=
  String.singleton (Char.ofNat 34) ++ label ++ String.singleton (Char.ofNat 34) ++ " " ++ reason

/-- `createRequestSchema.validate(req.body)` for
`Joi.object({ mentorId: Joi.number().integer().positive().required(),
message: Joi.string().required() })`.  Members are checked in schema order and
the first failure is reported; `Joi.string()` refuses the empty string and
`Joi.object` refuses members the schema does not name. -/
def createRequestSchema.validate (body : CreateBody) : Except String (Nat × String) :=
  match body.mentorId with
  | NumField.missing => Except.error (joiMessage "mentorId" "is required")
  | NumField.notNumber => Except.error (joiMessage "mentorId" "must be a number")
  | NumField.nonInteger => Except.error (joiMessage "mentorId" "must be an integer")
  | NumField.int n =>
    if n ≤ 0 then Except.error (joiMessage "mentorId" "must be a positive number")
    else
      match body.message with
      | StrField.missing => Except.error (joiMessage "message" "is required")
      | StrField.notString => Except.error (joiMessage "message" "must be a string")
      | StrField.str s =>
        if s = "" then Except.error (joiMessage "message" "is not allowed to be empty")
        else
          match body.unknownKeys with
          | k :: _ => Except.error (joiMessage k "is not allowed")
          | [] => Except.ok (n.toNat, s)

/-! ## Route handlers (`routes/matching-new.js`) -/

/-- The text of the duplicate-pending-request error. -/
def pendingExistsError : String :=
  "You already have a pending request. Please wait for a response or cancel your current request before sending a new one."

/-- Handler of `POST /match-requests`; `reqUser` is `req.user`. -/
def postMatchRequests (users : List User) (reqUser : User) (body : CreateBody)
    (rows : List MatchingRequest) : Response × List MatchingRequest :=
  if reqUser.role ≠ Role.mentee then
    (⟨403, Body.error "Only mentees can send requests"⟩, rows)
  else
    match createRequestSchema.validate body with
    | Except.error details => (⟨400, Body.validation "Validation error" details⟩, rows)
    | Except.ok (mentorId, message) =>
      let menteeId := reqUser.id
      match User.findOne users (fun u => u.id == mentorId && u.role == Role.mentor) with
      | none => (⟨400, Body.error "Mentor not found"⟩, rows)
      | some _ =>
        match MatchingRequest.findOne rows
            (fun r => r.menteeId == menteeId && r.status == Status.pending) with
        | some existingPendingRequest =>
          (⟨400, Body.conflict pendingExistsError existingPendingRequest.id
              existingPendingRequest.mentorId⟩, rows)
        | none =>
          match MatchingRequest.create rows mentorId menteeId message with
          | Except.error _ => (⟨500, Body.error "Internal server error"⟩, rows)
          | Except.ok (matchingRequest, rows1) => (⟨200, requestJson matchingRequest⟩, rows1)

/-- Handler of `GET /match-requests/incoming`. -/
def getIncoming (reqUser : User) (rows : List MatchingRequest) :
    Response × List MatchingRequest :=
  if reqUser.role ≠ Role.mentor then
    (⟨403, Body.error "Only mentors can view incoming requests"⟩, rows)
  else
    (⟨200, Body.requests (MatchingRequest.findAll rows (fun r => r.mentorId == reqUser.id))⟩, rows)

/-- Handler of `GET /match-requests/outgoing`. -/
def getOutgoing (reqUser : User) (rows : List MatchingRequest) :
    Response × List MatchingRequest :=
  if reqUser.role ≠ Role.mentee then
    (⟨403, Body.error "Only mentees can view outgoing requests"⟩, rows)
  else
    (⟨200, Body.requests (MatchingRequest.findAll rows (fun r => r.menteeId == reqUser.id))⟩, rows)

/-- Handler of `PUT /match-requests/:id/accept`.  The path parameter `id` is
compared with the integer primary key by the store; it is taken here as the
number it denotes. -/
def putAccept (reqUser : User) (id : Nat) (rows : List MatchingRequest) :
    Response × List MatchingRequest :=
  if reqUser.role ≠ Role.mentor then
    (⟨403, Body.error "Only mentors can accept requests"⟩, rows)
  else
    match MatchingRequest.findOne rows
        (fun r => r.id == id && r.mentorId == reqUser.id && r.status == Status.pending) with
    | none => (⟨404, Body.error "Request not found"⟩, rows)
    | some matchingRequest =>
      let rows1 := MatchingRequest.save rows matchingRequest Status.accepted
      let rows2 := MatchingRequest.update rows1 Status.rejected
        (fun r => r.mentorId == reqUser.id && r.status == Status.pending && r.id != id)
      let rows3 := MatchingRequest.update rows2 Status.rejected
        (fun r => r.menteeId == matchingRequest.menteeId && r.status == Status.pending && r.id != id)
      (⟨200, requestJson { matchingRequest with status := Status.accepted }⟩, rows3)

/-- Handler of `PUT /match-requests/:id/reject`. -/
def putReject (reqUser : User) (id : Nat) (rows : List MatchingRequest) :
    Response × List MatchingRequest :=
  if reqUser.role ≠ Role.mentor then
    (⟨403, Body.error "Only mentors can reject requests"⟩, rows)
  else
    match MatchingRequest.findOne rows
        (fun r => r.id == id && r.mentorId == reqUser.id && r.status == Status.pending) with
    | none => (⟨404, Body.error "Request not found"⟩, rows)
    | some matchingRequest =>
      (⟨200, requestJson { matchingRequest with status := Status.rejected }⟩,
        MatchingRequest.save rows matchingRequest Status.rejected)

/-- Handler of `DELETE /match-requests/:id`. -/
def deleteMatchRequest (reqUser : User) (id : Nat) (rows : List MatchingRequest) :
    Response × List MatchingRequest :=
  if reqUser.role ≠ Role.mentee then
    (⟨403, Body.error "Only mentees can cancel requests"⟩, rows)
  else
    match MatchingRequest.findOne rows
        (fun r => r.id == id && r.menteeId == reqUser.id && r.status == Status.pending) with
    | none => (⟨404, Body.error "Request not found"⟩, rows)
    | some matchingRequest =>
      (⟨200, requestJson { matchingRequest with status := Status.cancelled }⟩,
        MatchingRequest.save rows matchingRequest Status.cancelled)

/-! ## The mounted API as a transition system -/

/-- The operations of the mounted matching API with their arguments. -/
inductive Call
  | createRequest (body : CreateBody)
  | listIncoming
  | listOutgoing
  | accept (id : Nat)
  | reject (id : Nat)
  | cancel (id : Nat)
  deriving DecidableEq, Repr

/-- One HTTP request to the matching API: the user table at the time it is
handled, the presented token and the operation. -/
structure ApiCall where
  users : List User
  token : Option Token
  call : Call
  deriving Repr

/-- The route of `call` run on behalf of the resolved user. -/
def dispatch (users : List User) (reqUser : User) (call : Call)
    (rows : List MatchingRequest) : Response × List MatchingRequest :=
  match call with
  | Call.createRequest body => postMatchRequests users reqUser body rows
  | Call.listIncoming => getIncoming reqUser rows
  | Call.listOutgoing => getOutgoing reqUser rows
  | Call.accept id => putAccept reqUser id rows
  | Call.reject id => putReject reqUser id rows
  | Call.cancel id => deleteMatchRequest reqUser id rows

/-- One request through `authenticateToken` and then its route handler. -/
def handle (c : ApiCall) (rows : List MatchingRequest) : Response × List MatchingRequest :=
  match authenticateToken c.users c.token with
  | Except.error resp => (resp, rows)
  | Except.ok reqUser => dispatch c.users reqUser c.call rows

/-- The request table after a sequence of requests handled one after another. -/
def run (calls : List ApiCall) (rows : List MatchingRequest) : List MatchingRequest :=
  calls.foldl (fun s c => (handle c s).2) rows

/-! ## Predicates used in the statements -/

/-- The pending requests authored by mentee `e`. -/
def pendingOf (rows : List MatchingRequest) (e : Nat) : List MatchingRequest :=
  rows.filter (fun r => r.menteeId == e && r.status == Status.pending)

/-- The accepted requests of mentee `e`. -/
def acceptedOfMentee (rows : List MatchingRequest) (e : Nat) : List MatchingRequest :=
  rows.filter (fun r => r.menteeId == e && r.status == Status.accepted)

/-- The accepted requests of mentor `m`. -/
def acceptedOfMentor (rows : List MatchingRequest) (m : Nat) : List MatchingRequest :=
  rows.filter (fun r => r.mentorId == m && r.status == Status.accepted)

/-- Primary-key constraint of the request table: no two rows share an id. -/
def UniqueIds (rows : List MatchingRequest) : Prop :=
  (rows.map (fun r => r.id)).Nodup

instance (rows : List MatchingRequest) : Decidable (UniqueIds rows) :=
  inferInstanceAs (Decidable ((rows.map (fun (r : MatchingRequest) => r.id)).Nodup))

/-- A row change that touches nothing but the status, and moves the status only
away from pending; `key` is the primary key a `save()` writes to. -/
def Evolves (key : Nat) (r r' : MatchingRequest) : Prop :=
  r'.id = r.id ∧ r'.menteeId = r.menteeId ∧ r'.mentorId = r.mentorId ∧
    r'.message = r.message ∧
    (r'.status = r.status ∨
      ((r.status = Status.pending ∨ r.id = key) ∧ r'.status ≠ Status.pending))

/-- The row-level effect of a successful accept of the request with key `id`,
mentor `m` and mentee `e`, as the specification words it. -/
def acceptEffect (id m e : Nat) (r : MatchingRequest) : MatchingRequest :=
  if r.id = id then { r with status := Status.accepted }
  else if r.status = Status.pending ∧ (r.mentorId = m ∨ r.menteeId = e) then
    { r with status := Status.rejected }
  else r

/-- The row-level effect of writing `status` to the request with key `id` only. -/
def setStatus (id : Nat) (status : Status) (r : MatchingRequest) : MatchingRequest :=
  if r.id = id then { r with status := status } else r

/-! ## Sample data -/

/-- A user table with two mentees, two active mentors and one inactive mentor. -/
def sampleUsers : List User :=
  [{ id := 1, role := Role.mentee, isActive := true }, { id := 2, role := Role.mentor, isActive := true }, { id := 3, role := Role.mentor, isActive := true },
    { id := 4, role := Role.mentee, isActive := true }, { id := 5, role := Role.mentor, isActive := false }]

/-- A request table: mentor 2 has pending requests from mentees 1 and 4, and
mentor 3 has rejected an earlier request of mentee 4. -/
def sampleRows : List MatchingRequest :=
  [⟨1, 1, 2, some "first", Status.pending⟩, ⟨2, 4, 2, some "second", Status.pending⟩,
    ⟨3, 4, 3, some "old", Status.rejected⟩]

/-- A well-formed body of `POST /match-requests`. -/
def sampleBody (mentorId : Nat) (message : String) : CreateBody :=
  { mentorId := NumField.int mentorId, message := StrField.str message, unknownKeys := [] }

/-! ## Role gates (`middleware/auth.js`) -/

/-- `requireMentor`: `none` stands for the call of `next()`. -/
def requireMentor (reqUser : User) : Option Response :=
  if reqUser.role ≠ Role.mentor then some ⟨403, Body.error "Mentor access required"⟩
  else none

/-- `requireMentee`: `none` stands for the call of `next()`. -/
def requireMentee (reqUser : User) : Option Response :=
  if reqUser.role ≠ Role.mentee then some ⟨403, Body.error "Mentee access required"⟩
  else none

/-! ## String rules (`routes/auth.js`, `middleware/security.js`) -/

/-- The `length` of a JS string: its number of UTF-16 code units, which is what
the `min` and `max` rules of `Joi.string()` compare. -/
def utf16Length (s : String) : Nat :=
  (s.data.map (fun c => if c.toNat < 65536 then 1 else 2)).sum

/-- `validator.isLength(str, { min, max })`: a surrogate pair counts once. -/
def isLength (s : String) (lo hi : Nat) : Bool :=
  decide (lo ≤ s.length ∧ s.length ≤ hi)

/-- The characters the regular-expression dot does not match: line feed,
carriage return, U+2028 and U+2029. -/
def isLineTerminator (c : Char) : Bool :=
  c.toNat == 10 || c.toNat == 13 || c.toNat == 8232 || c.toNat == 8233

/-- The class `[a-z]`. -/
def isLowerAZ (c : Char) : Bool :=
  decide (97 ≤ c.toNat ∧ c.toNat ≤ 122)

/-- The class `[A-Z]`. -/
def isUpperAZ (c : Char) : Bool :=
  decide (65 ≤ c.toNat ∧ c.toNat ≤ 90)

/-- The class `\d`, which is `[0-9]`. -/
def isDigit09 (c : Char) : Bool :=
  decide (48 ≤ c.toNat ∧ c.toNat ≤ 57)

/-- The class `[가-힣]`: U+AC00 to U+D7A3. -/
def isHangul (c : Char) : Bool :=
  decide (44032 ≤ c.toNat ∧ c.toNat ≤ 55203)

/-- The class `\s` of a JS regular expression. -/
def isWhiteSpace (c : Char) : Bool :=
  let n := c.toNat
  decide ((9 ≤ n ∧ n ≤ 13) ∨ n = 32 ∨ n = 160 ∨ n = 5760 ∨ (8192 ≤ n ∧ n ≤ 8202) ∨
    n = 8232 ∨ n = 8233 ∨ n = 8239 ∨ n = 8287 ∨ n = 12288 ∨ n = 65279)

/-- The lookahead `(?=.*[cls])` tried at the start of the input: some character
of the class stands after a run of characters the dot matches, that is, before
the first line terminator. -/
def lookahead (cls : Char → Bool) (cs : List Char) : Bool :=
  (cs.takeWhile (fun c => !isLineTerminator c)).any cls

/-- `/^(?=.*[a-z])(?=.*[A-Z])(?=.*\d)/.test(s)`. -/
def passwordPattern (s : String) : Bool :=
  lookahead isLowerAZ s.data && lookahead isUpperAZ s.data && lookahead isDigit09 s.data

/-- `/^[a-zA-Z가-힣\s]+$/.test(s)`. -/
def namePattern (s : String) : Bool :=
  !s.data.isEmpty &&
    s.data.all (fun c => isLowerAZ c || isUpperAZ c || isHangul c || isWhiteSpace c)

/-- `validateInput.password` of `middleware/security.js`. -/
def validateInput.password (password : String) : Bool :=
  isLength password 8 128 && passwordPattern password

/-- `validateInput.name` of `middleware/security.js`. -/
def validateInput.name (name : String) : Bool :=
  isLength name 1 100 && namePattern name

/-- The rule `Joi.string().min(8).max(128).pattern(...)` of the signup schema
on a string value. -/
def joiPassword (password : String) : Bool :=
  decide (password ≠ "") && decide (8 ≤ utf16Length password) &&
    decide (utf16Length password ≤ 128) && passwordPattern password

/-- The rule `Joi.string().min(1).max(100).pattern(...)` of the signup schema
on a string value. -/
def joiName (name : String) : Bool :=
  decide (name ≠ "") && decide (1 ≤ utf16Length name) &&
    decide (utf16Length name ≤ 100) && namePattern name

/-- The property the claim on the password rule words: between 8 and 128
characters, with a lowercase letter, an uppercase letter and a digit anywhere. -/
def passwordSpec (s : String) : Bool :=
  decide (8 ≤ s.length ∧ s.length ≤ 128) && s.data.any isLowerAZ && s.data.any isUpperAZ &&
    s.data.any isDigit09

/-! ## Signup, login and profile (`routes/auth.js`, `routes/api.js`) -/

/-- The library functions the auth handlers call, taken as parameters:
`Joi.string().email()`, the `isEmail` validator of the model, `bcrypt.hash(_, 12)`
and `bcrypt.compare`. -/
structure Env where
  joiEmail : String → Bool
  isEmail : String → Bool
  hash : String → String
  compare : String → String → Bool

/-- The base checks of a required `Joi.string()` member. -/
def joiString (label : String) (field : StrField) : Except String String :=
  match field with
  | StrField.missing => Except.error (joiMessage label "is required")
  | StrField.notString => Except.error (joiMessage label "must be a string")
  | StrField.str s =>
    if s = "" then Except.error (joiMessage label "is not allowed to be empty")
    else Except.ok s

/-- The text of the `min` rule of `Joi.string()`. -/
def joiMinText (n : Nat) : String :=
  "length must be at least " ++ toString n ++ " characters long"

/-- The text of the `max` rule of `Joi.string()`. -/
def joiMaxText (n : Nat) : String :=
  "length must be less than or equal to " ++ toString n ++ " characters long"

/-- The text of the `pattern` rule of `Joi.string()`, which quotes the value. -/
def joiPatternText (value pattern : String) : String :=
  "with value " ++ String.singleton (Char.ofNat 34) ++ value ++
    String.singleton (Char.ofNat 34) ++ " fails to match the required pattern: " ++ pattern

/-- The JSON text of a role. -/
def roleName (role : Role) : String :=
  match role with
  | Role.mentor => "mentor"
  | Role.mentee => "mentee"

/-- The parsed JSON body of `POST /signup`. -/
structure SignupBody where
  email : StrField
  password : StrField
  name : StrField
  role : StrField
  unknownKeys : List String := []
  deriving DecidableEq, Repr

/-- The member `role: Joi.string().valid("mentor", "mentee").required()`: a
value outside the allowed list is refused before its type is looked at. -/
def joiRole (field : StrField) : Except String Role :=
  match field with
  | StrField.missing => Except.error (joiMessage "role" "is required")
  | StrField.notString => Except.error (joiMessage "role" "must be one of [mentor, mentee]")
  | StrField.str s =>
    if s = "mentor" then Except.ok Role.mentor
    else if s = "mentee" then Except.ok Role.mentee
    else Except.error (joiMessage "role" "must be one of [mentor, mentee]")

/-- The member `email: Joi.string().email().min(5).max(254).required()`. -/
def joiSignupEmail (env : Env) (field : StrField) : Except String String :=
  match joiString "email" field with
  | Except.error e => Except.error e
  | Except.ok s =>
    if !env.joiEmail s then Except.error (joiMessage "email" "must be a valid email")
    else if utf16Length s < 5 then Except.error (joiMessage "email" (joiMinText 5))
    else if 254 < utf16Length s then Except.error (joiMessage "email" (joiMaxText 254))
    else Except.ok s

/-- The member `password: Joi.string().min(8).max(128).pattern(...).required()`. -/
def joiSignupPassword (field : StrField) : Except String String :=
  match joiString "password" field with
  | Except.error e => Except.error e
  | Except.ok s =>
    if utf16Length s < 8 then Except.error (joiMessage "password" (joiMinText 8))
    else if 128 < utf16Length s then Except.error (joiMessage "password" (joiMaxText 128))
    else if !passwordPattern s then
      Except.error (joiMessage "password" (joiPatternText s "/^(?=.*[a-z])(?=.*[A-Z])(?=.*\\d)/"))
    else Except.ok s

/-- The member `name: Joi.string().min(1).max(100).pattern(...).required()`. -/
def joiSignupName (field : StrField) : Except String String :=
  match joiString "name" field with
  | Except.error e => Except.error e
  | Except.ok s =>
    if utf16Length s < 1 then Except.error (joiMessage "name" (joiMinText 1))
    else if 100 < utf16Length s then Except.error (joiMessage "name" (joiMaxText 100))
    else if !namePattern s then
      Except.error (joiMessage "name" (joiPatternText s "/^[a-zA-Z가-힣\\s]+$/"))
    else Except.ok s

/-- `schema.validate(req.body)` of the signup handler: members in schema order,
first failure reported, unknown members refused last. -/
def signupSchema.validate (env : Env) (body : SignupBody) :
    Except String (String × String × String × Role) :=
  match joiSignupEmail env body.email with
  | Except.error e => Except.error e
  | Except.ok email =>
    match joiSignupPassword body.password with
    | Except.error e => Except.error e
    | Except.ok password =>
      match joiSignupName body.name with
      | Except.error e => Except.error e
      | Except.ok name =>
        match joiRole body.role with
        | Except.error e => Except.error e
        | Except.ok role =>
          match body.unknownKeys with
          | k :: _ => Except.error (joiMessage k "is not allowed")
          | [] => Except.ok (email, password, name, role)

/-- The primary key the next inserted user gets. -/
def nextUserId (users : List User) : Nat :=
  (users.map (fun u => u.id)).foldr max 0 + 1

/-- `User.create({ email, password, name, role })`: the validators of the model
(`isEmail`, `len` on email, password and name, `is` on name) and the unique
constraint on `email` run first and throw when they fail; `isActive` gets its
default. -/
def User.create (env : Env) (users : List User) (email password name : String)
    (role : Role) : Except String (User × List User) :=
  if env.isEmail email && isLength email 5 254 && isLength password 8 128 &&
      isLength name 1 100 && namePattern name then
    if users.any (fun u => u.email == email) then
      Except.error "SequelizeUniqueConstraintError"
    else
      let user : User :=
        { id := nextUserId users, email := email, password := password, name := name,
          role := role, isActive := true }
      Except.ok (user, users ++ [user])
  else
    Except.error "SequelizeValidationError"

/-- Handler of `POST /signup`. -/
def signup (env : Env) (users : List User) (body : SignupBody) : Response × List User :=
  match signupSchema.validate env body with
  | Except.error details => (⟨400, Body.validationList "Validation error" [details]⟩, users)
  | Except.ok (email, password, name, role) =>
    match User.findOne users (fun u => u.email == email) with
    | some _ => (⟨409, Body.error "Email already registered"⟩, users)
    | none =>
      let hashedPassword := env.hash password
      match User.create env users email hashedPassword name role with
      | Except.error _ => (⟨500, Body.error "Internal server error"⟩, users)
      | Except.ok (_, users1) => (⟨201, Body.message "User created successfully"⟩, users1)

/-- The parsed JSON body of `POST /login`. -/
structure LoginBody where
  email : StrField
  password : StrField
  unknownKeys : List String := []
  deriving DecidableEq, Repr

/-- `schema.validate(req.body)` of the login handler for
`Joi.object({ email: Joi.string().email().required(), password: Joi.string().required() })`. -/
def loginSchema.validate (env : Env) (body : LoginBody) : Except String (String × String) :=
  match joiString "email" body.email with
  | Except.error e => Except.error e
  | Except.ok email =>
    if !env.joiEmail email then Except.error (joiMessage "email" "must be a valid email")
    else
      match joiString "password" body.password with
      | Except.error e => Except.error e
      | Except.ok password =>
        match body.unknownKeys with
        | k :: _ => Except.error (joiMessage k "is not allowed")
        | [] => Except.ok (email, password)

/-- Handler of `POST /login`; `now` is `Math.floor(Date.now() / 1000)`. -/
def login (env : Env) (now : Nat) (users : List User) (body : LoginBody) : Response :=
  match loginSchema.validate env body with
  | Except.error details => ⟨400, Body.validation "Validation failed" details⟩
  | Except.ok (email, password) =>
    match User.findOne users (fun u => u.email == email) with
    | none => ⟨401, Body.error "Invalid credentials"⟩
    | some user =>
      if !env.compare password user.password then ⟨401, Body.error "Invalid credentials"⟩
      else
        ⟨200, Body.token
          { iss := "mentor-mentee-api", sub := toString user.id, aud := "mentor-mentee-web",
            exp := now + 3600, nbf := now, iat := now,
            jti := toString user.id ++ "_" ++ toString now, userId := none,
            name := user.name, email := user.email, role := user.role }⟩

/-- `Math.floor(Date.now() / 1000)` for a clock reading in milliseconds. -/
def secondsOf (dateNow : Nat) : Nat :=
  dateNow / 1000

/-- `generateToken` of `middleware/auth.js`; `now` is `Math.floor(Date.now() / 1000)`. -/
def generateToken (user : User) (now : Nat) : JwtPayload :=
  { iss := "mentor-mentee-app", sub := toString user.id, aud := "mentor-mentee-users",
    exp := now + 60 * 60, nbf := now, iat := now,
    jti := toString user.id ++ "-" ++ toString now, userId := some user.id,
    name := user.name, email := user.email, role := user.role }

/-- The value of a decimal digit. -/
def digitValue (c : Char) : Option Nat :=
  if 48 ≤ c.toNat ∧ c.toNat ≤ 57 then some (c.toNat - 48) else none

/-- Reads decimal digits from left to right onto the accumulator. -/
def parseDigits : List Char → Nat → Option Nat
  | [], acc => some acc
  | c :: cs, acc =>
    match digitValue c with
    | some d => parseDigits cs (acc * 10 + d)
    | none => none

/-- The primary key a subject text denotes when the store compares it with the
integer `id` column: the number written by its decimal digits. -/
def parseId (sub : String) : Option Nat :=
  match sub.data with
  | [] => none
  | c :: cs => parseDigits (c :: cs) 0

/-- What `authenticateToken` reads from a token that `jwt.verify` accepts and
that carries `payload`: `decoded.sub`, a non-empty text, as the primary key. -/
def decodedToken (payload : JwtPayload) : Option Token :=
  (parseId payload.sub).map Token.decoded

/-- `user.role.toUpperCase()`. -/
def roleUpper (role : Role) : String :=
  match role with
  | Role.mentor => "MENTOR"
  | Role.mentee => "MENTEE"

/-- The `imageUrl` member of a profile. -/
def imageUrl (user : User) : String :=
  match user.profileImage with
  | some _ => "/images/" ++ roleName user.role ++ "/" ++ toString user.id
  | none => "https://placehold.co/500x500.jpg?text=" ++ roleUpper user.role

/-- Handler of `GET /me` (`routes/api.js`); `reqUser` is `req.user`. -/
def getMe (users : List User) (reqUser : User) : Response :=
  match User.findByPk users reqUser.id with
  | none => ⟨404, Body.error "User not found"⟩
  | some user =>
    ⟨200, Body.me user.id user.email user.role user.name user.bio (imageUrl user)
      (if user.role = Role.mentor then some user.skills else none)⟩

/-- Primary-key constraint of the user table: no two rows share an id. -/
def UniqueUserIds (users : List User) : Prop :=
  (users.map (fun u => u.id)).Nodup

instance (users : List User) : Decidable (UniqueUserIds users) :=
  inferInstanceAs (Decidable ((users.map (fun (u : User) => u.id)).Nodup))

/-! ## Sample data for the auth handlers -/

/-- A stand-in for the libraries: an email has an at sign after its first
character, the hash prefixes the password, and comparison recomputes the hash. -/
def sampleEnv : Env :=
  { joiEmail := fun s => s.data.tail.contains (Char.ofNat 64)
    isEmail := fun s => s.data.tail.contains (Char.ofNat 64)
    hash := fun p => "$2a$12$" ++ p
    compare := fun p h => h == "$2a$12$" ++ p }

/-- A user table with one registered mentee. -/
def sampleAccounts : List User :=
  [{ id := 1, email := "kim@example.com", password := "$2a$12$Passw0rd1", name := "Kim",
     role := Role.mentee }]

/-- A message of 501 characters. -/
def longMessage : String :=
  String.mk (List.replicate 501 (Char.ofNat 97))

/-! ## The `Authorization` header (`middleware/auth.js`) -/

/-- `authHeader && authHeader.split(" ")[1]` followed by the test `!token`: the
text between the first and the second blank of the header, when there is a
header and that text is not empty. -/
def bearerToken (authHeader : Option String) : Option String :=
  match authHeader with
  | none => none
  | some h =>
    let field :=
      ((h.data.dropWhile (fun c => c != Char.ofNat 32)).drop 1).takeWhile
        (fun c => c != Char.ofNat 32)
    if field.isEmpty then none else some (String.mk field)

/-- `authenticateToken` from the header on: `verify` is `jwt.verify(_, JWT_SECRET)`
and is applied only when the header carries a token. -/
def authenticateToken.fromHeader (verify : String → Token) (users : List User)
    (authHeader : Option String) : Except Response User :=
  authenticateToken users ((bearerToken authHeader).map verify)

/-- A protected route: the middleware first, the handler only when it passed. -/
def protect (verify : String → Token) (users : List User) (authHeader : Option String)
    (handler : User → Response × List MatchingRequest) (rows : List MatchingRequest) :
    Response × List MatchingRequest :=
  match authenticateToken.fromHeader verify users authHeader with
  | Except.error resp => (resp, rows)
  | Except.ok reqUser => handler reqUser

/-! ## Shape of error bodies -/

/-- The shape `{error: string, details?: string[]}`: `error` is a string in every
body that has it, so the test is on `details`, which is absent, a list of
strings, or (in `validation`) a single string. -/
def Body.detailsIsList (body : Body) : Bool :=
  match body with
  | Body.validation _ _ => false
  | _ => true

/-! ## Sequences of signups -/

/-- The user table after a sequence of signup requests handled one after
another. -/
def runSignups (env : Env) (bodies : List SignupBody) (users : List User) : List User :=
  bodies.foldl (fun s b => (signup env s b).2) users

/-- The property the claim on the name rule words: between 1 and 100
characters, each a Latin letter, a Hangul syllable or a space. -/
def nameSpec (s : String) : Bool :=
  decide (1 ≤ s.length ∧ s.length ≤ 100) &&
    s.data.all (fun c => isLowerAZ c || isUpperAZ c || isHangul c || c.toNat == 32)

/-! ## Profile update (`routes/api.js`) -/

/-- The members `PUT /profile` reads from the JSON body; `none` is `undefined`.
`name` and `bio`, when present, are taken to be strings and `skills` a list of
strings. -/
structure ProfileBody where
  name : Option String := none
  bio : Option String := none
  image : Option String := none
  skills : Option (List String) := none
  deriving DecidableEq, Repr

/-- The row `v` after an `UPDATE ... WHERE id = user.id` that writes the given
members: rows with another primary key are untouched. -/
def applyProfile (user : User) (name bio : Option String) (skills : Option (List String))
    (profileImage : Option String) (v : User) : User :=
  if v.id == user.id then
    { v with
      name := name.getD v.name
      bio := (match bio with
        | some b => some b
        | none => v.bio)
      skills := skills.getD v.skills
      profileImage := (match profileImage with
        | some f => some f
        | none => v.profileImage) }
  else v

/-- `user.update(updateData)`: the validators of the members being written run
first (`len` and `is` on name, `len` on bio) and throw when they fail; then the
row with the primary key of `user` gets the new values. -/
def User.update (users : List User) (user : User) (name bio : Option String)
    (skills : Option (List String)) (profileImage : Option String) :
    Except String (List User) :=
  if (match name with
      | some n => isLength n 1 100 && namePattern n
      | none => true) &&
     (match bio with
      | some b => isLength b 0 1000
      | none => true) then
    Except.ok (users.map (applyProfile user name bio skills profileImage))
  else
    Except.error "SequelizeValidationError"

/-- Handler of `PUT /profile`; `reqUser` is `req.user`.  `imageError` stands for
the image block (base64 decoding, size, format and dimension checks, `sharp`):
the error text of the 400 it answers with, or `none` when the file was written. -/
def putProfile (imageError : String → Option String) (users : List User) (reqUser : User)
    (body : ProfileBody) : Response × List User :=
  match User.findByPk users reqUser.id with
  | none => (⟨404, Body.error "User not found"⟩, users)
  | some user =>
    let skills := if user.role = Role.mentor then body.skills else none
    let image := match body.image with
      | some i => if i.length > 0 then some i else none
      | none => none
    match (match image with
        | some i => imageError i
        | none => none) with
    | some msg => (⟨400, Body.error msg⟩, users)
    | none =>
      let profileImage := match image with
        | some _ => some ("user-" ++ toString user.id ++ ".jpg")
        | none => none
      match User.update users user body.name body.bio skills profileImage with
      | Except.error _ => (⟨500, Body.error "Internal server error"⟩, users)
      | Except.ok users1 =>
        match User.findByPk users1 reqUser.id with
        | none => (⟨500, Body.error "Internal server error"⟩, users1)
        | some updatedUser =>
          (⟨200, Body.me updatedUser.id updatedUser.email updatedUser.role updatedUser.name
              updatedUser.bio (imageUrl updatedUser)
              (if updatedUser.role = Role.mentor then some updatedUser.skills else none)⟩,
            users1)

/-! ## Mentor list (`routes/api.js`) -/

/-- The text `JSON.stringify` writes for one character of a string. -/
def jsonEscape (c : Char) : List Char :=
  if c.toNat = 34 then [Char.ofNat 92, Char.ofNat 34]
  else if c.toNat = 92 then [Char.ofNat 92, Char.ofNat 92]
  else if c.toNat = 8 then [Char.ofNat 92, Char.ofNat 98]
  else if c.toNat = 9 then [Char.ofNat 92, Char.ofNat 116]
  else if c.toNat = 10 then [Char.ofNat 92, Char.ofNat 110]
  else if c.toNat = 12 then [Char.ofNat 92, Char.ofNat 102]
  else if c.toNat = 13 then [Char.ofNat 92, Char.ofNat 114]
  else if c.toNat < 32 then
    [Char.ofNat 92, Char.ofNat 117, Char.ofNat 48, Char.ofNat 48,
      Nat.digitChar (c.toNat / 16), Nat.digitChar (c.toNat % 16)]
  else [c]

/-- `JSON.stringify` of a string: quoted and escaped. -/
def jsonString (s : String) : List Char :=
  Char.ofNat 34 :: (s.data.flatMap jsonEscape ++ [Char.ofNat 34])

/-- The elements of a JSON array of strings, separated by commas. -/
def jsonElements : List String → List Char
  | [] => []
  | [s] => jsonString s
  | s :: t :: rest => jsonString s ++ Char.ofNat 44 :: jsonElements (t :: rest)

/-- The text the `skills` setter stores: `JSON.stringify(value)`. -/
def skillsText (skills : List String) : List Char :=
  Char.ofNat 91 :: (jsonElements skills ++ [Char.ofNat 93])

/-- Letters A-Z folded to a-z, as the `LIKE` operator of the store compares. -/
def likeFold (c : Char) : Char :=
  if 65 ≤ c.toNat ∧ c.toNat ≤ 90 then Char.ofNat (c.toNat + 32) else c

/-- The `LIKE` operator of the store on a pattern and a text: the percent sign
matches any run of characters, the underscore any one character, and any other
character itself up to the case of ASCII letters. -/
def likeMatch : List Char → List Char → Bool
  | [], text => text.isEmpty
  | p :: ps, text =>
    if p.toNat = 37 then text.tails.any (fun t => likeMatch ps t)
    else
      match text with
      | [] => false
      | c :: cs => (p.toNat == 95 || likeFold p == likeFold c) && likeMatch ps cs

/-- The pattern of the skill filter: percent, quote, the skill, quote, percent. -/
def skillPattern (skill : String) : List Char :=
  Char.ofNat 37 :: Char.ofNat 34 :: (skill.data ++ [Char.ofNat 34, Char.ofNat 37])

/-- The projection of a found mentor to its JSON element. -/
def mentorJson (mentor : User) : MentorJson :=
  { id := mentor.id, email := mentor.email, role := mentor.role, name := mentor.name,
    bio := mentor.bio, imageUrl := imageUrl mentor, skills := mentor.skills }

/-- The `where` condition of `GET /mentors`: role mentor, active, and the skill
filter when `skill`, the member the handler reads from `req.query`, is a
non-empty string.  A user whose `skills` column was never written holds no
text there; no pattern of the filter matches it, as none matches the text of
the empty list, so the two are not told apart. -/
def mentorCondition (skill : Option String) (u : User) : Bool :=
  u.role == Role.mentor && u.isActive &&
    (match skill with
     | some s => if s = "" then true else likeMatch (skillPattern s) (skillsText u.skills)
     | none => true)

/-- The route `GET /mentors` as `server.js` mounts it.  `skill` and `orderParam`
are the query parameters `skill` and `order_by` as sent (`none` when absent).
`app.use(xssProtection)` runs before the router and replaces `req.query` by
`sanitizeObject(req.query)`, so the handler reads both strings after
`sanitizeInput`, here the parameter `xss`.  `orderBy column rows` is the order
in which the store returns the found rows for `ORDER BY column ASC`. -/
def getMentors (xss : String → String) (orderBy : String → List User → List User)
    (skill orderParam : Option String) (users : List User) : Response :=
  let skill := skill.map xss
  let orderParam := orderParam.map xss
  let column :=
    if orderParam = some "name" then "name"
    else if orderParam = some "skill" then "skills"
    else "id"
  let mentors := orderBy column (users.filter (mentorCondition skill))
  ⟨200, Body.mentors (mentors.map mentorJson)⟩

/-- A user table with one mentee and three mentors who have filled in their
skills. -/
def sampleMentors : List User :=
  [{ id := 1, email := "kim@example.com", name := "Kim", role := Role.mentee },
   { id := 2, email := "lee@example.com", name := "Lee", role := Role.mentor,
     skills := ["React", "Node"] },
   { id := 3, email := "park@example.com", name := "Park", role := Role.mentor,
     skills := ["Go"] },
   { id := 4, email := "choi@example.com", name := "Choi", role := Role.mentor,
     skills := ["Vue", "CSS"] }]

/-- A skill text `JSON.stringify` writes as it is: no quote, no backslash and
no control character. -/
def plainSkill (s : String) : Prop :=
  ∀ c ∈ s.data, 32 ≤ c.toNat ∧ c.toNat ≠ 34 ∧ c.toNat ≠ 92

instance (s : String) : Decidable (plainSkill s) :=
  inferInstanceAs (Decidable (∀ c ∈ s.data, 32 ≤ c.toNat ∧ c.toNat ≠ 34 ∧ c.toNat ≠ 92))

/-- A skill text the filter searches for letter by letter: it is not empty, it
has no quote, backslash or control character, neither of the wildcards of
`LIKE` (percent sign, underscore), and it is not the text of a single comma,
which stands between two elements of every stored list. -/
def literalSkill (s : String) : Prop :=
  s ≠ "" ∧ s ≠ "," ∧
    ∀ c ∈ s.data, 32 ≤ c.toNat ∧ c.toNat ≠ 34 ∧ c.toNat ≠ 92 ∧ c.toNat ≠ 37 ∧ c.toNat ≠ 95

instance (s : String) : Decidable (literalSkill s) :=
  inferInstanceAs (Decidable (s ≠ "" ∧ s ≠ "," ∧
    ∀ c ∈ s.data, 32 ≤ c.toNat ∧ c.toNat ≠ 34 ∧ c.toNat ≠ 92 ∧ c.toNat ≠ 37 ∧ c.toNat ≠ 95))

/-- No skill of the user contains a quote character. -/
def quoteFree (u : User) : Prop :=
  ∀ e ∈ u.skills, ∀ c ∈ e.data, c.toNat ≠ 34

instance (u : User) : Decidable (quoteFree u) :=
  inferInstanceAs (Decidable (∀ e ∈ u.skills, ∀ c ∈ e.data, c.toNat ≠ 34))

/-- The skills list of the user has `s` as an element, up to the case of the
letters A to Z. -/
def hasSkill (s : String) (u : User) : Bool :=
  u.skills.any (fun e => e.data.map likeFold == s.data.map likeFold)

/-- The users with role mentor and `isActive = true`, in table order. -/
def activeMentors (users : List User) : List User :=
  users.filter (fun u => u.role == Role.mentor && u.isActive)

/-! ## The accept handler, store operation by store operation -/

/-- Where a running accept handler stands: before its lookup, holding the found
instance before `save()`, after `save()`, after the first cascade update, or
finished with a response. -/
inductive AcceptPhase
  | start
  | found (matchingRequest : MatchingRequest)
  | saved (matchingRequest : MatchingRequest)
  | cascaded (matchingRequest : MatchingRequest)
  | done (response : Response)
  deriving DecidableEq, Repr

/-- The accept handler up to and including its next `await`: the role test and
the lookup, then `save()`, then the update of the pending requests of the
mentor, then the update of the pending requests of the mentee and the response.
`fails` says that the store operation of this stretch throws; the `catch` of the
handler then answers 500 and nothing is written by that operation. -/
def acceptStep (reqUser : User) (id : Nat) (fails : Bool) (phase : AcceptPhase)
    (rows : List MatchingRequest) : AcceptPhase × List MatchingRequest :=
  match phase with
  | AcceptPhase.start =>
    if reqUser.role ≠ Role.mentor then
      (AcceptPhase.done ⟨403, Body.error "Only mentors can accept requests"⟩, rows)
    else if fails then (AcceptPhase.done ⟨500, Body.error "Internal server error"⟩, rows)
    else
      match MatchingRequest.findOne rows
          (fun r => r.id == id && r.mentorId == reqUser.id && r.status == Status.pending) with
      | none => (AcceptPhase.done ⟨404, Body.error "Request not found"⟩, rows)
      | some matchingRequest => (AcceptPhase.found matchingRequest, rows)
  | AcceptPhase.found matchingRequest =>
    if fails then (AcceptPhase.done ⟨500, Body.error "Internal server error"⟩, rows)
    else (AcceptPhase.saved matchingRequest,
      MatchingRequest.save rows matchingRequest Status.accepted)
  | AcceptPhase.saved matchingRequest =>
    if fails then (AcceptPhase.done ⟨500, Body.error "Internal server error"⟩, rows)
    else (AcceptPhase.cascaded matchingRequest,
      MatchingRequest.update rows Status.rejected
        (fun r => r.mentorId == reqUser.id && r.status == Status.pending && r.id != id))
  | AcceptPhase.cascaded matchingRequest =>
    if fails then (AcceptPhase.done ⟨500, Body.error "Internal server error"⟩, rows)
    else (AcceptPhase.done
        ⟨200, requestJson { matchingRequest with status := Status.accepted }⟩,
      MatchingRequest.update rows Status.rejected
        (fun r => r.menteeId == matchingRequest.menteeId && r.status == Status.pending &&
          r.id != id))
  | AcceptPhase.done response => (AcceptPhase.done response, rows)

/-- One accept call run to its end; `fail k` says that its store operation
number `k` (0 the lookup, 1 `save()`, 2 and 3 the cascade updates) throws. -/
def putAcceptWith (fail : Nat → Bool) (reqUser : User) (id : Nat)
    (rows : List MatchingRequest) : AcceptPhase × List MatchingRequest :=
  let s0 := acceptStep reqUser id (fail 0) AcceptPhase.start rows
  let s1 := acceptStep reqUser id (fail 1) s0.1 s0.2
  let s2 := acceptStep reqUser id (fail 2) s1.1 s1.2
  acceptStep reqUser id (fail 3) s2.1 s2.2

/-- Two accept calls on one store, their stretches interleaved by `schedule`:
`false` lets the first call run to its next `await`, `true` the second. -/
def runPair (u1 : User) (id1 : Nat) (u2 : User) (id2 : Nat) (schedule : List Bool)
    (state : AcceptPhase × AcceptPhase × List MatchingRequest) :
    AcceptPhase × AcceptPhase × List MatchingRequest :=
  schedule.foldl
    (fun s second =>
      if second then
        let r := acceptStep u2 id2 false s.2.1 s.2.2
        (s.1, r.1, r.2)
      else
        let r := acceptStep u1 id1 false s.1 s.2.2
        (r.1, s.2.1, r.2))
    state

/-- A request table in which mentee 1 has pending requests to mentors 2 and 3. -/
def twoPendingRows : List MatchingRequest :=
  [⟨1, 1, 2, some "first", Status.pending⟩, ⟨2, 1, 3, some "second", Status.pending⟩]

/-- One accept call run alone for `n` stretches, none of which fails. -/
def acceptRun (reqUser : User) (id : Nat) :
    Nat → AcceptPhase × List MatchingRequest → AcceptPhase × List MatchingRequest
  | 0, s => s
  | n + 1, s => acceptRun reqUser id n (acceptStep reqUser id false s.1 s.2)

/-- The phase of an accept call `k` stretches after its lookup has found
`matchingRequest`, when none of them fails. -/
def phaseAfter (matchingRequest : MatchingRequest) : Nat → AcceptPhase
  | 0 => AcceptPhase.found matchingRequest
  | 1 => AcceptPhase.saved matchingRequest
  | 2 => AcceptPhase.cascaded matchingRequest
  | _ => AcceptPhase.done ⟨200, requestJson { matchingRequest with status := Status.accepted }⟩

/-- No request with key `id` is pending. -/
def NoPending (id : Nat) (rows : List MatchingRequest) : Prop :=
  ∀ r ∈ rows, r.id = id → r.status ≠ Status.pending

instance (id : Nat) (rows : List MatchingRequest) : Decidable (NoPending id rows) :=
  inferInstanceAs (Decidable (∀ r ∈ rows, r.id = id → r.status ≠ Status.pending))

/-! ## The middleware pipeline (`server.js`, `middleware/security.js`) -/

/-- A JSON value. -/
inductive Json
  | null
  | bool (b : Bool)
  | num (n : Int)
  | str (s : String)
  | arr (items : List Json)
  | obj (members : List (String × Json))

mutual
/-- `sanitizeObject`: every string value is passed through `sanitizeInput`, here
the parameter `xss`; arrays and objects are walked, other values are returned. -/
def sanitizeObject (xss : String → String) : Json → Json
  | Json.str s => Json.str (xss s)
  | Json.arr items => Json.arr (sanitizeItems xss items)
  | Json.obj members => Json.obj (sanitizeMembers xss members)
  | Json.null => Json.null
  | Json.bool b => Json.bool b
  | Json.num n => Json.num n
/-- The `map` over the items of an array. -/
def sanitizeItems (xss : String → String) : List Json → List Json
  | [] => []
  | item :: rest => sanitizeObject xss item :: sanitizeItems xss rest
/-- The loop over the entries of an object. -/
def sanitizeMembers (xss : String → String) : List (String × Json) → List (String × Json)
  | [] => []
  | (key, value) :: rest => (key, sanitizeObject xss value) :: sanitizeMembers xss rest
end

/-- The parts of an incoming request the pipeline touches: the JSON payload as
sent, `req.body` (`none` is `undefined`, its value until a body parser has run),
`req.query` and `req.params`. -/
structure Req where
  payload : Option Json
  body : Option Json
  query : Json
  params : Json

/-- `xssProtection`: sanitises `req.body` when there is one, `req.query` and
`req.params`, then calls `next()`. -/
def xssProtection (xss : String → String) (req : Req) : Req :=
  { req with
    body := req.body.map (sanitizeObject xss)
    query := sanitizeObject xss req.query
    params := sanitizeObject xss req.params }

/-- `express.json()`: parses the payload into `req.body`; without a JSON payload
the body is the empty object. -/
def expressJson (req : Req) : Req :=
  { req with body := some (req.payload.getD (Json.obj [])) }

/-- The middleware a request passes before it reaches a route, in the order
`server.js` mounts them: `app.use(xssProtection)` comes first and
`app.use(express.json(...))` after it. -/
def pipeline (xss : String → String) (req : Req) : Req :=
  expressJson (xssProtection xss req)

/-- A stand-in for `xss()`: it drops the angle brackets. -/
def sampleXss (s : String) : String :=
  String.mk (s.data.filter (fun c => c.toNat != 60 && c.toNat != 62))

/-! ## The mounted API over both tables -/

/-- The store of the application: the user table and the request table. -/
structure Store where
  users : List User
  requests : List MatchingRequest
  deriving DecidableEq, Repr

/-- A request to one of the mounted routes that write to the store: `POST
/signup`, `PUT /profile`, and the routes of the matching API.  The other
mounted routes (`POST /login`, `GET /me`, `GET /images/:role/:id`,
`GET /mentors`) only read. -/
inductive ApiRequest
  | signup (body : SignupBody)
  | profile (token : Option Token) (body : ProfileBody)
  | matching (token : Option Token) (call : Call)

/-- One request handled on the store. -/
def apiStep (env : Env) (imageError : String → Option String) (s : Store)
    (r : ApiRequest) : Store :=
  match r with
  | ApiRequest.signup body => { s with users := (signup env s.users body).2 }
  | ApiRequest.profile token body =>
    match authenticateToken s.users token with
    | Except.error _ => s
    | Except.ok reqUser => { s with users := (putProfile imageError s.users reqUser body).2 }
  | ApiRequest.matching token call =>
    { s with requests := (handle ⟨s.users, token, call⟩ s.requests).2 }

/-- The store after a sequence of requests handled one after another. -/
def runApi (env : Env) (imageError : String → Option String) (reqs : List ApiRequest)
    (s : Store) : Store :=
  reqs.foldl (apiStep env imageError) s

/-- Every request of the table names as mentee a user with role mentee and as
mentor a user with role mentor and `isActive = true`. -/
def Referenced (users : List User) (rows : List MatchingRequest) : Prop :=
  ∀ r ∈ rows, (∃ e ∈ users, e.id = r.menteeId ∧ e.role = Role.mentee) ∧
    (∃ m ∈ users, m.id = r.mentorId ∧ m.role = Role.mentor ∧ m.isActive = true)

instance (users : List User) (rows : List MatchingRequest) :
    Decidable (Referenced users rows) :=
  inferInstanceAs (Decidable (∀ r ∈ rows,
    (∃ e ∈ users, e.id = r.menteeId ∧ e.role = Role.mentee) ∧
    (∃ m ∈ users, m.id = r.mentorId ∧ m.role = Role.mentor ∧ m.isActive = true)))

/-- The user table the sample session leaves: mentee 1 and mentor 2. -/
def registeredUsers : List User :=
  [{ id := 1, email := "kim@example.com", password := "$2a$12$Passw0rd1",
     name := "Kim", role := Role.mentee, isActive := true },
   { id := 2, email := "lee@example.com", password := "$2a$12$Passw0rd2",
     name := "Lee", role := Role.mentor, skills := ["React"], isActive := true }]

/-- A session on the empty store: a mentee and a mentor sign up, the mentor
fills in a skill, the mentee sends the mentor a request and the mentor accepts
it. -/
def sampleSession : List ApiRequest :=
  [ApiRequest.signup ⟨StrField.str "kim@example.com", StrField.str "Passw0rd1",
      StrField.str "Kim", StrField.str "mentee", []⟩,
    ApiRequest.signup ⟨StrField.str "lee@example.com", StrField.str "Passw0rd2",
      StrField.str "Lee", StrField.str "mentor", []⟩,
    ApiRequest.profile (some (Token.decoded 2)) { skills := some ["React"] },
    ApiRequest.matching (some (Token.decoded 1)) (Call.createRequest (sampleBody 2 "hello")),
    ApiRequest.matching (some (Token.decoded 2)) (Call.accept 1)]

/-! ## Effect of each handler on the request table -/

theorem putAccept_rows (u : User) (id : Nat) (rows : List MatchingRequest) :
    ((putAccept u id rows).1.status ≠ 200 ∧ (putAccept u id rows).2 = rows) ∨
    ∃ R, R ∈ rows ∧ R.id = id ∧ R.mentorId = u.id ∧ R.status = Status.pending ∧
      u.role = Role.mentor ∧
      (putAccept u id rows).1 = ⟨200, requestJson { R with status := Status.accepted }⟩ ∧
      (putAccept u id rows).2 = rows.map (acceptEffect id u.id R.menteeId) := by
  unfold putAccept
  by_cases hrole : u.role = Role.mentor
  · simp only [hrole, ne_eq, not_true_eq_false, if_false]
    cases hf : MatchingRequest.findOne rows
        (fun r => r.id == id && r.mentorId == u.id && r.status == Status.pending) with
    | none => left; simp
    | some R =>
      right
      have hmem : R ∈ rows := List.mem_of_find?_eq_some hf
      have hp := List.find?_some hf
      simp only [Bool.and_eq_true, beq_iff_eq] at hp
      obtain ⟨⟨h1, h2⟩, h3⟩ := hp
      refine ⟨R, hmem, h1, h2, h3, trivial, rfl, ?_⟩
      simp only [MatchingRequest.update, MatchingRequest.save, List.map_map]
      apply List.map_congr_left
      intro r _
      simp only [Function.comp, h1, acceptEffect]
      by_cases hid : r.id = id
      · simp [hid]
      · by_cases hpend : r.status = Status.pending
        · by_cases hm : r.mentorId = u.id
          · simp [hid, hpend, hm]
          · by_cases he : r.menteeId = R.menteeId
            · simp [hid, hpend, hm, he]
            · simp [hid, hpend, hm, he]
        · simp [hid, hpend]
  · left; simp [hrole]

theorem putReject_rows (u : User) (id : Nat) (rows : List MatchingRequest) :
    ((putReject u id rows).1.status ≠ 200 ∧ (putReject u id rows).2 = rows) ∨
    ∃ R, R ∈ rows ∧ R.id = id ∧ R.mentorId = u.id ∧ R.status = Status.pending ∧
      u.role = Role.mentor ∧
      (putReject u id rows).1 = ⟨200, requestJson { R with status := Status.rejected }⟩ ∧
      (putReject u id rows).2 = rows.map (setStatus id Status.rejected) := by
  unfold putReject
  by_cases hrole : u.role = Role.mentor
  · simp only [hrole, ne_eq, not_true_eq_false, if_false]
    cases hf : MatchingRequest.findOne rows
        (fun r => r.id == id && r.mentorId == u.id && r.status == Status.pending) with
    | none => left; simp
    | some R =>
      right
      have hmem : R ∈ rows := List.mem_of_find?_eq_some hf
      have hp := List.find?_some hf
      simp only [Bool.and_eq_true, beq_iff_eq] at hp
      obtain ⟨⟨h1, h2⟩, h3⟩ := hp
      refine ⟨R, hmem, h1, h2, h3, trivial, rfl, ?_⟩
      simp only [MatchingRequest.save]
      apply List.map_congr_left
      intro r _
      simp [setStatus, h1]
  · left; simp [hrole]

theorem deleteMatchRequest_rows (u : User) (id : Nat) (rows : List MatchingRequest) :
    ((deleteMatchRequest u id rows).1.status ≠ 200 ∧ (deleteMatchRequest u id rows).2 = rows) ∨
    ∃ R, R ∈ rows ∧ R.id = id ∧ R.menteeId = u.id ∧ R.status = Status.pending ∧
      u.role = Role.mentee ∧
      (deleteMatchRequest u id rows).1
        = ⟨200, requestJson { R with status := Status.cancelled }⟩ ∧
      (deleteMatchRequest u id rows).2 = rows.map (setStatus id Status.cancelled) := by
  unfold deleteMatchRequest
  by_cases hrole : u.role = Role.mentee
  · simp only [hrole, ne_eq, not_true_eq_false, if_false]
    cases hf : MatchingRequest.findOne rows
        (fun r => r.id == id && r.menteeId == u.id && r.status == Status.pending) with
    | none => left; simp
    | some R =>
      right
      have hmem : R ∈ rows := List.mem_of_find?_eq_some hf
      have hp := List.find?_some hf
      simp only [Bool.and_eq_true, beq_iff_eq] at hp
      obtain ⟨⟨h1, h2⟩, h3⟩ := hp
      refine ⟨R, hmem, h1, h2, h3, trivial, rfl, ?_⟩
      simp only [MatchingRequest.save]
      apply List.map_congr_left
      intro r _
      simp [setStatus, h1]
  · left; simp [hrole]

theorem pendingOf_eq_nil_of_findOne (rows : List MatchingRequest) (e : Nat)
    (h : MatchingRequest.findOne rows
      (fun r => r.menteeId == e && r.status == Status.pending) = none) :
    pendingOf rows e = [] := by
  unfold MatchingRequest.findOne at h
  rw [List.find?_eq_none] at h
  unfold pendingOf
  rw [List.filter_eq_nil_iff]
  exact h

theorem postMatchRequests_rows (users : List User) (u : User) (body : CreateBody)
    (rows : List MatchingRequest) :
    ((postMatchRequests users u body rows).1.status ≠ 200 ∧
      (postMatchRequests users u body rows).2 = rows) ∨
    ∃ n, (postMatchRequests users u body rows).2 = rows ++ [n] ∧
      (postMatchRequests users u body rows).1 = ⟨200, requestJson n⟩ ∧
      n.id = nextId rows ∧ n.menteeId = u.id ∧ n.status = Status.pending ∧
      pendingOf rows u.id = [] ∧ u.role = Role.mentee ∧
      (∃ m, m ∈ users ∧ m.id = n.mentorId ∧ m.role = Role.mentor) := by
  unfold postMatchRequests
  by_cases hrole : u.role = Role.mentee
  · simp only [hrole, ne_eq, not_true_eq_false, if_false]
    split
    · left; simp
    · rename_i mentorId message hv
      split
      · left; simp
      · rename_i m hm
        split
        · left; simp
        · rename_i hp
          by_cases hlen : message.length ≤ 500
          · right
            have hmm : m ∈ users := List.mem_of_find?_eq_some hm
            have hmp := List.find?_some hm
            simp only [Bool.and_eq_true, beq_iff_eq] at hmp
            simp only [MatchingRequest.create, hlen, if_true]
            exact ⟨_, rfl, rfl, rfl, rfl, rfl, pendingOf_eq_nil_of_findOne rows u.id hp,
              trivial, m, hmm, hmp.1, hmp.2⟩
          · left
            simp [MatchingRequest.create, hlen]
  · left; simp [hrole]

/-! ## Row-level facts -/

theorem evolves_refl (key : Nat) (r : MatchingRequest) : Evolves key r r :=
  ⟨rfl, rfl, rfl, rfl, Or.inl rfl⟩

theorem evolves_acceptEffect (id m e : Nat) (r : MatchingRequest) :
    Evolves id r (acceptEffect id m e r) := by
  unfold acceptEffect
  split
  · rename_i h
    exact ⟨rfl, rfl, rfl, rfl, Or.inr ⟨Or.inr h, by simp⟩⟩
  · split
    · rename_i h
      exact ⟨rfl, rfl, rfl, rfl, Or.inr ⟨Or.inl h.1, by simp⟩⟩
    · exact evolves_refl id r

theorem evolves_setStatus (id : Nat) (s : Status) (hs : s ≠ Status.pending)
    (r : MatchingRequest) : Evolves id r (setStatus id s r) := by
  unfold setStatus
  split
  · rename_i h
    exact ⟨rfl, rfl, rfl, rfl, Or.inr ⟨Or.inr h, hs⟩⟩
  · exact evolves_refl id r

theorem pendingOf_append (rows extra : List MatchingRequest) (e : Nat) :
    pendingOf (rows ++ extra) e = pendingOf rows e ++ pendingOf extra e := by
  simp [pendingOf]

theorem filter_map_length_le {α : Type} (p : α → Bool) (f : α → α)
    (h : ∀ a, p (f a) = true → p a = true) (l : List α) :
    ((l.map f).filter p).length ≤ (l.filter p).length := by
  induction l with
  | nil => simp
  | cons a t ih =>
    simp only [List.map_cons, List.filter_cons]
    by_cases hp : p (f a) = true
    · simp only [hp, h a hp, if_true, List.length_cons]
      omega
    · by_cases hq : p a = true
      · have hp2 : p (f a) = false := by simpa using hp
        simp only [hp2, hq, if_true, Bool.false_eq_true, if_false, List.length_cons]
        omega
      · have hp2 : p (f a) = false := by simpa using hp
        have hq2 : p a = false := by simpa using hq
        simp only [hp2, hq2, Bool.false_eq_true, if_false]
        exact ih

theorem pendingOf_map_le (key : Nat) (f : MatchingRequest → MatchingRequest)
    (hf : ∀ r, Evolves key r (f r)) (rows : List MatchingRequest) (e : Nat) :
    (pendingOf (rows.map f) e).length ≤ (pendingOf rows e).length := by
  unfold pendingOf
  apply filter_map_length_le
  intro r hp
  obtain ⟨_, hme, _, _, hst⟩ := hf r
  simp only [Bool.and_eq_true, beq_iff_eq] at hp ⊢
  refine ⟨hme ▸ hp.1, ?_⟩
  rcases hst with h | h
  · rw [← h]; exact hp.2
  · exact absurd hp.2 h.2

/-! ## One step of the API -/

theorem dispatch_rows (users : List User) (u : User) (call : Call)
    (rows : List MatchingRequest) :
    (dispatch users u call rows).2 = rows ∨
    (∃ key f, (∃ R, R ∈ rows ∧ R.id = key ∧ R.status = Status.pending) ∧
      (∀ r, Evolves key r (f r)) ∧ (dispatch users u call rows).2 = rows.map f) ∨
    (∃ n, (dispatch users u call rows).2 = rows ++ [n] ∧ n.id = nextId rows ∧
      n.status = Status.pending ∧ pendingOf rows n.menteeId = []) := by
  cases call with
  | createRequest body =>
    rcases postMatchRequests_rows users u body rows with h | ⟨n, h1, _, h3, h4, h5, h6, _⟩
    · left; exact h.2
    · right; right
      exact ⟨n, h1, h3, h5, h4 ▸ h6⟩
  | listIncoming =>
    left
    show (getIncoming u rows).2 = rows
    unfold getIncoming
    split <;> rfl
  | listOutgoing =>
    left
    show (getOutgoing u rows).2 = rows
    unfold getOutgoing
    split <;> rfl
  | accept id =>
    rcases putAccept_rows u id rows with h | ⟨R, hR, h1, _, h3, _, _, h6⟩
    · left; exact h.2
    · right; left
      exact ⟨id, _, ⟨R, hR, h1, h3⟩, evolves_acceptEffect id u.id R.menteeId, h6⟩
  | reject id =>
    rcases putReject_rows u id rows with h | ⟨R, hR, h1, _, h3, _, _, h6⟩
    · left; exact h.2
    · right; left
      exact ⟨id, _, ⟨R, hR, h1, h3⟩, evolves_setStatus id _ (by decide), h6⟩
  | cancel id =>
    rcases deleteMatchRequest_rows u id rows with h | ⟨R, hR, h1, _, h3, _, _, h6⟩
    · left; exact h.2
    · right; left
      exact ⟨id, _, ⟨R, hR, h1, h3⟩, evolves_setStatus id _ (by decide), h6⟩

theorem handle_rows (c : ApiCall) (rows : List MatchingRequest) :
    (handle c rows).2 = rows ∨
    (∃ key f, (∃ R, R ∈ rows ∧ R.id = key ∧ R.status = Status.pending) ∧
      (∀ r, Evolves key r (f r)) ∧ (handle c rows).2 = rows.map f) ∨
    (∃ n, (handle c rows).2 = rows ++ [n] ∧ n.id = nextId rows ∧
      n.status = Status.pending ∧ pendingOf rows n.menteeId = []) := by
  unfold handle
  cases authenticateToken c.users c.token with
  | error resp => left; rfl
  | ok u => exact dispatch_rows c.users u c.call rows

theorem handle_pending_le_one (c : ApiCall) (rows : List MatchingRequest)
    (h : ∀ e, (pendingOf rows e).length ≤ 1) (e : Nat) :
    (pendingOf (handle c rows).2 e).length ≤ 1 := by
  rcases handle_rows c rows with h1 | ⟨key, f, _, hf, h1⟩ | ⟨n, h1, _, hn, hnone⟩
  · rw [h1]; exact h e
  · rw [h1]; exact le_trans (pendingOf_map_le key f hf rows e) (h e)
  · rw [h1, pendingOf_append]
    by_cases he : n.menteeId = e
    · subst he
      rw [hnone]
      simp only [pendingOf, List.nil_append]
      exact le_trans (List.length_filter_le _ _) (by simp)
    · have : pendingOf [n] e = [] := by
        simp [pendingOf, he]
      rw [this, List.append_nil]
      exact h e

theorem run_pending_le_one (calls : List ApiCall) :
    ∀ rows : List MatchingRequest, (∀ e, (pendingOf rows e).length ≤ 1) →
      ∀ e, (pendingOf (run calls rows) e).length ≤ 1 := by
  induction calls with
  | nil => intro rows h e; exact h e
  | cons c rest ih =>
    intro rows h e
    have : run (c :: rest) rows = run rest (handle c rows).2 := rfl
    rw [this]
    exact ih _ (handle_pending_le_one c rows h) e

/-! ## Primary keys and positions -/

theorem id_lt_nextId (rows : List MatchingRequest) (r : MatchingRequest) (h : r ∈ rows) :
    r.id < nextId rows := by
  unfold nextId
  induction rows with
  | nil => cases h
  | cons a t ih =>
    simp only [List.map_cons, List.foldr_cons]
    rcases List.mem_cons.mp h with h1 | h1
    · subst h1
      omega
    · have := ih h1
      omega

theorem uniqueIds_map (f : MatchingRequest → MatchingRequest) (hf : ∀ r, (f r).id = r.id)
    (rows : List MatchingRequest) (h : UniqueIds rows) : UniqueIds (rows.map f) := by
  unfold UniqueIds at h ⊢
  have : List.map (fun r => r.id) (List.map f rows) = List.map (fun r => r.id) rows := by
    rw [List.map_map]
    apply List.map_congr_left
    intro r _
    exact hf r
  rw [this]
  exact h

theorem uniqueIds_append (rows : List MatchingRequest) (n : MatchingRequest)
    (h : UniqueIds rows) (hn : n.id = nextId rows) : UniqueIds (rows ++ [n]) := by
  unfold UniqueIds at h ⊢
  rw [List.map_append, List.nodup_append]
  refine ⟨h, by simp, ?_⟩
  intro a ha hb
  simp only [List.map_cons, List.map_nil, List.mem_singleton] at hb
  obtain ⟨r, hr, hra⟩ := List.mem_map.mp ha
  have := id_lt_nextId rows r hr
  omega

theorem handle_uniqueIds (c : ApiCall) (rows : List MatchingRequest) (h : UniqueIds rows) :
    UniqueIds (handle c rows).2 := by
  rcases handle_rows c rows with h1 | ⟨key, f, _, hf, h1⟩ | ⟨n, h1, hn, _, _⟩
  · rw [h1]; exact h
  · rw [h1]; exact uniqueIds_map f (fun r => (hf r).1) rows h
  · rw [h1]; exact uniqueIds_append rows n h hn

theorem handle_getElem (c : ApiCall) (rows : List MatchingRequest) (h : UniqueIds rows)
    (i : Nat) (r : MatchingRequest) (hi : rows[i]? = some r) :
    ∃ r' : MatchingRequest, (handle c rows).2[i]? = some r' ∧ r'.id = r.id ∧
      (r'.status ≠ r.status → r.status = Status.pending ∧ r'.status ≠ Status.pending) := by
  rcases handle_rows c rows with h1 | ⟨key, f, ⟨R, hR, hk, hRp⟩, hf, h1⟩ | ⟨n, h1, _, _, _⟩
  · exact ⟨r, by rw [h1, hi], rfl, fun hne => absurd rfl hne⟩
  · refine ⟨f r, by rw [h1, List.getElem?_map, hi]; rfl, (hf r).1, ?_⟩
    intro hne
    obtain ⟨_, _, _, _, hst⟩ := hf r
    rcases hst with h0 | ⟨h0, h2⟩
    · exact absurd h0 hne
    · refine ⟨?_, h2⟩
      rcases h0 with h0 | h0
      · exact h0
      · have hrR : r = R :=
          List.inj_on_of_nodup_map h (List.getElem?_mem hi) hR (by rw [h0, hk])
        rw [hrR]; exact hRp
  · have hlt : i < rows.length := by
      obtain ⟨hlt, _⟩ := List.getElem?_eq_some.mp hi
      exact hlt
    exact ⟨r, by rw [h1, List.getElem?_append_left hlt, hi], rfl, fun hne => absurd rfl hne⟩

theorem handle_getElem_new (c : ApiCall) (rows : List MatchingRequest) (i : Nat)
    (r' : MatchingRequest) (hi : rows.length ≤ i) (h : (handle c rows).2[i]? = some r') :
    r'.status = Status.pending := by
  rcases handle_rows c rows with h1 | ⟨key, f, _, _, h1⟩ | ⟨n, h1, _, hn, _⟩
  · rw [h1, List.getElem?_eq_none hi] at h
    cases h
  · rw [h1, List.getElem?_eq_none (by rw [List.length_map]; exact hi)] at h
    cases h
  · rw [h1, List.getElem?_append_right hi] at h
    have hmem : r' ∈ [n] := List.getElem?_mem h
    rw [List.mem_singleton] at hmem
    rw [hmem]; exact hn

theorem run_terminal (calls : List ApiCall) :
    ∀ (rows : List MatchingRequest), UniqueIds rows →
      ∀ (i : Nat) (r : MatchingRequest), rows[i]? = some r → r.status ≠ Status.pending →
        ∃ r' : MatchingRequest, (run calls rows)[i]? = some r' ∧ r'.id = r.id ∧
          r'.status = r.status := by
  induction calls with
  | nil => intro rows _ i r hi _; exact ⟨r, hi, rfl, rfl⟩
  | cons c rest ih =>
    intro rows hu i r hi hr
    obtain ⟨r1, h1, hid1, hst1⟩ := handle_getElem c rows hu i r hi
    have hs : r1.status = r.status := by
      by_contra hne
      exact hr (hst1 hne).1
    obtain ⟨r2, h2, hid2, hst2⟩ :=
      ih (handle c rows).2 (handle_uniqueIds c rows hu) i r1 h1 (by rw [hs]; exact hr)
    exact ⟨r2, h2, by rw [hid2, hid1], by rw [hst2, hs]⟩

theorem eq_of_mem_of_length_le_one {α : Type} (l : List α) (a b : α)
    (hl : l.length ≤ 1) (ha : a ∈ l) (hb : b ∈ l) : a = b := by
  match l, hl, ha, hb with
  | [x], _, ha, hb =>
    rw [List.mem_singleton] at ha hb
    rw [ha, hb]
  | _ :: _ :: _, hl, _, _ =>
    simp only [List.length_cons] at hl
    omega

theorem validate_wellFormed (mentorId : Nat) (message : String) (h0 : 0 < mentorId)
    (hmsg : message ≠ "") :
    createRequestSchema.validate ⟨NumField.int mentorId, StrField.str message, []⟩
      = Except.ok (mentorId, message) := by
  have h1 : ¬((mentorId : Int) ≤ 0) := by omega
  simp only [createRequestSchema.validate, h1, hmsg, if_false, Int.toNat_ofNat]

theorem validate_empty (mentorId : Nat) (h0 : 0 < mentorId) :
    createRequestSchema.validate ⟨NumField.int mentorId, StrField.str "", []⟩
      = Except.error (joiMessage "message" "is not allowed to be empty") := by
  unfold createRequestSchema.validate
  have hk : ¬((mentorId : Int) ≤ 0) := by omega
  simp only [hk, if_false, if_true]

theorem validate_missing (mentorId : Nat) (h0 : 0 < mentorId) :
    createRequestSchema.validate ⟨NumField.int mentorId, StrField.missing, []⟩
      = Except.error (joiMessage "message" "is required") := by
  unfold createRequestSchema.validate
  have hk : ¬((mentorId : Int) ≤ 0) := by omega
  simp only [hk, if_false]

/-! ## The claims -/

/-- C1: from an empty request table, after every prefix of every sequence of
calls to the mounted matching API (any tokens, any arguments, any user table),
each mentee has at most one request with status pending. -/
theorem one_pending_per_mentee (calls : List ApiCall) (k : Nat) (e : Nat) :
    (pendingOf (run (calls.take k) []) e).length ≤ 1 :=
  run_pending_le_one (calls.take k) [] (fun _ => by simp [pendingOf]) e

/-- C2: a successful accept of the request with key `id` by mentor `u` finds a
pending request `R` of that mentor with that key; afterwards the table has the
same rows in the same order, each with the same id, mentorId, menteeId and
message; the row with key `id` is accepted, every other row that was pending and
has the mentor of `R` or the mentee of `R` is rejected, and every remaining row
keeps its status. -/
theorem accept_cascade (u : User) (id : Nat) (rows : List MatchingRequest)
    (h : (putAccept u id rows).1.status = 200) :
    ∃ R, R ∈ rows ∧ R.id = id ∧ R.mentorId = u.id ∧ R.status = Status.pending ∧
      (putAccept u id rows).2.length = rows.length ∧
      ∀ (i : Nat) (r : MatchingRequest), rows[i]? = some r →
        ∃ r' : MatchingRequest, (putAccept u id rows).2[i]? = some r' ∧
          r'.id = r.id ∧ r'.mentorId = r.mentorId ∧ r'.menteeId = r.menteeId ∧
          r'.message = r.message ∧
          (r.id = id → r'.status = Status.accepted) ∧
          (r.id ≠ id → r.status = Status.pending →
            (r.mentorId = R.mentorId ∨ r.menteeId = R.menteeId) →
            r'.status = Status.rejected) ∧
          (r.id ≠ id →
            ¬(r.status = Status.pending ∧
              (r.mentorId = R.mentorId ∨ r.menteeId = R.menteeId)) →
            r'.status = r.status) := by
  rcases putAccept_rows u id rows with hfail | ⟨R, hR, h1, h2, h3, _, _, h6⟩
  · exact absurd h hfail.1
  · refine ⟨R, hR, h1, h2, h3, by rw [h6, List.length_map], ?_⟩
    intro i r hi
    refine ⟨acceptEffect id u.id R.menteeId r, by rw [h6, List.getElem?_map, hi]; rfl, ?_⟩
    rw [h2]
    unfold acceptEffect
    by_cases hid : r.id = id
    · simp [hid]
    · by_cases hc : r.status = Status.pending ∧ (r.mentorId = u.id ∨ r.menteeId = R.menteeId)
      · simp [hid, hc]
      · rw [if_neg hid, if_neg hc]
        refine ⟨rfl, rfl, rfl, rfl, ?_, ?_, ?_⟩
        · intro h0; exact absurd h0 hid
        · intro _ hp ho; exact absurd ⟨hp, ho⟩ hc
        · intro _ _; rfl

/-- Witness of C2: mentor 2 accepts request 1 in the sample table. -/
theorem accept_cascade_witness :
    (putAccept { id := 2, role := Role.mentor, isActive := true } 1 sampleRows).1.status = 200 ∧
    ∃ R, R ∈ sampleRows ∧ R.id = 1 ∧ R.mentorId = 2 ∧ R.status = Status.pending ∧
      (putAccept { id := 2, role := Role.mentor, isActive := true } 1 sampleRows).2.length = sampleRows.length ∧
      ∀ (i : Nat) (r : MatchingRequest), sampleRows[i]? = some r →
        ∃ r' : MatchingRequest, (putAccept { id := 2, role := Role.mentor, isActive := true } 1 sampleRows).2[i]? = some r' ∧
          r'.id = r.id ∧ r'.mentorId = r.mentorId ∧ r'.menteeId = r.menteeId ∧
          r'.message = r.message ∧
          (r.id = 1 → r'.status = Status.accepted) ∧
          (r.id ≠ 1 → r.status = Status.pending →
            (r.mentorId = R.mentorId ∨ r.menteeId = R.menteeId) →
            r'.status = Status.rejected) ∧
          (r.id ≠ 1 →
            ¬(r.status = Status.pending ∧
              (r.mentorId = R.mentorId ∨ r.menteeId = R.menteeId)) →
            r'.status = r.status) :=
  ⟨by decide, accept_cascade { id := 2, role := Role.mentor, isActive := true } 1 sampleRows (by decide)⟩

/-- C3: on a request table with distinct ids, every call to the mounted matching
API keeps each stored request at its position with its id; if the call changes
the status of a stored request, the status was pending before and is accepted,
rejected or cancelled after; every row the call adds is pending; and a request
that is accepted, rejected or cancelled keeps that status through every later
sequence of calls. -/
theorem status_state_machine (c : ApiCall) (rows : List MatchingRequest)
    (hu : UniqueIds rows) :
    (∀ (i : Nat) (r : MatchingRequest), rows[i]? = some r →
      ∃ r' : MatchingRequest, (handle c rows).2[i]? = some r' ∧ r'.id = r.id ∧
        (r'.status ≠ r.status →
          r.status = Status.pending ∧
            (r'.status = Status.accepted ∨ r'.status = Status.rejected ∨
              r'.status = Status.cancelled))) ∧
    (∀ (i : Nat) (r' : MatchingRequest), rows.length ≤ i →
      (handle c rows).2[i]? = some r' → r'.status = Status.pending) ∧
    (∀ (calls : List ApiCall) (i : Nat) (r : MatchingRequest), rows[i]? = some r →
      r.status ≠ Status.pending →
      ∃ r' : MatchingRequest, (run calls rows)[i]? = some r' ∧ r'.id = r.id ∧
        r'.status = r.status) := by
  refine ⟨?_, ?_, ?_⟩
  · intro i r hi
    obtain ⟨r1, h1, hid, hst⟩ := handle_getElem c rows hu i r hi
    refine ⟨r1, h1, hid, fun hne => ⟨(hst hne).1, ?_⟩⟩
    have hnp := (hst hne).2
    cases hs : r1.status with
    | pending => exact absurd hs hnp
    | accepted => exact Or.inl rfl
    | rejected => exact Or.inr (Or.inl rfl)
    | cancelled => exact Or.inr (Or.inr rfl)
  · intro i r1 hi h
    exact handle_getElem_new c rows i r1 hi h
  · intro calls i r hi hr
    exact run_terminal calls rows hu i r hi hr

/-- Witness of C3: mentor 2 accepts request 1 in the sample table. -/
theorem status_state_machine_witness :
    UniqueIds sampleRows ∧
    (∀ (i : Nat) (r : MatchingRequest), sampleRows[i]? = some r →
      ∃ r' : MatchingRequest,
        (handle ⟨sampleUsers, some (Token.decoded 2), Call.accept 1⟩ sampleRows).2[i]?
          = some r' ∧ r'.id = r.id ∧
        (r'.status ≠ r.status →
          r.status = Status.pending ∧
            (r'.status = Status.accepted ∨ r'.status = Status.rejected ∨
              r'.status = Status.cancelled))) ∧
    (∀ (i : Nat) (r' : MatchingRequest), sampleRows.length ≤ i →
      (handle ⟨sampleUsers, some (Token.decoded 2), Call.accept 1⟩ sampleRows).2[i]?
        = some r' → r'.status = Status.pending) ∧
    (∀ (calls : List ApiCall) (i : Nat) (r : MatchingRequest), sampleRows[i]? = some r →
      r.status ≠ Status.pending →
      ∃ r' : MatchingRequest, (run calls sampleRows)[i]? = some r' ∧ r'.id = r.id ∧
        r'.status = r.status) :=
  ⟨by decide,
    status_state_machine ⟨sampleUsers, some (Token.decoded 2), Call.accept 1⟩ sampleRows
      (by decide)⟩

/-- C4: when no stored request has the given id, belongs to the caller and is
pending, accept and reject called by a mentor, and cancel called by a mentee,
answer 404 with the error "Request not found" and leave the table as it was. -/
theorem not_found_leaves_store (u : User) (id : Nat) (rows : List MatchingRequest) :
    (u.role = Role.mentor →
      (∀ r ∈ rows, ¬(r.id = id ∧ r.mentorId = u.id ∧ r.status = Status.pending)) →
      putAccept u id rows = (⟨404, Body.error "Request not found"⟩, rows) ∧
      putReject u id rows = (⟨404, Body.error "Request not found"⟩, rows)) ∧
    (u.role = Role.mentee →
      (∀ r ∈ rows, ¬(r.id = id ∧ r.menteeId = u.id ∧ r.status = Status.pending)) →
      deleteMatchRequest u id rows = (⟨404, Body.error "Request not found"⟩, rows)) := by
  constructor
  · intro hrole hnone
    have hf : MatchingRequest.findOne rows
        (fun r => r.id == id && r.mentorId == u.id && r.status == Status.pending) = none := by
      unfold MatchingRequest.findOne
      rw [List.find?_eq_none]
      intro r hr hc
      simp only [Bool.and_eq_true, beq_iff_eq] at hc
      exact hnone r hr ⟨hc.1.1, hc.1.2, hc.2⟩
    constructor
    · unfold putAccept
      simp only [hrole, ne_eq, not_true_eq_false, if_false, hf]
    · unfold putReject
      simp only [hrole, ne_eq, not_true_eq_false, if_false, hf]
  · intro hrole hnone
    have hf : MatchingRequest.findOne rows
        (fun r => r.id == id && r.menteeId == u.id && r.status == Status.pending) = none := by
      unfold MatchingRequest.findOne
      rw [List.find?_eq_none]
      intro r hr hc
      simp only [Bool.and_eq_true, beq_iff_eq] at hc
      exact hnone r hr ⟨hc.1.1, hc.1.2, hc.2⟩
    unfold deleteMatchRequest
    simp only [hrole, ne_eq, not_true_eq_false, if_false, hf]

/-- Witness of C4: in the sample table request 1 is addressed to mentor 2 and
authored by mentee 1, and request 3 is no longer pending; mentor 3 asks for
request 1 and mentee 4 asks for request 3. -/
theorem not_found_leaves_store_witness :
    (putAccept { id := 3, role := Role.mentor, isActive := true } 1 sampleRows
        = (⟨404, Body.error "Request not found"⟩, sampleRows) ∧
      putReject { id := 3, role := Role.mentor, isActive := true } 1 sampleRows
        = (⟨404, Body.error "Request not found"⟩, sampleRows)) ∧
    deleteMatchRequest { id := 4, role := Role.mentee, isActive := true } 3 sampleRows
      = (⟨404, Body.error "Request not found"⟩, sampleRows) :=
  ⟨(not_found_leaves_store { id := 3, role := Role.mentor, isActive := true } 1 sampleRows).1 rfl (by decide),
    (not_found_leaves_store { id := 4, role := Role.mentee, isActive := true } 3 sampleRows).2 rfl (by decide)⟩

/-- C5: a mentee whose one pending request is `P` sends a well-formed create
request to an existing mentor, the same or another one: the answer is the
duplicate-pending error (status 400) carrying the id and the mentorId of `P`,
and the table is unchanged, so no request is created. -/
theorem create_conflict (users : List User) (u : User) (rows : List MatchingRequest)
    (P : MatchingRequest) (mentorId : Nat) (message : String)
    (hrole : u.role = Role.mentee) (hP : P ∈ rows) (hPe : P.menteeId = u.id)
    (hPs : P.status = Status.pending) (hone : (pendingOf rows u.id).length ≤ 1)
    (h0 : 0 < mentorId) (hmsg : message ≠ "")
    (hmentor : ∃ m ∈ users, m.id = mentorId ∧ m.role = Role.mentor) :
    postMatchRequests users u ⟨NumField.int mentorId, StrField.str message, []⟩ rows
      = (⟨400, Body.conflict pendingExistsError P.id P.mentorId⟩, rows) := by
  have hPin : P ∈ pendingOf rows u.id := by
    unfold pendingOf
    rw [List.mem_filter]
    exact ⟨hP, by simp [hPe, hPs]⟩
  unfold postMatchRequests
  simp only [hrole, ne_eq, not_true_eq_false, if_false,
    validate_wellFormed mentorId message h0 hmsg]
  cases hm : User.findOne users (fun x => x.id == mentorId && x.role == Role.mentor) with
  | none =>
    exfalso
    unfold User.findOne at hm
    rw [List.find?_eq_none] at hm
    obtain ⟨m, hmem, h1, h2⟩ := hmentor
    exact hm m hmem (by simp [h1, h2])
  | some m =>
    cases hq : MatchingRequest.findOne rows
        (fun r => r.menteeId == u.id && r.status == Status.pending) with
    | none =>
      exfalso
      rw [pendingOf_eq_nil_of_findOne rows u.id hq] at hPin
      cases hPin
    | some Q =>
      have hQin : Q ∈ pendingOf rows u.id := by
        unfold pendingOf
        rw [List.mem_filter]
        have hcond := List.find?_some hq
        exact ⟨List.mem_of_find?_eq_some hq, hcond⟩
      have hQP : Q = P := eq_of_mem_of_length_le_one _ Q P hone hQin hPin
      rw [hQP]

/-- Witness of C5: mentee 1, whose pending request 1 is addressed to mentor 2,
sends a request to mentor 3. -/
theorem create_conflict_witness :
    postMatchRequests sampleUsers { id := 1, role := Role.mentee, isActive := true }
        ⟨NumField.int (3 : Nat), StrField.str "hello", []⟩ sampleRows
      = (⟨400, Body.conflict pendingExistsError 1 2⟩, sampleRows) :=
  create_conflict sampleUsers { id := 1, role := Role.mentee, isActive := true } sampleRows
    ⟨1, 1, 2, some "first", Status.pending⟩ 3 "hello" rfl (by decide) rfl rfl (by decide)
    (by decide) (by decide) (by decide)

/-- The create handler on a well-formed body with a message that is not empty:
for a mentee without a pending request, the id of an existing mentor and a
message of at most 500 characters, the answer is 200 and the table gains exactly
one row at the end, pending, authored by the caller resolved from the token,
with the mentorId and the message supplied; the rows already stored are
untouched. -/
theorem create_success (users : List User) (u : User) (rows : List MatchingRequest)
    (mentorId : Nat) (message : String)
    (hrole : u.role = Role.mentee)
    (hnone : ∀ r ∈ rows, r.menteeId = u.id → r.status ≠ Status.pending)
    (h0 : 0 < mentorId) (hmsg : message ≠ "") (hlen : message.length ≤ 500)
    (hmentor : ∃ m ∈ users, m.id = mentorId ∧ m.role = Role.mentor) :
    postMatchRequests users u ⟨NumField.int mentorId, StrField.str message, []⟩ rows
      = (⟨200, Body.request (nextId rows) mentorId u.id (some message) Status.pending⟩,
          rows ++ [⟨nextId rows, u.id, mentorId, some message, Status.pending⟩]) := by
  unfold postMatchRequests
  simp only [hrole, ne_eq, not_true_eq_false, if_false,
    validate_wellFormed mentorId message h0 hmsg]
  cases hm : User.findOne users (fun x => x.id == mentorId && x.role == Role.mentor) with
  | none =>
    exfalso
    unfold User.findOne at hm
    rw [List.find?_eq_none] at hm
    obtain ⟨m, hmem, h1, h2⟩ := hmentor
    exact hm m hmem (by simp [h1, h2])
  | some m =>
    have hq : MatchingRequest.findOne rows
        (fun r => r.menteeId == u.id && r.status == Status.pending) = none := by
      unfold MatchingRequest.findOne
      rw [List.find?_eq_none]
      intro r hr hc
      simp only [Bool.and_eq_true, beq_iff_eq] at hc
      exact hnone r hr hc.1 hc.2
    simp only [hq, MatchingRequest.create, hlen, if_true, requestJson]

/-- C6 fails on the code at the empty message.  For a mentee without a pending
request, the id of an existing mentor and a message of at most 500 characters,
the create handler answers 200 and appends exactly one pending request of the
caller with the mentorId and the message supplied, leaving the stored rows as
they are, unless the message is the empty string: then it answers 400 with a
validation error and stores nothing.  The model accepts the empty string, whose
length is within its `len: [0, 500]`, and stores a request carrying it.  The
create request that mentee 1 of the registered users sends to mentor 2 with the
empty message is answered with 400 and nothing is stored. -/
theorem create_refuses_empty_message :
    (∀ (users : List User) (u : User) (rows : List MatchingRequest) (mentorId : Nat)
        (message : String),
      u.role = Role.mentee →
      (∀ r ∈ rows, r.menteeId = u.id → r.status ≠ Status.pending) →
      0 < mentorId → message.length ≤ 500 →
      (∃ m ∈ users, m.id = mentorId ∧ m.role = Role.mentor) →
      postMatchRequests users u ⟨NumField.int mentorId, StrField.str message, []⟩ rows
        = if message = "" then
            (⟨400, Body.validation "Validation error"
                (joiMessage "message" "is not allowed to be empty")⟩, rows)
          else
            (⟨200, Body.request (nextId rows) mentorId u.id (some message) Status.pending⟩,
              rows ++ [⟨nextId rows, u.id, mentorId, some message, Status.pending⟩])) ∧
    MatchingRequest.create [] 2 1 ""
      = Except.ok (⟨1, 1, 2, some "", Status.pending⟩, [⟨1, 1, 2, some "", Status.pending⟩]) ∧
    handle ⟨registeredUsers, some (Token.decoded 1), Call.createRequest (sampleBody 2 "")⟩ []
      = (⟨400, Body.validation "Validation error"
            (joiMessage "message" "is not allowed to be empty")⟩, []) := by
  refine ⟨?_, rfl, by decide⟩
  intro users u rows mentorId message hrole hnone h0 hlen hmentor
  by_cases hmsg : message = ""
  · rw [if_pos hmsg, hmsg]
    unfold postMatchRequests
    simp only [hrole, ne_eq, not_true_eq_false, if_false, validate_empty mentorId h0]
  · rw [if_neg hmsg]
    exact create_success users u rows mentorId message hrole hnone h0 hmsg hlen hmentor

/-- C7: a successful reject finds a pending request of the calling mentor with
the given id and a successful cancel finds a pending request of the calling
mentee with the given id; afterwards the table has the same number of rows, the
row with that id differs from before only in its status, now rejected
respectively cancelled, and every other row is exactly as before. -/
theorem reject_cancel_frame (u : User) (id : Nat) (rows : List MatchingRequest) :
    ((putReject u id rows).1.status = 200 →
      (∃ R, R ∈ rows ∧ R.id = id ∧ R.mentorId = u.id ∧ R.status = Status.pending) ∧
      (putReject u id rows).2.length = rows.length ∧
      ∀ (i : Nat) (r : MatchingRequest), rows[i]? = some r →
        (putReject u id rows).2[i]?
          = some (if r.id = id then { r with status := Status.rejected } else r)) ∧
    ((deleteMatchRequest u id rows).1.status = 200 →
      (∃ R, R ∈ rows ∧ R.id = id ∧ R.menteeId = u.id ∧ R.status = Status.pending) ∧
      (deleteMatchRequest u id rows).2.length = rows.length ∧
      ∀ (i : Nat) (r : MatchingRequest), rows[i]? = some r →
        (deleteMatchRequest u id rows).2[i]?
          = some (if r.id = id then { r with status := Status.cancelled } else r)) := by
  constructor
  · intro h
    rcases putReject_rows u id rows with hfail | ⟨R, hR, h1, h2, h3, _, _, h6⟩
    · exact absurd h hfail.1
    · refine ⟨⟨R, hR, h1, h2, h3⟩, by rw [h6, List.length_map], ?_⟩
      intro i r hi
      rw [h6, List.getElem?_map, hi]
      rfl
  · intro h
    rcases deleteMatchRequest_rows u id rows with hfail | ⟨R, hR, h1, h2, h3, _, _, h6⟩
    · exact absurd h hfail.1
    · refine ⟨⟨R, hR, h1, h2, h3⟩, by rw [h6, List.length_map], ?_⟩
      intro i r hi
      rw [h6, List.getElem?_map, hi]
      rfl

/-- Witness of C7: in the sample table mentor 2 rejects request 2 and mentee 1
cancels request 1. -/
theorem reject_cancel_frame_witness :
    ((∃ R, R ∈ sampleRows ∧ R.id = 2 ∧ R.mentorId = 2 ∧ R.status = Status.pending) ∧
      (putReject { id := 2, role := Role.mentor, isActive := true } 2 sampleRows).2.length = sampleRows.length ∧
      ∀ (i : Nat) (r : MatchingRequest), sampleRows[i]? = some r →
        (putReject { id := 2, role := Role.mentor, isActive := true } 2 sampleRows).2[i]?
          = some (if r.id = 2 then { r with status := Status.rejected } else r)) ∧
    ((∃ R, R ∈ sampleRows ∧ R.id = 1 ∧ R.menteeId = 1 ∧ R.status = Status.pending) ∧
      (deleteMatchRequest { id := 1, role := Role.mentee, isActive := true } 1 sampleRows).2.length
        = sampleRows.length ∧
      ∀ (i : Nat) (r : MatchingRequest), sampleRows[i]? = some r →
        (deleteMatchRequest { id := 1, role := Role.mentee, isActive := true } 1 sampleRows).2[i]?
          = some (if r.id = 1 then { r with status := Status.cancelled } else r)) :=
  ⟨(reject_cancel_frame { id := 2, role := Role.mentor, isActive := true } 2 sampleRows).1 (by decide),
    (reject_cancel_frame { id := 1, role := Role.mentee, isActive := true } 1 sampleRows).2 (by decide)⟩

/-- C8 fails on the code: mentee 1 is accepted by mentor 2, then sends a new
request to mentor 3 and is accepted again; mentee 4 then sends a request to
mentor 2 and is accepted too.  Every call answers 200, and in the final table
mentee 1 has two accepted requests and mentor 2 has two accepted requests. -/
theorem accepted_requests_not_a_matching :
    run
      [⟨sampleUsers, some (Token.decoded 1), Call.createRequest (sampleBody 2 "one")⟩,
        ⟨sampleUsers, some (Token.decoded 2), Call.accept 1⟩,
        ⟨sampleUsers, some (Token.decoded 1), Call.createRequest (sampleBody 3 "two")⟩,
        ⟨sampleUsers, some (Token.decoded 3), Call.accept 2⟩,
        ⟨sampleUsers, some (Token.decoded 4), Call.createRequest (sampleBody 2 "three")⟩,
        ⟨sampleUsers, some (Token.decoded 2), Call.accept 3⟩] []
      = [⟨1, 1, 2, some "one", Status.accepted⟩, ⟨2, 1, 3, some "two", Status.accepted⟩,
          ⟨3, 4, 2, some "three", Status.accepted⟩] ∧
    (acceptedOfMentee
      [⟨1, 1, 2, some "one", Status.accepted⟩, ⟨2, 1, 3, some "two", Status.accepted⟩,
        ⟨3, 4, 2, some "three", Status.accepted⟩] 1).length = 2 ∧
    (acceptedOfMentor
      [⟨1, 1, 2, some "one", Status.accepted⟩, ⟨2, 1, 3, some "two", Status.accepted⟩,
        ⟨3, 4, 2, some "three", Status.accepted⟩] 2).length = 2 := by
  decide

/-- C9 as stated fails: no user of the sample table has id 7, and the create
request of mentee 1 naming mentor 7 is answered with status 400, not 404. -/
theorem create_unknown_mentor_not_404 :
    (∀ m ∈ sampleUsers, ¬(m.id = 7 ∧ m.role = Role.mentor)) ∧
    postMatchRequests sampleUsers { id := 1, role := Role.mentee, isActive := true } (sampleBody 7 "hello") []
      = (⟨400, Body.error "Mentor not found"⟩, []) ∧
    ¬((postMatchRequests sampleUsers { id := 1, role := Role.mentee, isActive := true }
        (sampleBody 7 "hello") []).1.status = 404) := by
  decide

/-- C9 amended: a well-formed create request of a mentee whose mentorId matches
no user with role mentor is answered with status 400 and the error
"Mentor not found", and the table is unchanged, so no request is created. -/
theorem create_unknown_mentor (users : List User) (u : User)
    (rows : List MatchingRequest) (mentorId : Nat) (message : String)
    (hrole : u.role = Role.mentee) (h0 : 0 < mentorId) (hmsg : message ≠ "")
    (hnone : ∀ m ∈ users, ¬(m.id = mentorId ∧ m.role = Role.mentor)) :
    postMatchRequests users u ⟨NumField.int mentorId, StrField.str message, []⟩ rows
      = (⟨400, Body.error "Mentor not found"⟩, rows) := by
  have hm : User.findOne users (fun x => x.id == mentorId && x.role == Role.mentor)
      = none := by
    unfold User.findOne
    rw [List.find?_eq_none]
    intro m hmem hc
    simp only [Bool.and_eq_true, beq_iff_eq] at hc
    exact hnone m hmem hc
  unfold postMatchRequests
  simp only [hrole, ne_eq, not_true_eq_false, if_false,
    validate_wellFormed mentorId message h0 hmsg, hm]

/-- Witness of C9 amended: user 4 is a mentee, so mentorId 4 matches no mentor. -/
theorem create_unknown_mentor_witness :
    postMatchRequests sampleUsers { id := 1, role := Role.mentee, isActive := true }
        ⟨NumField.int (4 : Nat), StrField.str "hello", []⟩ sampleRows
      = (⟨400, Body.error "Mentor not found"⟩, sampleRows) :=
  create_unknown_mentor sampleUsers { id := 1, role := Role.mentee, isActive := true } sampleRows 4 "hello" rfl
    (by decide) (by decide) (by decide)

/-! ## Callers, creation and self-requests -/

theorem authenticateToken_ok (users : List User) (token : Option Token) (u : User)
    (h : authenticateToken users token = Except.ok u) :
    u ∈ users ∧ token = some (Token.decoded u.id) := by
  unfold authenticateToken at h
  split at h
  · cases h
  · cases h
  · cases h
  · rename_i sub
    unfold User.findByPk at h
    split at h
    · cases h
    · rename_i user hf
      have hu : user = u := by
        injection h
      subst hu
      have hid := List.find?_some hf
      simp only [beq_iff_eq] at hid
      exact ⟨List.mem_of_find?_eq_some hf, by rw [hid]⟩

theorem postMatchRequests_ok (users : List User) (u : User) (body : CreateBody)
    (rows : List MatchingRequest) (h : (postMatchRequests users u body rows).1.status = 200) :
    ∃ (k : Int) (msg : String), body.mentorId = NumField.int k ∧ 0 < k ∧
      body.message = StrField.str msg ∧ msg ≠ "" ∧ msg.length ≤ 500 ∧
      u.role = Role.mentee ∧
      (∃ m, m ∈ users ∧ m.id = k.toNat ∧ m.role = Role.mentor) ∧
      (postMatchRequests users u body rows).2
        = rows ++ [⟨nextId rows, u.id, k.toNat, some msg, Status.pending⟩] := by
  unfold postMatchRequests at h ⊢
  by_cases hrole : u.role = Role.mentee
  · simp only [hrole, ne_eq, not_true_eq_false, if_false] at h ⊢
    unfold createRequestSchema.validate at h ⊢
    cases hm : body.mentorId with
    | missing => simp [hm] at h
    | notNumber => simp [hm] at h
    | nonInteger => simp [hm] at h
    | int k =>
      simp only [hm] at h ⊢
      by_cases hk : k ≤ 0
      · simp [hk] at h
      · simp only [hk, if_false] at h ⊢
        cases hs : body.message with
        | missing => simp [hs] at h
        | notString => simp [hs] at h
        | str msg =>
          simp only [hs] at h ⊢
          by_cases he : msg = ""
          · simp [he] at h
          · simp only [he, if_false] at h ⊢
            cases hkeys : body.unknownKeys with
            | cons a t => simp [hkeys] at h
            | nil =>
              simp only [hkeys] at h ⊢
              cases hf : User.findOne users
                  (fun x => x.id == k.toNat && x.role == Role.mentor) with
              | none => simp [hf] at h
              | some m =>
                simp only [hf] at h ⊢
                cases hp : MatchingRequest.findOne rows
                    (fun r => r.menteeId == u.id && r.status == Status.pending) with
                | some P => simp [hp] at h
                | none =>
                  simp only [hp] at h ⊢
                  by_cases hlen : msg.length ≤ 500
                  · have hmm : m ∈ users := List.mem_of_find?_eq_some hf
                    have hmp := List.find?_some hf
                    simp only [Bool.and_eq_true, beq_iff_eq] at hmp
                    simp only [MatchingRequest.create, hlen, if_true]
                    exact ⟨k, msg, rfl, by omega, rfl, he, hlen, trivial,
                      ⟨m, hmm, hmp.1, hmp.2⟩, rfl⟩
                  · simp [MatchingRequest.create, hlen] at h
  · simp [hrole] at h

theorem postMatchRequests_unchanged (users : List User) (u : User) (body : CreateBody)
    (rows : List MatchingRequest) (h : (postMatchRequests users u body rows).1.status ≠ 200) :
    (postMatchRequests users u body rows).2 = rows := by
  rcases postMatchRequests_rows users u body rows with h1 | ⟨n, _, h2, _⟩
  · exact h1.2
  · rw [h2] at h
    exact absurd rfl h

theorem eq_of_id_eq (users : List User) (hu : UniqueUserIds users) (a b : User)
    (ha : a ∈ users) (hb : b ∈ users) (hid : a.id = b.id) : a = b :=
  List.inj_on_of_nodup_map hu ha hb hid

theorem postMatchRequests_not_self (users : List User) (hu : UniqueUserIds users)
    (u : User) (hmem : u ∈ users) (body : CreateBody) (rows : List MatchingRequest)
    (k : Int) (hk : body.mentorId = NumField.int k)
    (h : (postMatchRequests users u body rows).1.status = 200) : u.id ≠ k.toNat := by
  obtain ⟨k2, msg, h1, _, _, _, _, hrole, ⟨m, hm, hmid, hmrole⟩, _⟩ :=
    postMatchRequests_ok users u body rows h
  rw [hk] at h1
  injection h1 with hkk
  subst hkk
  intro hid
  have : u = m := eq_of_id_eq users hu u m hmem hm (by rw [hid, hmid])
  rw [this, hmrole] at hrole
  cases hrole

theorem handle_selfFree (c : ApiCall) (rows : List MatchingRequest)
    (hu : UniqueUserIds c.users) (hinv : ∀ r ∈ rows, r.menteeId ≠ r.mentorId) :
    ∀ r ∈ (handle c rows).2, r.menteeId ≠ r.mentorId := by
  unfold handle
  cases ha : authenticateToken c.users c.token with
  | error resp => exact hinv
  | ok u =>
    have hmem := (authenticateToken_ok c.users c.token u ha).1
    simp only []
    cases hc : c.call with
    | createRequest body =>
      simp only [dispatch]
      by_cases hs : (postMatchRequests c.users u body rows).1.status = 200
      · obtain ⟨k, msg, h1, _, _, _, _, _, _, h8⟩ :=
          postMatchRequests_ok c.users u body rows hs
        have hne := postMatchRequests_not_self c.users hu u hmem body rows k h1 hs
        rw [h8]
        intro r hr
        rcases List.mem_append.mp hr with h0 | h0
        · exact hinv r h0
        · rw [List.mem_singleton] at h0
          rw [h0]
          exact hne
      · rw [postMatchRequests_unchanged c.users u body rows hs]
        exact hinv
    | listIncoming =>
      simp only [dispatch]
      unfold getIncoming
      split <;> exact hinv
    | listOutgoing =>
      simp only [dispatch]
      unfold getOutgoing
      split <;> exact hinv
    | accept id =>
      simp only [dispatch]
      rcases putAccept_rows u id rows with h | ⟨R, _, _, _, _, _, _, h6⟩
      · rw [h.2]; exact hinv
      · rw [h6]
        intro r hr
        obtain ⟨r0, hr0, hf⟩ := List.mem_map.mp hr
        obtain ⟨_, h2, h3, _⟩ := evolves_acceptEffect id u.id R.menteeId r0
        rw [← hf, h2, h3]
        exact hinv r0 hr0
    | reject id =>
      simp only [dispatch]
      rcases putReject_rows u id rows with h | ⟨R, _, _, _, _, _, _, h6⟩
      · rw [h.2]; exact hinv
      · rw [h6]
        intro r hr
        obtain ⟨r0, hr0, hf⟩ := List.mem_map.mp hr
        obtain ⟨_, h2, h3, _⟩ := evolves_setStatus id Status.rejected (by decide) r0
        rw [← hf, h2, h3]
        exact hinv r0 hr0
    | cancel id =>
      simp only [dispatch]
      rcases deleteMatchRequest_rows u id rows with h | ⟨R, _, _, _, _, _, _, h6⟩
      · rw [h.2]; exact hinv
      · rw [h6]
        intro r hr
        obtain ⟨r0, hr0, hf⟩ := List.mem_map.mp hr
        obtain ⟨_, h2, h3, _⟩ := evolves_setStatus id Status.cancelled (by decide) r0
        rw [← hf, h2, h3]
        exact hinv r0 hr0

theorem run_selfFree (calls : List ApiCall) :
    ∀ rows : List MatchingRequest, (∀ c ∈ calls, UniqueUserIds c.users) →
      (∀ r ∈ rows, r.menteeId ≠ r.mentorId) →
      ∀ r ∈ run calls rows, r.menteeId ≠ r.mentorId := by
  induction calls with
  | nil => intro rows _ h; exact h
  | cons c rest ih =>
    intro rows hu h
    have hrun : run (c :: rest) rows = run rest (handle c rows).2 := rfl
    rw [hrun]
    exact ih _ (fun c2 hc2 => hu c2 (List.mem_cons_of_mem c hc2))
      (handle_selfFree c rows (hu c (List.mem_cons_self c rest)) h)

/-! ## The claims, continued -/

/-- C11: when no two users share an id (each user has one role), a create
request whose mentorId is the id of the authenticated caller is never answered
with 200 and leaves the request table unchanged; and from an empty table, after
every prefix of every sequence of calls made against such user tables, every
stored request has a menteeId different from its mentorId. -/
theorem no_self_request :
    (∀ (users : List User) (token : Option Token) (u : User) (body : CreateBody)
        (rows : List MatchingRequest),
      UniqueUserIds users → authenticateToken users token = Except.ok u →
      body.mentorId = NumField.int u.id →
      (handle ⟨users, token, Call.createRequest body⟩ rows).1.status ≠ 200 ∧
      (handle ⟨users, token, Call.createRequest body⟩ rows).2 = rows) ∧
    (∀ (calls : List ApiCall), (∀ c ∈ calls, UniqueUserIds c.users) →
      ∀ (k : Nat) (r : MatchingRequest), r ∈ run (calls.take k) [] →
        r.menteeId ≠ r.mentorId) := by
  constructor
  · intro users token u body rows hu ha hb
    have hmem := (authenticateToken_ok users token u ha).1
    have hne : (postMatchRequests users u body rows).1.status ≠ 200 := by
      intro hs
      have := postMatchRequests_not_self users hu u hmem body rows u.id hb hs
      simp at this
    have hh : handle ⟨users, token, Call.createRequest body⟩ rows
        = postMatchRequests users u body rows := by
      simp only [handle, ha, dispatch]
    rw [hh]
    exact ⟨hne, postMatchRequests_unchanged users u body rows hne⟩
  · intro calls hu k r hr
    exact run_selfFree (calls.take k) []
      (fun c hc => hu c (List.mem_of_mem_take hc)) (fun _ h => by cases h) r hr

/-- Witness of C11: mentee 1 of the sample table names itself as mentor; and
the table after a create request of mentee 1 to mentor 2. -/
theorem no_self_request_witness :
    ((handle ⟨sampleUsers, some (Token.decoded 1),
        Call.createRequest (sampleBody 1 "hello")⟩ sampleRows).1.status ≠ 200 ∧
      (handle ⟨sampleUsers, some (Token.decoded 1),
        Call.createRequest (sampleBody 1 "hello")⟩ sampleRows).2 = sampleRows) ∧
    (∀ (k : Nat) (r : MatchingRequest),
      r ∈ run ([⟨sampleUsers, some (Token.decoded 1),
          Call.createRequest (sampleBody 2 "hello")⟩].take k) [] →
        r.menteeId ≠ r.mentorId) :=
  ⟨no_self_request.1 sampleUsers (some (Token.decoded 1))
      { id := 1, role := Role.mentee, isActive := true } (sampleBody 1 "hello") sampleRows
      (by decide) rfl rfl,
    no_self_request.2
      [⟨sampleUsers, some (Token.decoded 1), Call.createRequest (sampleBody 2 "hello")⟩]
      (by decide)⟩

set_option maxRecDepth 20000 in
/-- C12 fails on the code: mentee 1 has no pending request, mentor 2 exists, and
the message has 501 characters; the answer is 500 "Internal server error", not
a 400 validation error.  No request is created. -/
theorem create_long_message_500 :
    longMessage.length = 501 ∧
    createRequestSchema.validate (sampleBody 2 longMessage) = Except.ok (2, longMessage) ∧
    postMatchRequests sampleUsers { id := 1, role := Role.mentee, isActive := true }
        (sampleBody 2 longMessage) []
      = (⟨500, Body.error "Internal server error"⟩, []) := by
  refine ⟨by decide, rfl, by decide⟩

/-- C13 fails on the code: a create request of a mentee naming a mentor by a
positive id is answered with the 400 validation error, and nothing is stored,
both when the message is the empty string and when it is omitted, whatever the
user table and the request table are; so it is for mentee 1 of the registered
users writing to mentor 2 with no request stored yet.  The model for its part
stores a request whose message is the empty string. -/
theorem create_without_message_400 :
    (∀ (users : List User) (u : User) (rows : List MatchingRequest) (mentorId : Nat),
      u.role = Role.mentee → 0 < mentorId →
      postMatchRequests users u ⟨NumField.int mentorId, StrField.str "", []⟩ rows
        = (⟨400, Body.validation "Validation error"
              (joiMessage "message" "is not allowed to be empty")⟩, rows) ∧
      postMatchRequests users u ⟨NumField.int mentorId, StrField.missing, []⟩ rows
        = (⟨400, Body.validation "Validation error" (joiMessage "message" "is required")⟩,
            rows)) ∧
    handle ⟨registeredUsers, some (Token.decoded 1),
        Call.createRequest
          { mentorId := NumField.int 2, message := StrField.str "", unknownKeys := [] }⟩ []
      = (⟨400, Body.validation "Validation error"
            (joiMessage "message" "is not allowed to be empty")⟩, []) ∧
    handle ⟨registeredUsers, some (Token.decoded 1),
        Call.createRequest
          { mentorId := NumField.int 2, message := StrField.missing, unknownKeys := [] }⟩ []
      = (⟨400, Body.validation "Validation error" (joiMessage "message" "is required")⟩,
          []) ∧
    (∃ stored : MatchingRequest × List MatchingRequest,
      MatchingRequest.create [] 2 1 "" = Except.ok stored ∧ stored.1.message = some "") := by
  refine ⟨?_, by decide, by decide, ⟨_, rfl, rfl⟩⟩
  intro users u rows mentorId hrole h0
  constructor
  · unfold postMatchRequests
    simp only [hrole, ne_eq, not_true_eq_false, if_false, validate_empty mentorId h0]
  · unfold postMatchRequests
    simp only [hrole, ne_eq, not_true_eq_false, if_false, validate_missing mentorId h0]

/-- C14: a caller whose role is not the one an endpoint of the matching API
requires gets 403 with the error of that endpoint, whatever the body, the id,
the user table and the request table are, and the request table is unchanged;
`requireMentor` and `requireMentee` call `next()` exactly when the role of the
caller is mentor, respectively mentee. -/
theorem role_gate (users : List User) (u : User) (rows : List MatchingRequest) :
    (u.role ≠ Role.mentee →
      (∀ body : CreateBody, postMatchRequests users u body rows
        = (⟨403, Body.error "Only mentees can send requests"⟩, rows)) ∧
      getOutgoing u rows = (⟨403, Body.error "Only mentees can view outgoing requests"⟩, rows) ∧
      (∀ id : Nat, deleteMatchRequest u id rows
        = (⟨403, Body.error "Only mentees can cancel requests"⟩, rows))) ∧
    (u.role ≠ Role.mentor →
      getIncoming u rows = (⟨403, Body.error "Only mentors can view incoming requests"⟩, rows) ∧
      (∀ id : Nat, putAccept u id rows
        = (⟨403, Body.error "Only mentors can accept requests"⟩, rows)) ∧
      (∀ id : Nat, putReject u id rows
        = (⟨403, Body.error "Only mentors can reject requests"⟩, rows))) ∧
    (requireMentor u = none ↔ u.role = Role.mentor) ∧
    (requireMentee u = none ↔ u.role = Role.mentee) := by
  refine ⟨?_, ?_, ?_, ?_⟩
  · intro h
    refine ⟨?_, ?_, ?_⟩
    · intro body
      unfold postMatchRequests
      rw [if_pos h]
    · unfold getOutgoing
      rw [if_pos h]
    · intro id
      unfold deleteMatchRequest
      rw [if_pos h]
  · intro h
    refine ⟨?_, ?_, ?_⟩
    · unfold getIncoming
      rw [if_pos h]
    · intro id
      unfold putAccept
      rw [if_pos h]
    · intro id
      unfold putReject
      rw [if_pos h]
  · unfold requireMentor
    by_cases h : u.role = Role.mentor
    · simp [h]
    · simp [h]
  · unfold requireMentee
    by_cases h : u.role = Role.mentee
    · simp [h]
    · simp [h]

/-- Witness of C14: a mentor calls the mentee endpoints and a mentee calls the
mentor endpoints on the sample table. -/
theorem role_gate_witness :
    ((∀ body : CreateBody,
        postMatchRequests sampleUsers { id := 2, role := Role.mentor, isActive := true }
          body sampleRows
        = (⟨403, Body.error "Only mentees can send requests"⟩, sampleRows)) ∧
      getOutgoing { id := 2, role := Role.mentor, isActive := true } sampleRows
        = (⟨403, Body.error "Only mentees can view outgoing requests"⟩, sampleRows) ∧
      (∀ id : Nat, deleteMatchRequest { id := 2, role := Role.mentor, isActive := true } id
          sampleRows
        = (⟨403, Body.error "Only mentees can cancel requests"⟩, sampleRows))) ∧
    (getIncoming { id := 1, role := Role.mentee, isActive := true } sampleRows
        = (⟨403, Body.error "Only mentors can view incoming requests"⟩, sampleRows) ∧
      (∀ id : Nat, putAccept { id := 1, role := Role.mentee, isActive := true } id sampleRows
        = (⟨403, Body.error "Only mentors can accept requests"⟩, sampleRows)) ∧
      (∀ id : Nat, putReject { id := 1, role := Role.mentee, isActive := true } id sampleRows
        = (⟨403, Body.error "Only mentors can reject requests"⟩, sampleRows))) :=
  ⟨(role_gate sampleUsers { id := 2, role := Role.mentor, isActive := true } sampleRows).1
      (by decide),
    (role_gate sampleUsers { id := 1, role := Role.mentee, isActive := true } sampleRows).2.1
      (by decide)⟩

/-- C15: for a mentor the incoming listing answers 200 with the stored requests
whose mentorId is the id of the caller, and for a mentee the outgoing listing
answers 200 with the stored requests whose menteeId is the id of the caller:
the list is a sublist of the table (same order, nothing repeated), a request is
in it exactly when it is stored with that id, and it has as many entries as the
table has such rows.  The table is returned unchanged. -/
theorem list_projections (u : User) (rows : List MatchingRequest) :
    (u.role = Role.mentor →
      ∃ L : List MatchingRequest,
        getIncoming u rows = (⟨200, Body.requests L⟩, rows) ∧ L.Sublist rows ∧
        (∀ r : MatchingRequest, r ∈ L ↔ r ∈ rows ∧ r.mentorId = u.id) ∧
        L.length = rows.countP (fun r => decide (r.mentorId = u.id))) ∧
    (u.role = Role.mentee →
      ∃ L : List MatchingRequest,
        getOutgoing u rows = (⟨200, Body.requests L⟩, rows) ∧ L.Sublist rows ∧
        (∀ r : MatchingRequest, r ∈ L ↔ r ∈ rows ∧ r.menteeId = u.id) ∧
        L.length = rows.countP (fun r => decide (r.menteeId = u.id))) := by
  constructor
  · intro h
    refine ⟨rows.filter (fun r => r.mentorId == u.id), ?_, List.filter_sublist rows, ?_, ?_⟩
    · unfold getIncoming MatchingRequest.findAll
      simp [h]
    · intro r
      simp [List.mem_filter]
    · rw [List.countP_eq_length_filter]
      congr 2
  · intro h
    refine ⟨rows.filter (fun r => r.menteeId == u.id), ?_, List.filter_sublist rows, ?_, ?_⟩
    · unfold getOutgoing MatchingRequest.findAll
      simp [h]
    · intro r
      simp [List.mem_filter]
    · rw [List.countP_eq_length_filter]
      congr 2

/-- Witness of C15: mentor 2 and mentee 4 list their requests in the sample
table. -/
theorem list_projections_witness :
    (∃ L : List MatchingRequest,
        getIncoming { id := 2, role := Role.mentor, isActive := true } sampleRows
          = (⟨200, Body.requests L⟩, sampleRows) ∧ L.Sublist sampleRows ∧
        (∀ r : MatchingRequest, r ∈ L ↔ r ∈ sampleRows ∧ r.mentorId = 2) ∧
        L.length = sampleRows.countP (fun r => decide (r.mentorId = 2))) ∧
    (∃ L : List MatchingRequest,
        getOutgoing { id := 4, role := Role.mentee, isActive := true } sampleRows
          = (⟨200, Body.requests L⟩, sampleRows) ∧ L.Sublist sampleRows ∧
        (∀ r : MatchingRequest, r ∈ L ↔ r ∈ sampleRows ∧ r.menteeId = 4) ∧
        L.length = sampleRows.countP (fun r => decide (r.menteeId = 4))) :=
  ⟨(list_projections { id := 2, role := Role.mentor, isActive := true } sampleRows).1 rfl,
    (list_projections { id := 4, role := Role.mentee, isActive := true } sampleRows).2 rfl⟩

/-! ## Decimal subjects -/

theorem digitValue_digitChar : ∀ d : Nat, d < 10 → digitValue (Nat.digitChar d) = some d := by
  decide

theorem parseDigits_toDigitsCore (fuel : Nat) :
    ∀ (n : Nat) (ds : List Char), n < fuel →
      ∃ e : Nat, ∀ acc : Nat,
        parseDigits (Nat.toDigitsCore 10 fuel n ds) acc = parseDigits ds (acc * 10 ^ e + n) := by
  induction fuel with
  | zero => intro n ds h; omega
  | succ fuel ih =>
    intro n ds h
    have hd : digitValue (Nat.digitChar (n % 10)) = some (n % 10) :=
      digitValue_digitChar (n % 10) (Nat.mod_lt n (by decide))
    by_cases h0 : n / 10 = 0
    · refine ⟨1, ?_⟩
      intro acc
      have hn : n % 10 = n := Nat.mod_eq_of_lt (by omega)
      rw [hn] at hd
      simp only [Nat.toDigitsCore, h0, if_true, parseDigits, hn, hd, pow_one]
    · obtain ⟨e, he⟩ := ih (n / 10) (Nat.digitChar (n % 10) :: ds) (by omega)
      refine ⟨e + 1, ?_⟩
      intro acc
      simp only [Nat.toDigitsCore, h0, if_false]
      rw [he acc]
      simp only [parseDigits, hd]
      congr 1
      have hdm := Nat.div_add_mod n 10
      rw [pow_succ]
      nlinarith [hdm]

theorem toDigitsCore_ne_nil (fuel : Nat) :
    ∀ (n : Nat) (ds : List Char), ds ≠ [] → Nat.toDigitsCore 10 fuel n ds ≠ [] := by
  induction fuel with
  | zero => intro n ds h; exact h
  | succ fuel ih =>
    intro n ds _
    simp only [Nat.toDigitsCore]
    split
    · exact List.cons_ne_nil _ _
    · exact ih _ _ (List.cons_ne_nil _ _)

theorem toDigits_ne_nil (n : Nat) : Nat.toDigits 10 n ≠ [] := by
  unfold Nat.toDigits
  simp only [Nat.toDigitsCore]
  split
  · exact List.cons_ne_nil _ _
  · exact toDigitsCore_ne_nil _ _ _ (List.cons_ne_nil _ _)

theorem parseId_toString (n : Nat) : parseId (toString n) = some n := by
  have hdata : (toString n).data = Nat.toDigits 10 n := rfl
  obtain ⟨e, he⟩ := parseDigits_toDigitsCore (n + 1) n [] (Nat.lt_succ_self n)
  have hp : parseDigits (Nat.toDigits 10 n) 0 = some n := by
    unfold Nat.toDigits
    rw [he 0]
    simp [parseDigits]
  unfold parseId
  rw [hdata]
  cases hl : Nat.toDigits 10 n with
  | nil => exact absurd hl (toDigits_ne_nil n)
  | cons c cs =>
    simp only []
    rw [← hl]
    exact hp

/-! ## Login -/

theorem loginSchema_wellFormed (env : Env) (email password : String)
    (hw : env.joiEmail email = true) (he : email ≠ "") (hp : password ≠ "") :
    loginSchema.validate env ⟨StrField.str email, StrField.str password, []⟩
      = Except.ok (email, password) := by
  simp [loginSchema.validate, joiString, he, hp, hw]

theorem login_ok (env : Env) (now : Nat) (users : List User) (body : LoginBody)
    (h : (login env now users body).status = 200) :
    ∃ u : User, u ∈ users ∧
      login env now users body
        = ⟨200, Body.token
            { iss := "mentor-mentee-api", sub := toString u.id, aud := "mentor-mentee-web",
              exp := now + 3600, nbf := now, iat := now,
              jti := toString u.id ++ "_" ++ toString now, userId := none,
              name := u.name, email := u.email, role := u.role }⟩ := by
  unfold login at h ⊢
  split at h
  · simp at h
  · rename_i email password hv
    cases hf : User.findOne users (fun u => u.email == email) with
    | none => simp [hf] at h
    | some u =>
      simp only [hf] at h ⊢
      by_cases hc : env.compare password u.password = true
      · simp only [hc, Bool.not_true, Bool.false_eq_true, if_false]
        exact ⟨u, List.mem_of_find?_eq_some hf, rfl⟩
      · simp [hc] at h

theorem findByPk_of_mem (users : List User) (u : User) (hu : u ∈ users) :
    ∃ v : User, User.findByPk users u.id = some v ∧ v.id = u.id := by
  unfold User.findByPk
  cases hf : users.find? (fun x => x.id == u.id) with
  | none =>
    rw [List.find?_eq_none] at hf
    exact absurd (by simp) (hf u hu)
  | some v =>
    have hv := List.find?_some hf
    simp only [beq_iff_eq] at hv
    exact ⟨v, rfl, hv⟩

/-- C16: two login bodies pass the schema; the first names the email of a
registered user with a password the hash comparison refuses, the second names an
email no user has.  Both are answered with the same response, status 401 and
the error "Invalid credentials". -/
theorem login_failures_identical (env : Env) (now : Nat) (users : List User)
    (email1 password1 email2 password2 : String) (u : User)
    (hw1 : env.joiEmail email1 = true) (he1 : email1 ≠ "") (hp1 : password1 ≠ "")
    (hw2 : env.joiEmail email2 = true) (he2 : email2 ≠ "") (hp2 : password2 ≠ "")
    (hreg : u ∈ users ∧ u.email = email1)
    (hwrong : ∀ v ∈ users, v.email = email1 → env.compare password1 v.password = false)
    (hunreg : ∀ v ∈ users, v.email ≠ email2) :
    login env now users ⟨StrField.str email1, StrField.str password1, []⟩
      = ⟨401, Body.error "Invalid credentials"⟩ ∧
    login env now users ⟨StrField.str email2, StrField.str password2, []⟩
      = ⟨401, Body.error "Invalid credentials"⟩ ∧
    login env now users ⟨StrField.str email1, StrField.str password1, []⟩
      = login env now users ⟨StrField.str email2, StrField.str password2, []⟩ := by
  have h1 : login env now users ⟨StrField.str email1, StrField.str password1, []⟩
      = ⟨401, Body.error "Invalid credentials"⟩ := by
    unfold login
    rw [loginSchema_wellFormed env email1 password1 hw1 he1 hp1]
    simp only []
    cases hf : User.findOne users (fun x => x.email == email1) with
    | none =>
      have hf2 := List.find?_eq_none.mp hf
      exact absurd (by simp [hreg.2]) (hf2 u hreg.1)
    | some v =>
      have hv := List.find?_some hf
      simp only [beq_iff_eq] at hv
      have hc := hwrong v (List.mem_of_find?_eq_some hf) hv
      simp [hc]
  have h2 : login env now users ⟨StrField.str email2, StrField.str password2, []⟩
      = ⟨401, Body.error "Invalid credentials"⟩ := by
    unfold login
    rw [loginSchema_wellFormed env email2 password2 hw2 he2 hp2]
    simp only []
    have hf : User.findOne users (fun x => x.email == email2) = none := by
      unfold User.findOne
      rw [List.find?_eq_none]
      intro v hv hc
      simp only [beq_iff_eq] at hc
      exact hunreg v hv hc
    rw [hf]
  exact ⟨h1, h2, by rw [h1, h2]⟩

/-- Witness of C16: the registered mentee with a wrong password, and an email
nobody registered. -/
theorem login_failures_identical_witness :
    login sampleEnv 1000 sampleAccounts
        ⟨StrField.str "kim@example.com", StrField.str "wrong", []⟩
      = ⟨401, Body.error "Invalid credentials"⟩ ∧
    login sampleEnv 1000 sampleAccounts
        ⟨StrField.str "nobody@example.com", StrField.str "Passw0rd1", []⟩
      = ⟨401, Body.error "Invalid credentials"⟩ ∧
    login sampleEnv 1000 sampleAccounts
        ⟨StrField.str "kim@example.com", StrField.str "wrong", []⟩
      = login sampleEnv 1000 sampleAccounts
        ⟨StrField.str "nobody@example.com", StrField.str "Passw0rd1", []⟩ :=
  login_failures_identical sampleEnv 1000 sampleAccounts "kim@example.com" "wrong"
    "nobody@example.com" "Passw0rd1"
    { id := 1, email := "kim@example.com", password := "$2a$12$Passw0rd1", name := "Kim",
      role := Role.mentee }
    (by decide) (by decide) (by decide) (by decide) (by decide) (by decide) (by decide)
    (by decide) (by decide)

/-! ## Signup -/

theorem joiString_ok (label s e : String) (h : joiString label (StrField.str s) = Except.ok e) :
    e = s ∧ s ≠ "" := by
  unfold joiString at h
  simp only [] at h
  split at h
  · cases h
  · rename_i hne
    injection h with h
    exact ⟨h.symm, hne⟩

theorem joiSignupEmail_ok (env : Env) (s e : String)
    (h : joiSignupEmail env (StrField.str s) = Except.ok e) :
    e = s ∧ s ≠ "" ∧ env.joiEmail s = true := by
  unfold joiSignupEmail at h
  cases hb : joiString "email" (StrField.str s) with
  | error d => rw [hb] at h; cases h
  | ok v =>
    obtain ⟨hv, hne⟩ := joiString_ok "email" s v hb
    subst hv
    rw [hb] at h
    simp only [] at h
    split at h
    · cases h
    · rename_i hj
      split at h
      · cases h
      · split at h
        · cases h
        · injection h with h
          exact ⟨h.symm, hne, by simpa using hj⟩

theorem joiSignupPassword_ok (s e : String)
    (h : joiSignupPassword (StrField.str s) = Except.ok e) :
    e = s ∧ s ≠ "" ∧ joiPassword s = true := by
  unfold joiSignupPassword at h
  cases hb : joiString "password" (StrField.str s) with
  | error d => rw [hb] at h; cases h
  | ok v =>
    obtain ⟨hv, hne⟩ := joiString_ok "password" s v hb
    subst hv
    rw [hb] at h
    simp only [] at h
    split at h
    · cases h
    · rename_i h1
      split at h
      · cases h
      · rename_i h2
        split at h
        · cases h
        · rename_i h3
          injection h with h
          refine ⟨h.symm, hne, ?_⟩
          unfold joiPassword
          simp only [Bool.and_eq_true, decide_eq_true_eq]
          exact ⟨⟨⟨hne, by omega⟩, by omega⟩, by simpa using h3⟩

theorem joiSignupName_ok (s e : String)
    (h : joiSignupName (StrField.str s) = Except.ok e) :
    e = s ∧ s ≠ "" ∧ joiName s = true := by
  unfold joiSignupName at h
  cases hb : joiString "name" (StrField.str s) with
  | error d => rw [hb] at h; cases h
  | ok v =>
    obtain ⟨hv, hne⟩ := joiString_ok "name" s v hb
    subst hv
    rw [hb] at h
    simp only [] at h
    split at h
    · cases h
    · rename_i h1
      split at h
      · cases h
      · rename_i h2
        split at h
        · cases h
        · rename_i h3
          injection h with h
          refine ⟨h.symm, hne, ?_⟩
          unfold joiName
          simp only [Bool.and_eq_true, decide_eq_true_eq]
          exact ⟨⟨⟨hne, by omega⟩, by omega⟩, by simpa using h3⟩

theorem joiRole_roleName (role : Role) :
    joiRole (StrField.str (roleName role)) = Except.ok role := by
  cases role <;> rfl

theorem signupSchema_ok (env : Env) (email password name : String) (role : Role)
    (v : String × String × String × Role)
    (h : signupSchema.validate env
      ⟨StrField.str email, StrField.str password, StrField.str name,
        StrField.str (roleName role), []⟩ = Except.ok v) :
    v = (email, password, name, role) ∧ env.joiEmail email = true ∧ email ≠ "" ∧
      joiPassword password = true ∧ joiName name = true := by
  unfold signupSchema.validate at h
  simp only [] at h
  cases h1 : joiSignupEmail env (StrField.str email) with
  | error d => rw [h1] at h; cases h
  | ok e =>
    rw [h1] at h
    simp only [] at h
    cases h2 : joiSignupPassword (StrField.str password) with
    | error d => rw [h2] at h; cases h
    | ok p =>
      rw [h2] at h
      simp only [] at h
      cases h3 : joiSignupName (StrField.str name) with
      | error d => rw [h3] at h; cases h
      | ok n =>
        rw [h3, joiRole_roleName role] at h
        simp only [] at h
        injection h with h
        obtain ⟨he, hne, hj⟩ := joiSignupEmail_ok env email e h1
        obtain ⟨hp, _, hjp⟩ := joiSignupPassword_ok password p h2
        obtain ⟨hn, _, hjn⟩ := joiSignupName_ok name n h3
        subst he hp hn
        exact ⟨h.symm, hj, hne, hjp, hjn⟩

theorem id_lt_nextUserId (users : List User) (u : User) (h : u ∈ users) :
    u.id < nextUserId users := by
  unfold nextUserId
  induction users with
  | nil => cases h
  | cons a t ih =>
    simp only [List.map_cons, List.foldr_cons]
    rcases List.mem_cons.mp h with h1 | h1
    · subst h1
      omega
    · have := ih h1
      omega

theorem signup_created (env : Env) (users : List User) (email password name : String)
    (role : Role)
    (h : (signup env users
      ⟨StrField.str email, StrField.str password, StrField.str name,
        StrField.str (roleName role), []⟩).1.status = 201) :
    env.joiEmail email = true ∧ email ≠ "" ∧ joiPassword password = true ∧
      joiName name = true ∧ (∀ v ∈ users, v.email ≠ email) ∧
      signup env users
          ⟨StrField.str email, StrField.str password, StrField.str name,
            StrField.str (roleName role), []⟩
        = (⟨201, Body.message "User created successfully"⟩,
            users ++ [{ id := nextUserId users, email := email, password := env.hash password,
                        name := name, role := role, isActive := true }]) := by
  unfold signup at h ⊢
  cases hv : signupSchema.validate env
      ⟨StrField.str email, StrField.str password, StrField.str name,
        StrField.str (roleName role), []⟩ with
  | error d => rw [hv] at h; simp at h
  | ok v =>
    obtain ⟨hveq, hj, hne, hjp, hjn⟩ := signupSchema_ok env email password name role v hv
    subst hveq
    rw [hv] at h
    simp only [] at h ⊢
    cases hf : User.findOne users (fun u => u.email == email) with
    | some w => rw [hf] at h; simp at h
    | none =>
      rw [hf] at h
      simp only [] at h ⊢
      have hfree : ∀ v ∈ users, v.email ≠ email := by
        intro v hvm hc
        have := List.find?_eq_none.mp hf v hvm
        simp [hc] at this
      cases hc : User.create env users email (env.hash password) name role with
      | error d => rw [hc] at h; simp at h
      | ok res =>
        unfold User.create at hc
        split at hc
        · split at hc
          · cases hc
          · injection hc with hc
            rw [← hc]
            exact ⟨hj, hne, hjp, hjn, hfree, rfl⟩
        · cases hc

theorem findByPk_append_new (users : List User) (new : User)
    (hid : new.id = nextUserId users) :
    User.findByPk (users ++ [new]) (nextUserId users) = some new := by
  unfold User.findByPk
  rw [List.find?_append]
  have hnone : users.find? (fun u => u.id == nextUserId users) = none := by
    rw [List.find?_eq_none]
    intro v hv hc
    simp only [beq_iff_eq] at hc
    have := id_lt_nextUserId users v hv
    omega
  rw [hnone]
  simp [hid]

theorem findOne_email_append_new (users : List User) (new : User)
    (hfree : ∀ v ∈ users, v.email ≠ new.email) :
    User.findOne (users ++ [new]) (fun u => u.email == new.email) = some new := by
  unfold User.findOne
  rw [List.find?_append]
  have hnone : users.find? (fun u => u.email == new.email) = none := by
    rw [List.find?_eq_none]
    intro v hv hc
    simp only [beq_iff_eq] at hc
    exact hfree v hv hc
  rw [hnone]
  simp

theorem ne_empty_of_joiPassword (s : String) (h : joiPassword s = true) : s ≠ "" := by
  unfold joiPassword at h
  simp only [Bool.and_eq_true, decide_eq_true_eq] at h
  exact h.1.1.1

/-- C17: a signup with email, password, name and role is answered with 201 (it is
valid and the email is new), and the hash comparison accepts the password
against its stored hash.  Then the signup body is the fixed success message; a
login with the same email and password on the new user table is answered with
200 and a token whose claims carry that email, name and role; the middleware
resolves that token to a user, and `GET /me` for that user is answered with 200
and the same email, name and role.  The three bodies are written out below and
are built from the new id, the email, the name, the role and the clock only:
neither the password nor its hash enters them. -/
theorem signup_login_me (env : Env) (now : Nat) (users : List User)
    (email password name : String) (role : Role)
    (hcmp : env.compare password (env.hash password) = true)
    (hsign : (signup env users
      ⟨StrField.str email, StrField.str password, StrField.str name,
        StrField.str (roleName role), []⟩).1.status = 201) :
    ∃ (users1 : List User) (payload : JwtPayload) (reqUser : User),
      signup env users
          ⟨StrField.str email, StrField.str password, StrField.str name,
            StrField.str (roleName role), []⟩
        = (⟨201, Body.message "User created successfully"⟩, users1) ∧
      login env now users1 ⟨StrField.str email, StrField.str password, []⟩
        = ⟨200, Body.token payload⟩ ∧
      payload =
        { iss := "mentor-mentee-api", sub := toString (nextUserId users),
          aud := "mentor-mentee-web", exp := now + 3600, nbf := now, iat := now,
          jti := toString (nextUserId users) ++ "_" ++ toString now, userId := none,
          name := name, email := email, role := role } ∧
      decodedToken payload = some (Token.decoded (nextUserId users)) ∧
      authenticateToken users1 (decodedToken payload) = Except.ok reqUser ∧
      getMe users1 reqUser
        = ⟨200, Body.me (nextUserId users) email role name none
            ("https://placehold.co/500x500.jpg?text=" ++ roleUpper role)
            (if role = Role.mentor then some [] else none)⟩ := by
  obtain ⟨hj, hne, hjp, _, hfree, heq⟩ :=
    signup_created env users email password name role hsign
  have hpne := ne_empty_of_joiPassword password hjp
  let new : User :=
    { id := nextUserId users, email := email, password := env.hash password,
      name := name, role := role, isActive := true }
  have hfind : User.findOne (users ++ [new]) (fun u => u.email == email) = some new :=
    findOne_email_append_new users new hfree
  have hpk : User.findByPk (users ++ [new]) (nextUserId users) = some new :=
    findByPk_append_new users new rfl
  have hdec : decodedToken
      { iss := "mentor-mentee-api", sub := toString (nextUserId users),
        aud := "mentor-mentee-web", exp := now + 3600, nbf := now, iat := now,
        jti := toString (nextUserId users) ++ "_" ++ toString now, userId := none,
        name := name, email := email, role := role }
      = some (Token.decoded (nextUserId users)) := by
    unfold decodedToken
    simp only []
    rw [parseId_toString]
    rfl
  refine ⟨users ++ [new], _, new, heq, ?_, rfl, hdec, ?_, ?_⟩
  · unfold login
    rw [loginSchema_wellFormed env email password hj hne hpne]
    simp only []
    rw [hfind]
    simp only [new, hcmp, Bool.not_true, Bool.false_eq_true, if_false]
  · rw [hdec]
    unfold authenticateToken
    simp only []
    rw [hpk]
  · unfold getMe
    have hid : new.id = nextUserId users := rfl
    rw [hid, hpk]
    rfl

/-- Witness of C17: Lee signs up as a mentor on the sample user table. -/
theorem signup_login_me_witness :
    ∃ (users1 : List User) (payload : JwtPayload) (reqUser : User),
      signup sampleEnv sampleAccounts
          ⟨StrField.str "lee@example.com", StrField.str "Secret12", StrField.str "Lee Min",
            StrField.str (roleName Role.mentor), []⟩
        = (⟨201, Body.message "User created successfully"⟩, users1) ∧
      login sampleEnv 1000 users1
          ⟨StrField.str "lee@example.com", StrField.str "Secret12", []⟩
        = ⟨200, Body.token payload⟩ ∧
      payload =
        { iss := "mentor-mentee-api", sub := toString (nextUserId sampleAccounts),
          aud := "mentor-mentee-web", exp := 1000 + 3600, nbf := 1000, iat := 1000,
          jti := toString (nextUserId sampleAccounts) ++ "_" ++ toString 1000,
          userId := none, name := "Lee Min", email := "lee@example.com",
          role := Role.mentor } ∧
      decodedToken payload = some (Token.decoded (nextUserId sampleAccounts)) ∧
      authenticateToken users1 (decodedToken payload) = Except.ok reqUser ∧
      getMe users1 reqUser
        = ⟨200, Body.me (nextUserId sampleAccounts) "lee@example.com" Role.mentor "Lee Min"
            none ("https://placehold.co/500x500.jpg?text=" ++ roleUpper Role.mentor)
            (if Role.mentor = Role.mentor then some [] else none)⟩ :=
  signup_login_me sampleEnv 1000 sampleAccounts "lee@example.com" "Secret12" "Lee Min"
    Role.mentor (by decide) (by decide)

/-- C18: a login answered with 200 at the whole second `now` carries a token for
a stored user `u` whose claims have iat = now, nbf = now, exp = now + 3600, sub
the decimal text of the id of `u`, and the name, email and role of `u`; the
middleware reads the id of `u` from that subject and resolves it to a stored
user with the same id. -/
theorem login_token_claims (env : Env) (now : Nat) (users : List User) (body : LoginBody)
    (h : (login env now users body).status = 200) :
    ∃ (u : User) (payload : JwtPayload), u ∈ users ∧
      login env now users body = ⟨200, Body.token payload⟩ ∧
      payload.iat = now ∧ payload.nbf = now ∧ payload.exp = now + 3600 ∧
      payload.sub = Nat.repr u.id ∧ parseId payload.sub = some u.id ∧
      payload.name = u.name ∧ payload.email = u.email ∧ payload.role = u.role ∧
      decodedToken payload = some (Token.decoded u.id) ∧
      ∃ v : User, authenticateToken users (decodedToken payload) = Except.ok v ∧
        v.id = u.id := by
  obtain ⟨u, hu, heq⟩ := login_ok env now users body h
  have hdec : decodedToken
      { iss := "mentor-mentee-api", sub := toString u.id, aud := "mentor-mentee-web",
        exp := now + 3600, nbf := now, iat := now,
        jti := toString u.id ++ "_" ++ toString now, userId := none,
        name := u.name, email := u.email, role := u.role }
      = some (Token.decoded u.id) := by
    unfold decodedToken
    simp only []
    rw [parseId_toString]
    rfl
  obtain ⟨v, hv, hvid⟩ := findByPk_of_mem users u hu
  refine ⟨u, _, hu, heq, rfl, rfl, rfl, rfl, parseId_toString u.id, rfl, rfl, rfl, hdec,
    v, ?_, hvid⟩
  rw [hdec]
  unfold authenticateToken
  simp only []
  rw [hv]

/-- Witness of C18: the registered mentee logs in at second 1000. -/
theorem login_token_claims_witness :
    ∃ (u : User) (payload : JwtPayload), u ∈ sampleAccounts ∧
      login sampleEnv 1000 sampleAccounts
          ⟨StrField.str "kim@example.com", StrField.str "Passw0rd1", []⟩
        = ⟨200, Body.token payload⟩ ∧
      payload.iat = 1000 ∧ payload.nbf = 1000 ∧ payload.exp = 1000 + 3600 ∧
      payload.sub = Nat.repr u.id ∧ parseId payload.sub = some u.id ∧
      payload.name = u.name ∧ payload.email = u.email ∧ payload.role = u.role ∧
      decodedToken payload = some (Token.decoded u.id) ∧
      ∃ v : User, authenticateToken sampleAccounts (decodedToken payload) = Except.ok v ∧
        v.id = u.id :=
  login_token_claims sampleEnv 1000 sampleAccounts
    ⟨StrField.str "kim@example.com", StrField.str "Passw0rd1", []⟩ (by decide)

/-- C19 fails on the code: the registered mentee logs in twice within the same
second, at clock readings 1700000000250 and 1700000000750 milliseconds.  Both
logins succeed and both tokens carry the jti "1_1700000000"; two calls of
`generateToken` at those readings both give the jti "1-1700000000". -/
theorem jti_repeats_within_a_second :
    (∃ p1 p2 : JwtPayload,
      login sampleEnv (secondsOf 1700000000250) sampleAccounts
          ⟨StrField.str "kim@example.com", StrField.str "Passw0rd1", []⟩
        = ⟨200, Body.token p1⟩ ∧
      login sampleEnv (secondsOf 1700000000750) sampleAccounts
          ⟨StrField.str "kim@example.com", StrField.str "Passw0rd1", []⟩
        = ⟨200, Body.token p2⟩ ∧
      p1.jti = "1_1700000000" ∧ p2.jti = "1_1700000000") ∧
    (generateToken { id := 1, role := Role.mentee } (secondsOf 1700000000250)).jti
      = "1-1700000000" ∧
    (generateToken { id := 1, role := Role.mentee } (secondsOf 1700000000750)).jti
      = "1-1700000000" := by
  refine ⟨⟨_, _, rfl, rfl, by decide, by decide⟩, by decide, by decide⟩

/-- C20 fails on the code: the password "ABCDEFG1", line feed, "abc" has 12
characters and contains a lowercase letter, an uppercase letter and a digit,
yet the rule of the signup schema and `validateInput.password` both refuse it,
and the signup is answered with 400: the lowercase letters stand after the line
feed, which the dot of the lookahead does not cross. -/
theorem password_rule_stops_at_line_break :
    passwordSpec "ABCDEFG1\nabc" = true ∧
    joiPassword "ABCDEFG1\nabc" = false ∧
    validateInput.password "ABCDEFG1\nabc" = false ∧
    (signup sampleEnv sampleAccounts
      ⟨StrField.str "lee@example.com", StrField.str "ABCDEFG1\nabc", StrField.str "Lee Min",
        StrField.str "mentor", []⟩).1.status = 400 := by
  decide

/-! ## The name rule -/

theorem nameChar_lt (c : Char)
    (h : (isLowerAZ c || isUpperAZ c || isHangul c || isWhiteSpace c) = true) :
    c.toNat < 65536 := by
  simp only [isLowerAZ, isUpperAZ, isHangul, isWhiteSpace, Bool.or_eq_true,
    decide_eq_true_eq] at h
  omega

theorem utf16_sum_eq_length (cs : List Char) (h : ∀ c ∈ cs, c.toNat < 65536) :
    (cs.map (fun c => if c.toNat < 65536 then 1 else 2)).sum = cs.length := by
  induction cs with
  | nil => rfl
  | cons a t ih =>
    have ha : a.toNat < 65536 := h a (List.mem_cons_self a t)
    have ht := ih (fun c hc => h c (List.mem_cons_of_mem a hc))
    simp only [List.map_cons, List.sum_cons, List.length_cons, ha, if_true, ht]
    omega

theorem utf16Length_eq_length (s : String) (h : ∀ c ∈ s.data, c.toNat < 65536) :
    utf16Length s = s.length :=
  utf16_sum_eq_length s.data h

theorem namePattern_iff (s : String) :
    namePattern s = true ↔
      s ≠ "" ∧ ∀ c ∈ s.data,
        (isLowerAZ c || isUpperAZ c || isHangul c || isWhiteSpace c) = true := by
  have hne : s.data.isEmpty = false ↔ s ≠ "" := by
    constructor
    · intro h hs
      rw [hs] at h
      cases h
    · intro h
      cases hd : s.data with
      | nil =>
        exfalso
        apply h
        have : s = String.mk s.data := rfl
        rw [this, hd]
      | cons a t => rfl
  unfold namePattern
  simp only [Bool.and_eq_true, Bool.not_eq_true', List.all_eq_true]
  rw [hne]

/-! ## The claims, third part -/

/-- C21 as stated fails: the name "Kim", tab, "Lee" contains a tab, which is
neither a letter, a Hangul syllable nor a space, yet the rule of the signup
schema and `validateInput.name` accept it and the signup is answered with 201. -/
theorem name_rule_accepts_tab :
    nameSpec "Kim\tLee" = false ∧
    joiName "Kim\tLee" = true ∧
    validateInput.name "Kim\tLee" = true ∧
    (signup sampleEnv sampleAccounts
      ⟨StrField.str "lee@example.com", StrField.str "Secret12", StrField.str "Kim\tLee",
        StrField.str "mentor", []⟩).1.status = 201 := by
  decide

/-- C21 amended: the name member of the signup schema, and `validateInput.name`,
accept a string exactly when it has between 1 and 100 characters and each of
them is a letter a-z or A-Z, a Hangul syllable (U+AC00 to U+D7A3) or a white
space character of the class `\s` (blank, tab, line breaks and the Unicode
spaces). -/
theorem name_rule (s : String) :
    ((∃ e : String, joiSignupName (StrField.str s) = Except.ok e) ↔
      (1 ≤ s.length ∧ s.length ≤ 100 ∧
        ∀ c ∈ s.data, (isLowerAZ c || isUpperAZ c || isHangul c || isWhiteSpace c) = true)) ∧
    (validateInput.name s = true ↔
      (1 ≤ s.length ∧ s.length ≤ 100 ∧
        ∀ c ∈ s.data, (isLowerAZ c || isUpperAZ c || isHangul c || isWhiteSpace c) = true)) := by
  constructor
  · constructor
    · rintro ⟨e, he⟩
      obtain ⟨_, _, hj⟩ := joiSignupName_ok s e he
      unfold joiName at hj
      simp only [Bool.and_eq_true, decide_eq_true_eq] at hj
      obtain ⟨⟨⟨_, h1⟩, h2⟩, h3⟩ := hj
      have hall := ((namePattern_iff s).mp h3).2
      have hlen := utf16Length_eq_length s (fun c hc => nameChar_lt c (hall c hc))
      rw [hlen] at h1 h2
      exact ⟨h1, h2, hall⟩
    · rintro ⟨h1, h2, hall⟩
      have hne : s ≠ "" := by
        intro hs
        rw [hs] at h1
        exact absurd h1 (by decide)
      have hlen := utf16Length_eq_length s (fun c hc => nameChar_lt c (hall c hc))
      have hp : namePattern s = true := (namePattern_iff s).mpr ⟨hne, hall⟩
      refine ⟨s, ?_⟩
      unfold joiSignupName joiString
      simp only [hne, if_false, hlen, hp, Bool.not_true, Bool.false_eq_true]
      have h3 : ¬(s.length < 1) := by omega
      have h4 : ¬(100 < s.length) := by omega
      simp only [h3, h4, if_false]
  · unfold validateInput.name isLength
    simp only [Bool.and_eq_true, decide_eq_true_eq]
    constructor
    · rintro ⟨⟨h1, h2⟩, h3⟩
      exact ⟨h1, h2, ((namePattern_iff s).mp h3).2⟩
    · rintro ⟨h1, h2, hall⟩
      have hne : s ≠ "" := by
        intro hs
        rw [hs] at h1
        exact absurd h1 (by decide)
      exact ⟨⟨h1, h2⟩, (namePattern_iff s).mpr ⟨hne, hall⟩⟩

theorem signup_rows (env : Env) (users : List User) (body : SignupBody) :
    (signup env users body).2 = users ∨
    ∃ new : User, (signup env users body).2 = users ++ [new] ∧
      ∀ v ∈ users, v.email ≠ new.email := by
  unfold signup
  split
  · left; rfl
  · rename_i email password name role hv
    split
    · left; rfl
    · rename_i hf
      have hfree : ∀ v ∈ users, v.email ≠ email := by
        intro v hvm hc
        have := List.find?_eq_none.mp hf v hvm
        simp [hc] at this
      simp only []
      split
      · left; rfl
      · rename_i u users1 hc
        unfold User.create at hc
        split at hc
        · split at hc
          · cases hc
          · injection hc with hc
            injection hc with h1 h2
            right
            refine ⟨u, ?_, ?_⟩
            · show users1 = users ++ [u]
              rw [← h2, ← h1]
            · rw [← h1]
              exact hfree
        · cases hc

theorem runSignups_emails_nodup (env : Env) (bodies : List SignupBody) :
    ∀ users : List User, (users.map (fun u => u.email)).Nodup →
      ((runSignups env bodies users).map (fun u => u.email)).Nodup := by
  induction bodies with
  | nil => intro users h; exact h
  | cons b rest ih =>
    intro users h
    have hrun : runSignups env (b :: rest) users
        = runSignups env rest (signup env users b).2 := rfl
    rw [hrun]
    apply ih
    rcases signup_rows env users b with h1 | ⟨new, h1, hfree⟩
    · rw [h1]; exact h
    · rw [h1, List.map_append, List.nodup_append]
      refine ⟨h, by simp, ?_⟩
      intro a ha hb
      simp only [List.map_cons, List.map_nil, List.mem_singleton] at hb
      obtain ⟨v, hv, hva⟩ := List.mem_map.mp ha
      exact hfree v hv (by rw [hva, hb])

/-- C22: a signup whose body passes the schema and whose email is the email of a
stored user is answered with 409 "Email already registered" and the user table
is unchanged; and after every prefix of every sequence of signups from an empty
table, no two stored users have the same email. -/
theorem emails_unique (env : Env) :
    (∀ (users : List User) (body : SignupBody) (email password name : String) (role : Role),
      signupSchema.validate env body = Except.ok (email, password, name, role) →
      (∃ v, v ∈ users ∧ v.email = email) →
      signup env users body = (⟨409, Body.error "Email already registered"⟩, users)) ∧
    (∀ (bodies : List SignupBody) (k : Nat),
      ((runSignups env (bodies.take k) []).map (fun u => u.email)).Nodup) := by
  constructor
  · intro users body email password name role hv hex
    unfold signup
    rw [hv]
    simp only []
    cases hf : User.findOne users (fun u => u.email == email) with
    | some w => rfl
    | none =>
      exfalso
      obtain ⟨v, hvm, hve⟩ := hex
      have := List.find?_eq_none.mp hf v hvm
      simp [hve] at this
  · intro bodies k
    exact runSignups_emails_nodup env (bodies.take k) [] (by simp)

/-- Witness of C22: a second signup with the email of the registered mentee. -/
theorem emails_unique_witness :
    signup sampleEnv sampleAccounts
        ⟨StrField.str "kim@example.com", StrField.str "Secret12", StrField.str "Lee Min",
          StrField.str "mentor", []⟩
      = (⟨409, Body.error "Email already registered"⟩, sampleAccounts) :=
  (emails_unique sampleEnv).1 sampleAccounts
    ⟨StrField.str "kim@example.com", StrField.str "Secret12", StrField.str "Lee Min",
      StrField.str "mentor", []⟩
    "kim@example.com" "Secret12" "Lee Min" Role.mentor rfl
    ⟨{ id := 1, email := "kim@example.com", password := "$2a$12$Passw0rd1", name := "Kim",
       role := Role.mentee }, by decide, rfl⟩

/-- C23: for a header that carries a token, the middleware answers 403 with the
error "Invalid token" alike when `jwt.verify` throws for a bad signature, when
it throws for an expired token, and when the decoded subject is the id of no
stored user; in each case the response of the protected route is that of the
middleware and the request table is as before, whatever the handler is. -/
theorem auth_failures_identical (verify : String → Token) (users : List User)
    (authHeader : Option String) (t : String) (sub : Nat)
    (handler : User → Response × List MatchingRequest) (rows : List MatchingRequest)
    (ht : bearerToken authHeader = some t)
    (hfail : verify t = Token.badSignature ∨ verify t = Token.expired ∨
      (verify t = Token.decoded sub ∧ ∀ v ∈ users, v.id ≠ sub)) :
    authenticateToken.fromHeader verify users authHeader
      = Except.error ⟨403, Body.error "Invalid token"⟩ ∧
    protect verify users authHeader handler rows
      = (⟨403, Body.error "Invalid token"⟩, rows) := by
  have h1 : authenticateToken.fromHeader verify users authHeader
      = Except.error ⟨403, Body.error "Invalid token"⟩ := by
    unfold authenticateToken.fromHeader
    rw [ht]
    simp only [Option.map_some']
    rcases hfail with h | h | ⟨h, hnone⟩
    · rw [h]; rfl
    · rw [h]; rfl
    · rw [h]
      unfold authenticateToken
      simp only []
      have hf : User.findByPk users sub = none := by
        unfold User.findByPk
        rw [List.find?_eq_none]
        intro v hv hc
        simp only [beq_iff_eq] at hc
        exact hnone v hv hc
      rw [hf]
  refine ⟨h1, ?_⟩
  unfold protect
  rw [h1]

/-- Witness of C23: the three failures on the sample user table, where no user
has id 9, in front of the accept handler. -/
theorem auth_failures_identical_witness :
    (authenticateToken.fromHeader (fun _ => Token.badSignature) sampleUsers
        (some "Bearer abc") = Except.error ⟨403, Body.error "Invalid token"⟩ ∧
      protect (fun _ => Token.badSignature) sampleUsers (some "Bearer abc")
        (fun u => putAccept u 1 sampleRows) sampleRows
        = (⟨403, Body.error "Invalid token"⟩, sampleRows)) ∧
    (authenticateToken.fromHeader (fun _ => Token.expired) sampleUsers
        (some "Bearer abc") = Except.error ⟨403, Body.error "Invalid token"⟩ ∧
      protect (fun _ => Token.expired) sampleUsers (some "Bearer abc")
        (fun u => putAccept u 1 sampleRows) sampleRows
        = (⟨403, Body.error "Invalid token"⟩, sampleRows)) ∧
    (authenticateToken.fromHeader (fun _ => Token.decoded 9) sampleUsers
        (some "Bearer abc") = Except.error ⟨403, Body.error "Invalid token"⟩ ∧
      protect (fun _ => Token.decoded 9) sampleUsers (some "Bearer abc")
        (fun u => putAccept u 1 sampleRows) sampleRows
        = (⟨403, Body.error "Invalid token"⟩, sampleRows)) :=
  ⟨auth_failures_identical (fun _ => Token.badSignature) sampleUsers (some "Bearer abc")
      "abc" 0 (fun u => putAccept u 1 sampleRows) sampleRows (by decide) (Or.inl rfl),
    auth_failures_identical (fun _ => Token.expired) sampleUsers (some "Bearer abc")
      "abc" 0 (fun u => putAccept u 1 sampleRows) sampleRows (by decide) (Or.inr (Or.inl rfl)),
    auth_failures_identical (fun _ => Token.decoded 9) sampleUsers (some "Bearer abc")
      "abc" 9 (fun u => putAccept u 1 sampleRows) sampleRows (by decide)
      (Or.inr (Or.inr ⟨rfl, by decide⟩))⟩

theorem dropWhile_noBlank (cs rest : List Char) (h : ∀ c ∈ cs, c ≠ Char.ofNat 32) :
    (cs ++ Char.ofNat 32 :: rest).dropWhile (fun c => c != Char.ofNat 32)
      = Char.ofNat 32 :: rest := by
  induction cs with
  | nil => simp
  | cons a t ih =>
    have ha : a ≠ Char.ofNat 32 := h a (List.mem_cons_self a t)
    have hp : (a != Char.ofNat 32) = true := by simp [ha]
    rw [List.cons_append, List.dropWhile_cons]
    simp only [hp, if_true]
    exact ih (fun c hc => h c (List.mem_cons_of_mem a hc))

theorem dropWhile_noBlank_nil (cs : List Char) (h : ∀ c ∈ cs, c ≠ Char.ofNat 32) :
    cs.dropWhile (fun c => c != Char.ofNat 32) = [] := by
  rw [List.dropWhile_eq_nil_iff]
  intro c hc
  simp [h c hc]

theorem bearerToken_none (authHeader : Option String)
    (h : authHeader = none ∨
      ∃ scheme : String, (∀ c ∈ scheme.data, c ≠ Char.ofNat 32) ∧
        (authHeader = some scheme ∨ authHeader = some (scheme ++ " "))) :
    bearerToken authHeader = none := by
  rcases h with h | ⟨scheme, hs, h | h⟩
  · rw [h]; rfl
  · rw [h]
    unfold bearerToken
    simp only []
    rw [dropWhile_noBlank_nil scheme.data hs]
    rfl
  · rw [h]
    unfold bearerToken
    simp only []
    have hd : (scheme ++ " ").data = scheme.data ++ Char.ofNat 32 :: [] := rfl
    rw [hd, dropWhile_noBlank scheme.data [] hs]
    rfl

/-- C24: when the request has no `Authorization` header, or the header is a
scheme word alone or a scheme word followed by a blank and nothing else, the
middleware answers 401 "Access token required" for every user table and every
`jwt.verify` (neither is consulted), and the response of the protected route
is that of the middleware with the request table as before, whatever the
handler is. -/
theorem missing_token_401 (verify : String → Token) (users : List User)
    (authHeader : Option String) (handler : User → Response × List MatchingRequest)
    (rows : List MatchingRequest)
    (h : authHeader = none ∨
      ∃ scheme : String, (∀ c ∈ scheme.data, c ≠ Char.ofNat 32) ∧
        (authHeader = some scheme ∨ authHeader = some (scheme ++ " "))) :
    authenticateToken.fromHeader verify users authHeader
      = Except.error ⟨401, Body.error "Access token required"⟩ ∧
    protect verify users authHeader handler rows
      = (⟨401, Body.error "Access token required"⟩, rows) := by
  have h1 : authenticateToken.fromHeader verify users authHeader
      = Except.error ⟨401, Body.error "Access token required"⟩ := by
    unfold authenticateToken.fromHeader
    rw [bearerToken_none authHeader h]
    rfl
  refine ⟨h1, ?_⟩
  unfold protect
  rw [h1]

/-- Witness of C24: no header, the header "Bearer" and the header "Bearer "
in front of the accept handler. -/
theorem missing_token_401_witness :
    (authenticateToken.fromHeader (fun _ => Token.decoded 2) sampleUsers none
        = Except.error ⟨401, Body.error "Access token required"⟩ ∧
      protect (fun _ => Token.decoded 2) sampleUsers none
        (fun u => putAccept u 1 sampleRows) sampleRows
        = (⟨401, Body.error "Access token required"⟩, sampleRows)) ∧
    (authenticateToken.fromHeader (fun _ => Token.decoded 2) sampleUsers (some "Bearer")
        = Except.error ⟨401, Body.error "Access token required"⟩ ∧
      protect (fun _ => Token.decoded 2) sampleUsers (some "Bearer")
        (fun u => putAccept u 1 sampleRows) sampleRows
        = (⟨401, Body.error "Access token required"⟩, sampleRows)) ∧
    (authenticateToken.fromHeader (fun _ => Token.decoded 2) sampleUsers
        (some ("Bearer" ++ " "))
        = Except.error ⟨401, Body.error "Access token required"⟩ ∧
      protect (fun _ => Token.decoded 2) sampleUsers (some ("Bearer" ++ " "))
        (fun u => putAccept u 1 sampleRows) sampleRows
        = (⟨401, Body.error "Access token required"⟩, sampleRows)) :=
  ⟨missing_token_401 (fun _ => Token.decoded 2) sampleUsers none
      (fun u => putAccept u 1 sampleRows) sampleRows (Or.inl rfl),
    missing_token_401 (fun _ => Token.decoded 2) sampleUsers (some "Bearer")
      (fun u => putAccept u 1 sampleRows) sampleRows
      (Or.inr ⟨"Bearer", by decide, Or.inl rfl⟩),
    missing_token_401 (fun _ => Token.decoded 2) sampleUsers (some ("Bearer" ++ " "))
      (fun u => putAccept u 1 sampleRows) sampleRows
      (Or.inr ⟨"Bearer", by decide, Or.inr rfl⟩)⟩

/-- C27 fails on the code: a login with an empty body and a create request
with an empty body are both answered with status 400 and a body whose `details`
is a single string, not a list of strings; the signup handler, given an empty
body, sends a list. -/
theorem validation_details_is_a_string :
    login sampleEnv 1000 sampleAccounts
        { email := StrField.missing, password := StrField.missing, unknownKeys := [] }
      = ⟨400, Body.validation "Validation failed" (joiMessage "email" "is required")⟩ ∧
    (login sampleEnv 1000 sampleAccounts
        { email := StrField.missing, password := StrField.missing,
          unknownKeys := [] }).body.detailsIsList = false ∧
    postMatchRequests sampleUsers { id := 1, role := Role.mentee, isActive := true }
        { mentorId := NumField.missing, message := StrField.missing, unknownKeys := [] }
        sampleRows
      = (⟨400, Body.validation "Validation error" (joiMessage "mentorId" "is required")⟩,
          sampleRows) ∧
    (postMatchRequests sampleUsers { id := 1, role := Role.mentee, isActive := true }
        { mentorId := NumField.missing, message := StrField.missing, unknownKeys := [] }
        sampleRows).1.body.detailsIsList = false ∧
    signup sampleEnv sampleAccounts
        { email := StrField.missing, password := StrField.missing, name := StrField.missing,
          role := StrField.missing, unknownKeys := [] }
      = (⟨400, Body.validationList "Validation error" [joiMessage "email" "is required"]⟩,
          sampleAccounts) := by
  decide

theorem putProfile_rows (imageError : String → Option String) (users : List User)
    (reqUser : User) (body : ProfileBody) :
    (putProfile imageError users reqUser body).2 = users ∨
    ∃ (user : User) (name bio : Option String) (skills : Option (List String))
        (profileImage : Option String),
      User.findByPk users reqUser.id = some user ∧
      (user.role ≠ Role.mentor → skills = none) ∧
      (putProfile imageError users reqUser body).2
        = users.map (applyProfile user name bio skills profileImage) := by
  unfold putProfile
  cases hf : User.findByPk users reqUser.id with
  | none => left; rfl
  | some user =>
    simp only []
    split
    · left; rfl
    · split
      · left; rfl
      · rename_i users1 hu
        unfold User.update at hu
        split at hu
        · injection hu with hu
          right
          refine ⟨user, body.name, body.bio,
            (if user.role = Role.mentor then body.skills else none),
            (match (match body.image with
                | some i => if i.length > 0 then some i else none
                | none => none) with
              | some _ => some ("user-" ++ toString user.id ++ ".jpg")
              | none => none),
            rfl, ?_, ?_⟩
          · intro hr
            rw [if_neg hr]
          · rw [← hu]
            split <;> rfl
        · cases hu

/-- C26: `PUT /profile` for a caller resolved from the user table keeps the
table at its length and keeps, in every row, the id, the email, the role, the
password hash and the active flag; every row whose id is not the id of the
caller is exactly as before; and when the role of the caller is not mentor no
row changes its skills. -/
theorem profile_update_frame (imageError : String → Option String) (users : List User)
    (reqUser : User) (body : ProfileBody)
    (hauth : User.findByPk users reqUser.id = some reqUser) :
    (putProfile imageError users reqUser body).2.length = users.length ∧
    ∀ (i : Nat) (v : User), users[i]? = some v →
      ∃ v' : User, (putProfile imageError users reqUser body).2[i]? = some v' ∧
        v'.id = v.id ∧ v'.email = v.email ∧ v'.role = v.role ∧ v'.password = v.password ∧
        v'.isActive = v.isActive ∧
        (v.id ≠ reqUser.id → v' = v) ∧
        (reqUser.role ≠ Role.mentor → v'.skills = v.skills) := by
  rcases putProfile_rows imageError users reqUser body with h | ⟨user, name, bio, skills, img,
    hf, hsk, h⟩
  · rw [h]
    refine ⟨rfl, ?_⟩
    intro i v hi
    exact ⟨v, hi, rfl, rfl, rfl, rfl, rfl, fun _ => rfl, fun _ => rfl⟩
  · rw [hauth] at hf
    injection hf with hf
    subst hf
    rw [h]
    refine ⟨by rw [List.length_map], ?_⟩
    intro i v hi
    rw [List.getElem?_map, hi]
    refine ⟨applyProfile reqUser name bio skills img v, rfl, ?_⟩
    unfold applyProfile
    by_cases hid : v.id = reqUser.id
    · simp only [hid, beq_self_eq_true, if_true]
      refine ⟨trivial, trivial, trivial, trivial, trivial, fun hne => absurd rfl hne, ?_⟩
      intro hr
      rw [hsk hr]
      rfl
    · have hb : (v.id == reqUser.id) = false := by simp [hid]
      simp only [hb, Bool.false_eq_true, if_false]
      exact ⟨trivial, trivial, trivial, trivial, trivial, fun _ => trivial, fun _ => trivial⟩

/-- Witness of C26: the registered mentee sends a new name and a skills list. -/
theorem profile_update_frame_witness :
    (putProfile (fun _ => none) sampleAccounts
        { id := 1, email := "kim@example.com", password := "$2a$12$Passw0rd1", name := "Kim",
          role := Role.mentee }
        { name := some "Kim Lee", skills := some ["React"] }).2.length
      = sampleAccounts.length ∧
    ∀ (i : Nat) (v : User), sampleAccounts[i]? = some v →
      ∃ v' : User,
        (putProfile (fun _ => none) sampleAccounts
          { id := 1, email := "kim@example.com", password := "$2a$12$Passw0rd1",
            name := "Kim", role := Role.mentee }
          { name := some "Kim Lee", skills := some ["React"] }).2[i]? = some v' ∧
        v'.id = v.id ∧ v'.email = v.email ∧ v'.role = v.role ∧ v'.password = v.password ∧
        v'.isActive = v.isActive ∧
        (v.id ≠ 1 → v' = v) ∧
        (Role.mentee ≠ Role.mentor → v'.skills = v.skills) :=
  profile_update_frame (fun _ => none) sampleAccounts
    { id := 1, email := "kim@example.com", password := "$2a$12$Passw0rd1", name := "Kim",
      role := Role.mentee }
    { name := some "Kim Lee", skills := some ["React"] } (by decide)

/-! ## The skill filter -/

theorem likeMatch_percent (ps text t : List Char) (ht : t <:+ text)
    (h : likeMatch ps t = true) : likeMatch (Char.ofNat 37 :: ps) text = true := by
  unfold likeMatch
  have h37 : (Char.ofNat 37).toNat = 37 := by decide
  rw [if_pos h37, List.any_eq_true]
  exact ⟨t, (List.mem_tails t text).mpr ht, h⟩

theorem likeMatch_literal (lit : List Char) :
    ∀ (ps t : List Char), likeMatch ps t = true → likeMatch (lit ++ ps) (lit ++ t) = true := by
  induction lit with
  | nil => intro ps t h; exact h
  | cons p rest ih =>
    intro ps t h
    have hrec := ih ps t h
    rw [List.cons_append, List.cons_append]
    unfold likeMatch
    by_cases hp : p.toNat = 37
    · rw [if_pos hp, List.any_eq_true]
      exact ⟨rest ++ t, (List.mem_tails _ _).mpr (List.suffix_cons p (rest ++ t)), hrec⟩
    · rw [if_neg hp]
      simp [hrec]

theorem likeMatch_percent_end (t : List Char) : likeMatch [Char.ofNat 37] t = true := by
  apply likeMatch_percent [] t [] List.nil_suffix
  rfl

theorem likeMatch_skill (s : String) (pre post : List Char) :
    likeMatch (skillPattern s)
      (pre ++ (Char.ofNat 34 :: (s.data ++ [Char.ofNat 34])) ++ post) = true := by
  unfold skillPattern
  apply likeMatch_percent _ _ ((Char.ofNat 34 :: (s.data ++ [Char.ofNat 34])) ++ post)
  · rw [List.append_assoc]
    exact List.suffix_append pre _
  · have hpat : Char.ofNat 34 :: (s.data ++ [Char.ofNat 34, Char.ofNat 37])
        = (Char.ofNat 34 :: (s.data ++ [Char.ofNat 34])) ++ [Char.ofNat 37] := by
      simp
    rw [hpat]
    exact likeMatch_literal _ _ _ (likeMatch_percent_end post)

theorem jsonString_plain (s : String) (h : plainSkill s) :
    jsonString s = Char.ofNat 34 :: (s.data ++ [Char.ofNat 34]) := by
  unfold jsonString
  have hflat : ∀ cs : List Char, (∀ c ∈ cs, 32 ≤ c.toNat ∧ c.toNat ≠ 34 ∧ c.toNat ≠ 92) →
      cs.flatMap jsonEscape = cs := by
    intro cs
    induction cs with
    | nil => intro _; rfl
    | cons a t ih =>
      intro hc
      obtain ⟨h1, h2, h3⟩ := hc a (List.mem_cons_self a t)
      have ha : jsonEscape a = [a] := by
        unfold jsonEscape
        have e1 : ¬a.toNat = 8 := by omega
        have e2 : ¬a.toNat = 9 := by omega
        have e3 : ¬a.toNat = 10 := by omega
        have e4 : ¬a.toNat = 12 := by omega
        have e5 : ¬a.toNat = 13 := by omega
        have e6 : ¬a.toNat < 32 := by omega
        simp only [h2, h3, e1, e2, e3, e4, e5, e6, if_false]
      rw [List.flatMap_cons, ha, ih (fun c hm => hc c (List.mem_cons_of_mem a hm))]
      rfl
  rw [hflat s.data h]

theorem jsonElements_mem (s : String) (skills : List String) (h : s ∈ skills) :
    ∃ pre post : List Char, jsonElements skills = pre ++ jsonString s ++ post := by
  induction skills with
  | nil => cases h
  | cons a t ih =>
    rcases List.mem_cons.mp h with h1 | h1
    · subst h1
      cases t with
      | nil => exact ⟨[], [], by simp [jsonElements]⟩
      | cons b rest =>
        exact ⟨[], Char.ofNat 44 :: jsonElements (b :: rest), by simp [jsonElements]⟩
    · cases t with
      | nil => cases h1
      | cons b rest =>
        obtain ⟨pre, post, hp⟩ := ih h1
        refine ⟨jsonString a ++ Char.ofNat 44 :: pre, post, ?_⟩
        simp only [jsonElements]
        rw [hp]
        simp

theorem mentorCondition_of_mem (s : String) (u : User) (hs : plainSkill s)
    (hrole : u.role = Role.mentor) (hact : u.isActive = true) (hmem : s ∈ u.skills) :
    mentorCondition (some s) u = true := by
  unfold mentorCondition
  simp only [hrole, hact, beq_self_eq_true, Bool.and_self, Bool.true_and]
  by_cases he : s = ""
  · rw [if_pos he]
  · rw [if_neg he]
    obtain ⟨pre, post, hp⟩ := jsonElements_mem s u.skills hmem
    unfold skillsText
    rw [hp, jsonString_plain s hs]
    have := likeMatch_skill s (Char.ofNat 91 :: pre) (post ++ [Char.ofNat 93])
    simpa using this

theorem toNat_fold_upper : ∀ n : Nat, n < 91 → 65 ≤ n → (Char.ofNat (n + 32)).toNat = n + 32 := by
  decide

theorem likeFold_toNat (c : Char) :
    (likeFold c).toNat = if 65 ≤ c.toNat ∧ c.toNat ≤ 90 then c.toNat + 32 else c.toNat := by
  unfold likeFold
  by_cases hc : 65 ≤ c.toNat ∧ c.toNat ≤ 90
  · rw [if_pos hc, if_pos hc]
    exact toNat_fold_upper c.toNat (by omega) hc.1
  · rw [if_neg hc, if_neg hc]

/-- A character that is no letter is folded to by itself only. -/
theorem eq_of_likeFold_eq (c d : Char) (h : likeFold c = likeFold d)
    (hd : ¬(65 ≤ d.toNat ∧ d.toNat ≤ 90)) (hd2 : ¬(97 ≤ d.toNat ∧ d.toNat ≤ 122)) : c = d := by
  have h1 := congrArg Char.toNat h
  rw [likeFold_toNat, likeFold_toNat, if_neg hd] at h1
  by_cases hc : 65 ≤ c.toNat ∧ c.toNat ≤ 90
  · rw [if_pos hc] at h1
    omega
  · rw [if_neg hc] at h1
    rw [← Char.ofNat_toNat c, ← Char.ofNat_toNat d, h1]

/-- Folding keeps a character outside a class that holds no letter. -/
theorem likeFold_class (c d : Char) (h : likeFold c = likeFold d) :
    (32 ≤ d.toNat → 32 ≤ c.toNat) ∧ (d.toNat ≠ 34 → c.toNat ≠ 34) ∧
      (d.toNat ≠ 92 → c.toNat ≠ 92) ∧ (d.toNat ≠ 44 → c.toNat ≠ 44) := by
  have h1 := congrArg Char.toNat h
  rw [likeFold_toNat, likeFold_toNat] at h1
  by_cases hc : 65 ≤ c.toNat ∧ c.toNat ≤ 90 <;> by_cases hd : 65 ≤ d.toNat ∧ d.toNat ≤ 90
  · rw [if_pos hc, if_pos hd] at h1
    omega
  · rw [if_pos hc, if_neg hd] at h1
    omega
  · rw [if_neg hc, if_pos hd] at h1
    omega
  · rw [if_neg hc, if_neg hd] at h1
    omega

/-- Two texts with the same folding: every character of the first folds like
one of the second. -/
theorem mem_of_map_likeFold (xs : List Char) :
    ∀ (ys : List Char), xs.map likeFold = ys.map likeFold →
      ∀ c ∈ xs, ∃ d ∈ ys, likeFold c = likeFold d := by
  induction xs with
  | nil => intro _ _ c hc; cases hc
  | cons a as ih =>
    intro ys hxy c hc
    cases ys with
    | nil => simp at hxy
    | cons b bs =>
      simp only [List.map_cons, List.cons.injEq] at hxy
      rcases List.mem_cons.mp hc with h1 | h1
      · exact ⟨b, List.mem_cons_self b bs, by rw [h1]; exact hxy.1⟩
      · obtain ⟨d, hd, hcd⟩ := ih bs hxy.2 c h1
        exact ⟨d, List.mem_cons_of_mem b hd, hcd⟩

theorem likeMatch_folded (lit : List Char) :
    ∀ (t ps rest : List Char), lit.map likeFold = t.map likeFold → likeMatch ps rest = true →
      likeMatch (lit ++ ps) (t ++ rest) = true := by
  induction lit with
  | nil =>
    intro t ps rest h hm
    cases t with
    | nil => exact hm
    | cons c cs => simp at h
  | cons p lit ih =>
    intro t ps rest h hm
    cases t with
    | nil => simp at h
    | cons c cs =>
      simp only [List.map_cons, List.cons.injEq] at h
      have hrec := ih cs ps rest h.2 hm
      rw [List.cons_append, List.cons_append]
      unfold likeMatch
      by_cases hp : p.toNat = 37
      · rw [if_pos hp, List.any_eq_true]
        exact ⟨cs ++ rest, (List.mem_tails _ _).mpr (List.suffix_cons c (cs ++ rest)), hrec⟩
      · rw [if_neg hp]
        simp [hrec, h.1]

theorem likeMatch_literal_inv (lit : List Char) :
    ∀ (ps t : List Char), (∀ p ∈ lit, p.toNat ≠ 37 ∧ p.toNat ≠ 95) →
      likeMatch (lit ++ ps) t = true →
      ∃ m rest, t = m ++ rest ∧ m.map likeFold = lit.map likeFold ∧ likeMatch ps rest = true := by
  induction lit with
  | nil =>
    intro ps t _ h
    exact ⟨[], t, rfl, rfl, h⟩
  | cons p lit ih =>
    intro ps t hl h
    obtain ⟨h37, h95⟩ := hl p (List.mem_cons_self p lit)
    rw [List.cons_append] at h
    unfold likeMatch at h
    rw [if_neg h37] at h
    cases t with
    | nil => simp at h
    | cons c cs =>
      simp only [Bool.and_eq_true, Bool.or_eq_true, beq_iff_eq] at h
      obtain ⟨hpc, hrest⟩ := h
      have hfold : likeFold p = likeFold c := by
        rcases hpc with h1 | h1
        · exact absurd h1 h95
        · exact h1
      obtain ⟨m, rest, ht, hm, hr⟩ := ih ps cs (fun q hq => hl q (List.mem_cons_of_mem p hq)) hrest
      exact ⟨c :: m, rest, by rw [ht]; rfl, by simp [hm, hfold], hr⟩

theorem likeMatch_percent_inv (ps text : List Char)
    (h : likeMatch (Char.ofNat 37 :: ps) text = true) :
    ∃ pre t, text = pre ++ t ∧ likeMatch ps t = true := by
  unfold likeMatch at h
  have h37 : (Char.ofNat 37).toNat = 37 := by decide
  rw [if_pos h37, List.any_eq_true] at h
  obtain ⟨t, ht, hm⟩ := h
  obtain ⟨pre, hpre⟩ := (List.mem_tails t text).mp ht
  exact ⟨pre, t, hpre.symm, hm⟩



/-- Two splittings of one text at the first occurrence of a character agree. -/
theorem first_split {α : Type} (q : α) (a : List α) :
    ∀ (b x y : List α), q ∉ a → q ∉ b → a ++ q :: x = b ++ q :: y → a = b ∧ x = y := by
  induction a with
  | nil =>
    intro b x y _ hb h
    cases b with
    | nil =>
      simp only [List.nil_append, List.cons.injEq, true_and] at h
      exact ⟨rfl, h⟩
    | cons c cs =>
      simp only [List.nil_append, List.cons_append, List.cons.injEq] at h
      exact absurd (by rw [h.1]; exact List.mem_cons_self c cs) hb
  | cons c cs ih =>
    intro b x y ha hb h
    cases b with
    | nil =>
      simp only [List.nil_append, List.cons_append, List.cons.injEq] at h
      exact absurd (by rw [h.1]; exact List.mem_cons_self q cs) ha
    | cons d ds =>
      simp only [List.cons_append, List.cons.injEq] at h
      obtain ⟨h1, h2⟩ :=
        ih ds x y (fun hm => ha (List.mem_cons_of_mem c hm))
          (fun hm => hb (List.mem_cons_of_mem d hm)) h.2
      exact ⟨by rw [h.1, h1], h2⟩

/-- A text holds no given character, or splits at its first occurrence. -/
theorem split_first {α : Type} [DecidableEq α] (q : α) (l : List α) :
    q ∉ l ∨ ∃ l1 l2, l = l1 ++ q :: l2 ∧ q ∉ l1 := by
  induction l with
  | nil => exact Or.inl (List.not_mem_nil q)
  | cons c cs ih =>
    by_cases hc : q = c
    · exact Or.inr ⟨[], cs, by rw [hc]; rfl, List.not_mem_nil q⟩
    · rcases ih with h | ⟨l1, l2, h1, h2⟩
      · left
        intro hm
        rcases List.mem_cons.mp hm with h0 | h0
        · exact hc h0
        · exact h h0
      · right
        refine ⟨c :: l1, l2, by rw [h1]; rfl, ?_⟩
        intro hm
        rcases List.mem_cons.mp hm with h0 | h0
        · exact hc h0
        · exact h2 h0

theorem digitChar_ne_quote : ∀ k : Nat, k < 16 → Nat.digitChar k ≠ Char.ofNat 34 := by
  decide

theorem jsonEscape_quote (c : Char) (hc : c.toNat ≠ 34) : Char.ofNat 34 ∉ jsonEscape c := by
  unfold jsonEscape
  rw [if_neg hc]
  split
  · decide
  split
  · decide
  split
  · decide
  split
  · decide
  split
  · decide
  split
  · decide
  split
  · rename_i h32
    have h1 := digitChar_ne_quote (c.toNat / 16) (by omega)
    have h2 := digitChar_ne_quote (c.toNat % 16) (by omega)
    intro hm
    simp only [List.mem_cons, List.mem_singleton, List.not_mem_nil, or_false] at hm
    rcases hm with h | h | h | h | h | h
    · revert h; decide
    · revert h; decide
    · revert h; decide
    · revert h; decide
    · exact h1 h.symm
    · exact h2 h.symm
  · intro hm
    rw [List.mem_singleton] at hm
    apply hc
    rw [← hm]
    decide

theorem escaped_quote (cs : List Char) (h : ∀ c ∈ cs, c.toNat ≠ 34) :
    Char.ofNat 34 ∉ cs.flatMap jsonEscape := by
  intro hm
  rw [List.mem_flatMap] at hm
  obtain ⟨c, hc, hq⟩ := hm
  exact jsonEscape_quote c (h c hc) hq

theorem jsonEscape_backslash (c : Char) :
    jsonEscape c = [c] ∧ c.toNat ≠ 92 ∨ Char.ofNat 92 ∈ jsonEscape c := by
  unfold jsonEscape
  split
  · right; simp
  split
  · right; simp
  split
  · right; simp
  split
  · right; simp
  split
  · right; simp
  split
  · right; simp
  split
  · right; simp
  split
  · right; simp
  · rename_i h92 _ _ _ _ _ _
    left
    exact ⟨rfl, h92⟩

theorem escaped_backslash (cs : List Char) (h : Char.ofNat 92 ∉ cs.flatMap jsonEscape) :
    cs.flatMap jsonEscape = cs := by
  induction cs with
  | nil => rfl
  | cons c cs ih =>
    rw [List.flatMap_cons] at h ⊢
    have h1 : Char.ofNat 92 ∉ jsonEscape c := fun hm => h (List.mem_append_left _ hm)
    have h2 : Char.ofNat 92 ∉ cs.flatMap jsonEscape := fun hm => h (List.mem_append_right _ hm)
    rcases jsonEscape_backslash c with hc | hc
    · rw [hc.1, ih h2]
      rfl
    · exact absurd hc h1


/-- The text of a quote-free element between its two quotes. -/
theorem jsonString_eq (s : String) :
    jsonString s = Char.ofNat 34 :: (s.data.flatMap jsonEscape ++ [Char.ofNat 34]) := rfl

/-- In the text of a list of quote-free strings, what stands between two quotes
with no quote in between is an escaped element or the comma between two
elements.  `a` and `b` are the quote-free texts around the elements. -/
theorem jsonElements_segment (skills : List String)
    (hq : ∀ e ∈ skills, ∀ c ∈ e.data, c.toNat ≠ 34) :
    ∀ (a b x m y : List Char), Char.ofNat 34 ∉ a → Char.ofNat 34 ∉ b → Char.ofNat 34 ∉ m →
      x ++ Char.ofNat 34 :: (m ++ Char.ofNat 34 :: y) = a ++ (jsonElements skills ++ b) →
      m = [Char.ofNat 44] ∨ ∃ e ∈ skills, e.data.flatMap jsonEscape = m := by
  induction skills with
  | nil =>
    intro a b x m y ha hb _ h
    exfalso
    have hmem : Char.ofNat 34 ∈ a ++ (jsonElements [] ++ b) := by
      rw [← h]
      exact List.mem_append_right _ (List.mem_cons_self _ _)
    simp only [jsonElements, List.nil_append, List.mem_append] at hmem
    rcases hmem with h1 | h1
    · exact ha h1
    · exact hb h1
  | cons e rest ih =>
    intro a b x m y ha hb hm h
    have he : Char.ofNat 34 ∉ e.data.flatMap jsonEscape :=
      escaped_quote e.data (hq e (List.mem_cons_self e rest))
    -- the text after the first element
    obtain ⟨R, hR, hRcase⟩ : ∃ R : List Char,
        jsonElements (e :: rest) ++ b
          = Char.ofNat 34 :: (e.data.flatMap jsonEscape ++ Char.ofNat 34 :: R) ∧
        ((rest = [] ∧ R = b) ∨
          (rest ≠ [] ∧ R = [Char.ofNat 44] ++ (jsonElements rest ++ b) ∧
            ∃ T, jsonElements rest = Char.ofNat 34 :: T)) := by
      cases rest with
      | nil =>
        exact ⟨b, by simp [jsonElements, jsonString_eq], Or.inl ⟨rfl, rfl⟩⟩
      | cons e2 rest2 =>
        refine ⟨[Char.ofNat 44] ++ (jsonElements (e2 :: rest2) ++ b),
          by simp [jsonElements, jsonString_eq], Or.inr ⟨by simp, rfl, ?_⟩⟩
        cases rest2 with
        | nil => exact ⟨_, rfl⟩
        | cons e3 rest3 => exact ⟨_, by simp only [jsonElements, jsonString_eq]; rfl⟩
    rw [hR] at h
    rcases split_first (Char.ofNat 34) x with hx | ⟨x1, x2, hx12, hx1⟩
    · -- the first quote of the text is the one before `m`
      obtain ⟨_, h2⟩ := first_split (Char.ofNat 34) x a _ _ hx ha h
      obtain ⟨h3, _⟩ := first_split (Char.ofNat 34) m _ _ _ hm he h2
      exact Or.inr ⟨e, List.mem_cons_self e rest, h3.symm⟩
    · rw [hx12, List.append_assoc, List.cons_append] at h
      obtain ⟨_, h2⟩ := first_split (Char.ofNat 34) x1 a _ _ hx1 ha h
      rcases split_first (Char.ofNat 34) x2 with hx2 | ⟨x3, x4, hx34, hx3⟩
      · obtain ⟨_, h3⟩ := first_split (Char.ofNat 34) x2 _ _ _ hx2 he h2
        rcases hRcase with ⟨_, hRb⟩ | ⟨_, hRc, T, hT⟩
        · exfalso
          apply hb
          rw [← hRb, ← h3]
          exact List.mem_append_right _ (List.mem_cons_self _ _)
        · rw [hRc, hT, List.cons_append] at h3
          have h44 : Char.ofNat 34 ∉ [Char.ofNat 44] := by decide
          obtain ⟨h4, _⟩ := first_split (Char.ofNat 34) m _ _ _ hm h44 h3
          exact Or.inl h4
      · rw [hx34, List.append_assoc, List.cons_append] at h2
        obtain ⟨_, h3⟩ := first_split (Char.ofNat 34) x3 _ _ _ hx3 he h2
        rcases hRcase with ⟨_, hRb⟩ | ⟨_, hRc, _⟩
        · exfalso
          apply hb
          rw [← hRb, ← h3]
          exact List.mem_append_right _
            (List.mem_cons_of_mem _ (List.mem_append_right _ (List.mem_cons_self _ _)))
        · rw [hRc] at h3
          have h44 : Char.ofNat 34 ∉ [Char.ofNat 44] := by decide
          rcases ih (fun e1 h1 => hq e1 (List.mem_cons_of_mem e h1))
              [Char.ofNat 44] b x4 m y h44 hb hm h3 with h5 | ⟨e1, h6, h7⟩
          · exact Or.inl h5
          · exact Or.inr ⟨e1, List.mem_cons_of_mem e h6, h7⟩


/-- For a letter-by-letter skill and a mentor whose skills hold no quote, the
text search of the filter finds the stored list exactly when the list has the
skill as an element up to letter case. -/
theorem likeMatch_iff_hasSkill (q : String) (u : User) (hq : literalSkill q)
    (hu : quoteFree u) :
    likeMatch (skillPattern q) (skillsText u.skills) = hasSkill q u := by
  obtain ⟨_, hcomma, hchars⟩ := hq
  rw [Bool.eq_iff_iff]
  constructor
  · intro h
    unfold skillPattern at h
    obtain ⟨pre, t, htext, ht⟩ := likeMatch_percent_inv _ _ h
    have hpat : Char.ofNat 34 :: (q.data ++ [Char.ofNat 34, Char.ofNat 37])
        = (Char.ofNat 34 :: (q.data ++ [Char.ofNat 34])) ++ [Char.ofNat 37] := by simp
    rw [hpat] at ht
    have hlit : ∀ p ∈ Char.ofNat 34 :: (q.data ++ [Char.ofNat 34]),
        p.toNat ≠ 37 ∧ p.toNat ≠ 95 := by
      intro p hp
      simp only [List.mem_cons, List.mem_append, List.mem_singleton, List.not_mem_nil,
        or_false] at hp
      rcases hp with h1 | h1 | h1
      · rw [h1]; decide
      · exact ⟨(hchars p h1).2.2.2.1, (hchars p h1).2.2.2.2⟩
      · rw [h1]; decide
    obtain ⟨m, rest, htm, hm, _⟩ := likeMatch_literal_inv _ _ _ hlit ht
    -- the matched text is a quote, a folded copy of the skill and a quote
    cases m with
    | nil => simp at hm
    | cons c0 m1 =>
      simp only [List.map_cons, List.map_append, List.cons.injEq] at hm
      obtain ⟨hc0, hm1⟩ := hm
      obtain ⟨m2, l2, hsplit, hm2, hl2⟩ := List.map_eq_append_iff.mp hm1
      have hc0q : c0 = Char.ofNat 34 :=
        eq_of_likeFold_eq c0 (Char.ofNat 34) hc0 (by decide) (by decide)
      have hl2q : l2 = [Char.ofNat 34] := by
        cases l2 with
        | nil => simp at hl2
        | cons c1 l3 =>
          cases l3 with
          | nil =>
            simp only [List.map_cons, List.map_nil, List.cons.injEq, and_true] at hl2
            rw [eq_of_likeFold_eq c1 (Char.ofNat 34) hl2 (by decide) (by decide)]
          | cons _ _ => simp at hl2
      have hm2q : Char.ofNat 34 ∉ m2 := by
        intro hmem
        obtain ⟨d, hd, hcd⟩ := mem_of_map_likeFold m2 q.data hm2 _ hmem
        exact (likeFold_class _ d hcd).2.1 (hchars d hd).2.1 (by decide)
      have hm2b : Char.ofNat 92 ∉ m2 := by
        intro hmem
        obtain ⟨d, hd, hcd⟩ := mem_of_map_likeFold m2 q.data hm2 _ hmem
        exact (likeFold_class _ d hcd).2.2.1 (hchars d hd).2.2.1 (by decide)
      have hm2c : m2 ≠ [Char.ofNat 44] := by
        intro hmc
        rw [hmc] at hm2
        apply hcomma
        have hdata : q.data = [Char.ofNat 44] := by
          cases hqd : q.data with
          | nil => rw [hqd] at hm2; simp at hm2
          | cons d ds =>
            rw [hqd] at hm2
            cases ds with
            | nil =>
              simp only [List.map_cons, List.map_nil, List.cons.injEq, and_true] at hm2
              rw [eq_of_likeFold_eq d (Char.ofNat 44) hm2.symm (by decide) (by decide)]
            | cons _ _ => simp at hm2
        exact String.ext hdata
      have hseg : pre ++ Char.ofNat 34 :: (m2 ++ Char.ofNat 34 :: rest)
          = [Char.ofNat 91] ++ (jsonElements u.skills ++ [Char.ofNat 93]) := by
        have : skillsText u.skills = pre ++ t := htext
        unfold skillsText at this
        rw [List.singleton_append, this, htm, hc0q, hsplit, hl2q]
        simp
      rcases jsonElements_segment u.skills hu [Char.ofNat 91] [Char.ofNat 93] pre m2 rest
          (by decide) (by decide) hm2q hseg with h1 | ⟨e, he, hesc⟩
      · exact absurd h1 hm2c
      · have hplain : e.data.flatMap jsonEscape = e.data :=
          escaped_backslash e.data (by rw [hesc]; exact hm2b)
        unfold hasSkill
        rw [List.any_eq_true]
        refine ⟨e, he, ?_⟩
        rw [beq_iff_eq, ← hplain, hesc]
        exact hm2
  · intro h
    unfold hasSkill at h
    rw [List.any_eq_true] at h
    obtain ⟨e, he, hfold⟩ := h
    rw [beq_iff_eq] at hfold
    have hplain : plainSkill e := by
      intro c hc
      obtain ⟨d, hd, hcd⟩ := mem_of_map_likeFold e.data q.data hfold c hc
      have hcls := likeFold_class c d hcd
      exact ⟨hcls.1 (hchars d hd).1, hcls.2.1 (hchars d hd).2.1, hcls.2.2.1 (hchars d hd).2.2.1⟩
    obtain ⟨pre, post, hp⟩ := jsonElements_mem e u.skills he
    unfold skillsText skillPattern
    rw [hp, jsonString_plain e hplain]
    apply likeMatch_percent _ _ ((Char.ofNat 34 :: (e.data ++ [Char.ofNat 34])) ++
      (post ++ [Char.ofNat 93]))
    · exact ⟨Char.ofNat 91 :: pre, by simp⟩
    · have hpat : Char.ofNat 34 :: (q.data ++ [Char.ofNat 34, Char.ofNat 37])
          = (Char.ofNat 34 :: (q.data ++ [Char.ofNat 34])) ++ [Char.ofNat 37] := by simp
      rw [hpat]
      apply likeMatch_folded
      · simp [hfold]
      · exact likeMatch_percent_end _


theorem mentorCondition_filter (sk : Option String) (users : List User) :
    users.filter (mentorCondition sk)
      = (activeMentors users).filter (fun u =>
          match sk with
          | some s => if s = "" then true else likeMatch (skillPattern s) (skillsText u.skills)
          | none => true) := by
  unfold activeMentors
  rw [List.filter_filter]
  apply List.filter_congr
  intro u _
  unfold mentorCondition
  exact Bool.and_comm _ _

/-- C25 amended: when the store returns the found rows in some order, `GET
/mentors` answers 200 with the projections of a list of stored users, all of
them with role mentor and active, each stored row at most once.  Without a
`skill` parameter, or with one that is empty after the query sanitiser, the
list holds exactly the active mentors.  With a skill that after the sanitiser
is a letter-by-letter text (not empty, not a single comma, no quote, backslash,
control character, percent sign or underscore), and when no skill of an active
mentor contains a quote, the list holds exactly the active mentors whose skills
list has the sanitised skill as an element up to the case of the letters A to
Z.  And with a sanitised skill free of quotes, backslashes and control
characters, every active mentor whose skills list has it as an element is in
the list. -/
theorem mentors_filter (xss : String → String) (orderBy : String → List User → List User)
    (skill orderParam : Option String) (users : List User)
    (hperm : ∀ (column : String) (l : List User), (orderBy column l).Perm l) :
    ∃ L : List User,
      getMentors xss orderBy skill orderParam users = ⟨200, Body.mentors (L.map mentorJson)⟩ ∧
      (∃ M : List User, M.Sublist (activeMentors users) ∧ L.Perm M) ∧
      (∀ u ∈ L, u ∈ users ∧ u.role = Role.mentor ∧ u.isActive = true) ∧
      ((skill = none ∨ ∃ s, skill = some s ∧ xss s = "") → L.Perm (activeMentors users)) ∧
      (∀ s : String, skill = some s → literalSkill (xss s) →
        (∀ u ∈ activeMentors users, quoteFree u) →
        L.Perm ((activeMentors users).filter (hasSkill (xss s)))) ∧
      (∀ s : String, skill = some s → plainSkill (xss s) →
        ∀ u ∈ activeMentors users, xss s ∈ u.skills → u ∈ L) := by
  refine ⟨orderBy (if orderParam.map xss = some "name" then "name"
      else if orderParam.map xss = some "skill" then "skills" else "id")
      (users.filter (mentorCondition (skill.map xss))), rfl, ?_, ?_, ?_, ?_, ?_⟩
  · refine ⟨users.filter (mentorCondition (skill.map xss)), ?_, hperm _ _⟩
    rw [mentorCondition_filter]
    exact List.filter_sublist _
  · intro u hu
    have hmem := (hperm _ _).mem_iff.mp hu
    have hc := (List.mem_filter.mp hmem).2
    unfold mentorCondition at hc
    simp only [Bool.and_eq_true, beq_iff_eq] at hc
    exact ⟨(List.mem_filter.mp hmem).1, hc.1.1, hc.1.2⟩
  · intro hs
    refine (hperm _ _).trans ?_
    rw [mentorCondition_filter]
    have hall : ∀ u ∈ activeMentors users,
        (match skill.map xss with
          | some s => if s = "" then true else likeMatch (skillPattern s) (skillsText u.skills)
          | none => true) = true := by
      intro u _
      rcases hs with hs | ⟨s, hs, he⟩
      · rw [hs]; rfl
      · rw [hs]
        simp only [Option.map_some', he, if_true]
    rw [List.filter_eq_self.mpr hall]
  · intro s hs hlit hquote
    refine (hperm _ _).trans ?_
    rw [mentorCondition_filter, hs]
    have hcongr : (activeMentors users).filter (fun u =>
          match Option.map xss (some s) with
          | some s => if s = "" then true else likeMatch (skillPattern s) (skillsText u.skills)
          | none => true)
        = (activeMentors users).filter (hasSkill (xss s)) := by
      apply List.filter_congr
      intro u hu
      simp only [Option.map_some', hlit.1, if_false]
      exact likeMatch_iff_hasSkill (xss s) u hlit (hquote u hu)
    rw [hcongr]
  · intro s hs hplain u hu hmem
    apply (hperm _ _).mem_iff.mpr
    have hu2 := List.mem_filter.mp hu
    simp only [Bool.and_eq_true, beq_iff_eq] at hu2
    rw [List.mem_filter, hs]
    exact ⟨hu2.1, mentorCondition_of_mem (xss s) u hplain hu2.2.1 hu2.2.2 hmem⟩

/-- Witness of C25 amended: the sample table, rows returned in table order,
filtered by the skill "React", which the sanitiser leaves as it is; the answer
lists exactly mentor 2. -/
theorem mentors_filter_witness :
    ∃ L : List User,
      getMentors sampleXss (fun _ l => l) (some "React") none sampleMentors
        = ⟨200, Body.mentors (L.map mentorJson)⟩ ∧
      L.Perm ((activeMentors sampleMentors).filter (hasSkill "React")) ∧
      (activeMentors sampleMentors).filter (hasSkill "React")
        = [{ id := 2, email := "lee@example.com", name := "Lee", role := Role.mentor,
             skills := ["React", "Node"] }] := by
  obtain ⟨L, h1, _, _, _, h5, _⟩ :=
    mentors_filter sampleXss (fun _ l => l) (some "React") none sampleMentors
      (fun _ l => List.Perm.refl l)
  have hx : sampleXss "React" = "React" := by decide
  have h := h5 "React" rfl (by rw [hx]; decide) (by decide)
  rw [hx] at h
  exact ⟨L, h1, h, by decide⟩

/-- C25 as stated fails.  No user of the sample table has the empty string, the
percent sign, "react" or a comma among its skills, and the sanitiser leaves
these four texts as they are.  Yet with `skill` the empty string, and with the
percent sign, the route returns all three mentors; with "react" it returns
mentor 2, whose skill is "React"; and with a comma it returns the two mentors
who have more than one skill. -/
theorem mentors_filter_not_membership :
    (∀ u ∈ sampleMentors, "" ∉ u.skills ∧ "%" ∉ u.skills ∧ "react" ∉ u.skills ∧
      "," ∉ u.skills) ∧
    sampleXss "" = "" ∧ sampleXss "%" = "%" ∧ sampleXss "react" = "react" ∧
    sampleXss "," = "," ∧
    (getMentors sampleXss (fun _ l => l) (some "") none sampleMentors
      = ⟨200, Body.mentors ((activeMentors sampleMentors).map mentorJson)⟩) ∧
    (getMentors sampleXss (fun _ l => l) (some "%") none sampleMentors
      = ⟨200, Body.mentors ((activeMentors sampleMentors).map mentorJson)⟩) ∧
    (getMentors sampleXss (fun _ l => l) (some "react") none sampleMentors
      = ⟨200, Body.mentors
          [{ id := 2, email := "lee@example.com", role := Role.mentor, name := "Lee",
             bio := none, imageUrl := "https://placehold.co/500x500.jpg?text=MENTOR",
             skills := ["React", "Node"] }]⟩) ∧
    (getMentors sampleXss (fun _ l => l) (some ",") none sampleMentors
      = ⟨200, Body.mentors
          [{ id := 2, email := "lee@example.com", role := Role.mentor, name := "Lee",
             bio := none, imageUrl := "https://placehold.co/500x500.jpg?text=MENTOR",
             skills := ["React", "Node"] },
           { id := 4, email := "choi@example.com", role := Role.mentor, name := "Choi",
             bio := none, imageUrl := "https://placehold.co/500x500.jpg?text=MENTOR",
             skills := ["Vue", "CSS"] }]⟩) ∧
    (activeMentors sampleMentors).length = 3 := by
  decide

/-! ## Accept, store operation by store operation -/

theorem putAcceptWith_noFail (u : User) (id : Nat) (rows : List MatchingRequest) :
    putAcceptWith (fun _ => false) u id rows
      = (AcceptPhase.done (putAccept u id rows).1, (putAccept u id rows).2) := by
  unfold putAcceptWith putAccept
  by_cases hrole : u.role = Role.mentor
  · cases hf : MatchingRequest.findOne rows
        (fun r => r.id == id && r.mentorId == u.id && r.status == Status.pending) with
    | none => simp [acceptStep, hrole, hf]
    | some R => simp [acceptStep, hrole, hf]
  · simp [acceptStep, hrole]

theorem findOne_of_exists (u : User) (id : Nat) (rows : List MatchingRequest)
    (hex : ∃ R, R ∈ rows ∧ R.id = id ∧ R.mentorId = u.id ∧ R.status = Status.pending) :
    ∃ R, MatchingRequest.findOne rows
        (fun r => r.id == id && r.mentorId == u.id && r.status == Status.pending) = some R ∧
      R.id = id := by
  cases hf : MatchingRequest.findOne rows
      (fun r => r.id == id && r.mentorId == u.id && r.status == Status.pending) with
  | none =>
    exfalso
    obtain ⟨R, hR, h1, h2, h3⟩ := hex
    have := List.find?_eq_none.mp hf R hR
    simp [h1, h2, h3] at this
  | some R =>
    have hp := List.find?_some hf
    simp only [Bool.and_eq_true, beq_iff_eq] at hp
    exact ⟨R, rfl, hp.1.1⟩

theorem save_eq_setStatus (rows : List MatchingRequest) (R : MatchingRequest) (id : Nat)
    (st : Status) (h : R.id = id) :
    MatchingRequest.save rows R st = rows.map (setStatus id st) := by
  unfold MatchingRequest.save
  apply List.map_congr_left
  intro r _
  simp [setStatus, h]

/-- C28 as stated fails: mentor 2 accepts request 1 in the sample table and the
first cascade update throws.  The call answers 500, yet request 1 is now
accepted, while it was pending before the call. -/
theorem accept_not_atomic :
    putAcceptWith (fun k => k == 2) { id := 2, role := Role.mentor, isActive := true } 1
        sampleRows
      = (AcceptPhase.done ⟨500, Body.error "Internal server error"⟩,
          [⟨1, 1, 2, some "first", Status.accepted⟩, ⟨2, 4, 2, some "second", Status.pending⟩,
            ⟨3, 4, 3, some "old", Status.rejected⟩]) ∧
    sampleRows[0]? = some ⟨1, 1, 2, some "first", Status.pending⟩ := by
  decide

/-- C28 amended: the accept handler writes in three separate store operations.
For a mentor and a pending request of that mentor with the given id: if the
lookup or the primary update throws, the call answers 500 and the table is
unchanged; if the primary update succeeds and the first cascade update throws,
the call answers 500 and the request stays accepted, nothing else changed; if
only the second cascade update throws, the call answers 500 and the primary
update and the first cascade stay; and when nothing throws the call is the
accept handler. -/
theorem accept_partial_failure (fail : Nat → Bool) (u : User) (id : Nat)
    (rows : List MatchingRequest) (hrole : u.role = Role.mentor)
    (hex : ∃ R, R ∈ rows ∧ R.id = id ∧ R.mentorId = u.id ∧ R.status = Status.pending) :
    ((fail 0 = true ∨ fail 1 = true) →
      putAcceptWith fail u id rows
        = (AcceptPhase.done ⟨500, Body.error "Internal server error"⟩, rows)) ∧
    (fail 0 = false → fail 1 = false → fail 2 = true →
      putAcceptWith fail u id rows
        = (AcceptPhase.done ⟨500, Body.error "Internal server error"⟩,
            rows.map (setStatus id Status.accepted))) ∧
    (fail 0 = false → fail 1 = false → fail 2 = false → fail 3 = true →
      putAcceptWith fail u id rows
        = (AcceptPhase.done ⟨500, Body.error "Internal server error"⟩,
            MatchingRequest.update (rows.map (setStatus id Status.accepted)) Status.rejected
              (fun r => r.mentorId == u.id && r.status == Status.pending && r.id != id))) ∧
    (fail 0 = false → fail 1 = false → fail 2 = false → fail 3 = false →
      putAcceptWith fail u id rows
        = (AcceptPhase.done (putAccept u id rows).1, (putAccept u id rows).2)) := by
  obtain ⟨R, hf, hid⟩ := findOne_of_exists u id rows hex
  have hsave := save_eq_setStatus rows R id Status.accepted hid
  refine ⟨?_, ?_, ?_, ?_⟩
  · intro h
    unfold putAcceptWith
    by_cases h0 : fail 0 = true
    · simp [acceptStep, hrole, h0]
    · have h1 : fail 1 = true := by
        rcases h with h | h
        · exact absurd h h0
        · exact h
      simp [acceptStep, hrole, h0, h1, hf]
  · intro h0 h1 h2
    unfold putAcceptWith
    simp [acceptStep, hrole, h0, h1, h2, hf, hsave]
  · intro h0 h1 h2 h3
    unfold putAcceptWith
    simp [acceptStep, hrole, h0, h1, h2, h3, hf, hsave]
  · intro h0 h1 h2 h3
    have hfun : putAcceptWith fail u id rows = putAcceptWith (fun _ => false) u id rows := by
      unfold putAcceptWith
      simp only [h0, h1, h2, h3]
    rw [hfun, putAcceptWith_noFail]

/-- Witness of C28 amended: mentor 2 accepts request 1 in the sample table and
the operation number 1, then 2, then 3, then none throws. -/
theorem accept_partial_failure_witness :
    putAcceptWith (fun k => k == 1) { id := 2, role := Role.mentor, isActive := true } 1
        sampleRows
      = (AcceptPhase.done ⟨500, Body.error "Internal server error"⟩, sampleRows) ∧
    putAcceptWith (fun k => k == 2) { id := 2, role := Role.mentor, isActive := true } 1
        sampleRows
      = (AcceptPhase.done ⟨500, Body.error "Internal server error"⟩,
          sampleRows.map (setStatus 1 Status.accepted)) ∧
    putAcceptWith (fun k => k == 3) { id := 2, role := Role.mentor, isActive := true } 1
        sampleRows
      = (AcceptPhase.done ⟨500, Body.error "Internal server error"⟩,
          MatchingRequest.update (sampleRows.map (setStatus 1 Status.accepted))
            Status.rejected
            (fun r => r.mentorId == 2 && r.status == Status.pending && r.id != 1)) ∧
    putAcceptWith (fun _ => false) { id := 2, role := Role.mentor, isActive := true } 1
        sampleRows
      = (AcceptPhase.done
          (putAccept { id := 2, role := Role.mentor, isActive := true } 1 sampleRows).1,
          (putAccept { id := 2, role := Role.mentor, isActive := true } 1 sampleRows).2) :=
  ⟨(accept_partial_failure (fun k => k == 1)
      { id := 2, role := Role.mentor, isActive := true } 1 sampleRows rfl
      ⟨⟨1, 1, 2, some "first", Status.pending⟩, by decide, rfl, rfl, rfl⟩).1 (Or.inr rfl),
    (accept_partial_failure (fun k => k == 2)
      { id := 2, role := Role.mentor, isActive := true } 1 sampleRows rfl
      ⟨⟨1, 1, 2, some "first", Status.pending⟩, by decide, rfl, rfl, rfl⟩).2.1 rfl rfl rfl,
    (accept_partial_failure (fun k => k == 3)
      { id := 2, role := Role.mentor, isActive := true } 1 sampleRows rfl
      ⟨⟨1, 1, 2, some "first", Status.pending⟩, by decide, rfl, rfl, rfl⟩).2.2.1
      rfl rfl rfl rfl,
    (accept_partial_failure (fun _ => false)
      { id := 2, role := Role.mentor, isActive := true } 1 sampleRows rfl
      ⟨⟨1, 1, 2, some "first", Status.pending⟩, by decide, rfl, rfl, rfl⟩).2.2.2
      rfl rfl rfl rfl⟩

/-! ## Two accept calls -/

theorem runPair_serial (u1 : User) (id1 : Nat) (u2 : User) (id2 : Nat)
    (rows : List MatchingRequest) :
    runPair u1 id1 u2 id2 [false, false, false, false, true, true, true, true]
        (AcceptPhase.start, AcceptPhase.start, rows)
      = (AcceptPhase.done (putAccept u1 id1 rows).1,
          AcceptPhase.done (putAccept u2 id2 (putAccept u1 id1 rows).2).1,
          (putAccept u2 id2 (putAccept u1 id1 rows).2).2) := by
  have h1 := putAcceptWith_noFail u1 id1 rows
  have h2 := putAcceptWith_noFail u2 id2 (putAccept u1 id1 rows).2
  unfold putAcceptWith at h1 h2
  simp only [] at h1 h2
  simp only [runPair, List.foldl, Bool.false_eq_true, if_false, if_true]
  rw [h1]
  simp only []
  rw [h2]

theorem putAccept_again (u u2 : User) (id : Nat) (rows : List MatchingRequest)
    (h : (putAccept u id rows).1.status = 200) (hrole : u2.role = Role.mentor) :
    putAccept u2 id (putAccept u id rows).2
      = (⟨404, Body.error "Request not found"⟩, (putAccept u id rows).2) := by
  rcases putAccept_rows u id rows with hfail | ⟨R, _, _, _, _, _, _, h6⟩
  · exact absurd h hfail.1
  · have hnone : MatchingRequest.findOne (putAccept u id rows).2
        (fun r => r.id == id && r.mentorId == u2.id && r.status == Status.pending) = none := by
      unfold MatchingRequest.findOne
      rw [List.find?_eq_none, h6]
      intro q hq hc
      obtain ⟨r, _, hr⟩ := List.mem_map.mp hq
      simp only [Bool.and_eq_true, beq_iff_eq] at hc
      rw [← hr] at hc
      have hid : r.id = id := by
        have := (evolves_acceptEffect id u.id R.menteeId r).1
        rw [← this]; exact hc.1.1
      have hst : (acceptEffect id u.id R.menteeId r).status = Status.accepted := by
        unfold acceptEffect
        rw [if_pos hid]
      rw [hst] at hc
      exact absurd hc.2 (by decide)
    generalize (putAccept u id rows).2 = rows1 at hnone ⊢
    unfold putAccept
    simp only [hrole, ne_eq, not_true_eq_false, if_false]
    rw [hnone]

theorem putAccept_same_mentee (u u2 : User) (id id2 : Nat) (rows : List MatchingRequest)
    (hu : UniqueIds rows) (R R2 : MatchingRequest) (hR : R ∈ rows) (hRid : R.id = id)
    (hR2 : R2 ∈ rows) (hR2id : R2.id = id2) (hsame : R2.menteeId = R.menteeId)
    (h : (putAccept u id rows).1.status = 200) :
    (putAccept u2 id2 (putAccept u id rows).2).1.status ≠ 200 := by
  rcases putAccept_rows u id rows with hfail | ⟨R0, hR0, h01, _, _, _, _, h6⟩
  · exact absurd h hfail.1
  · have hR0R : R0 = R := List.inj_on_of_nodup_map hu hR0 hR (by rw [h01, hRid])
    subst hR0R
    intro h2
    rcases putAccept_rows u2 id2 (putAccept u id rows).2 with hfail2 | ⟨Q, hQ, hQid, _, hQst, _⟩
    · exact absurd h2 hfail2.1
    · rw [h6] at hQ
      obtain ⟨q, hq, hqQ⟩ := List.mem_map.mp hQ
      have hqid : q.id = id2 := by
        have := (evolves_acceptEffect id u.id R0.menteeId q).1
        rw [← this, hqQ]; exact hQid
      have hqR2 : q = R2 := List.inj_on_of_nodup_map hu hq hR2 (by rw [hqid, hR2id])
      subst hqR2
      rw [← hqQ] at hQst
      unfold acceptEffect at hQst
      by_cases hid : q.id = id
      · rw [if_pos hid] at hQst
        cases hQst
      · rw [if_neg hid] at hQst
        by_cases hc : q.status = Status.pending ∧ (q.mentorId = u.id ∨ q.menteeId = R0.menteeId)
        · rw [if_pos hc] at hQst
          cases hQst
        · rw [if_neg hc] at hQst
          exact hc ⟨hQst, Or.inr hsame⟩

/-- C29 as stated fails.  In the sample table mentor 2 sends two accept calls for
the pending request 1: when both lookups run before either `save()`, both calls
answer 200; run one after the other, the first answers 200 and the second 404.
In a table where mentee 1 has pending requests 1 and 2 to mentors 2 and 3, the
accept calls of the two mentors, interleaved the same way, both answer 200 and
both requests end accepted. -/
theorem concurrent_accepts_both_succeed :
    runPair { id := 2, role := Role.mentor, isActive := true } 1
        { id := 2, role := Role.mentor, isActive := true } 1
        [false, true, false, false, false, true, true, true]
        (AcceptPhase.start, AcceptPhase.start, sampleRows)
      = (AcceptPhase.done ⟨200, Body.request 1 2 1 (some "first") Status.accepted⟩,
          AcceptPhase.done ⟨200, Body.request 1 2 1 (some "first") Status.accepted⟩,
          [⟨1, 1, 2, some "first", Status.accepted⟩, ⟨2, 4, 2, some "second", Status.rejected⟩,
            ⟨3, 4, 3, some "old", Status.rejected⟩]) ∧
    runPair { id := 2, role := Role.mentor, isActive := true } 1
        { id := 2, role := Role.mentor, isActive := true } 1
        [false, false, false, false, true, true, true, true]
        (AcceptPhase.start, AcceptPhase.start, sampleRows)
      = (AcceptPhase.done ⟨200, Body.request 1 2 1 (some "first") Status.accepted⟩,
          AcceptPhase.done ⟨404, Body.error "Request not found"⟩,
          [⟨1, 1, 2, some "first", Status.accepted⟩, ⟨2, 4, 2, some "second", Status.rejected⟩,
            ⟨3, 4, 3, some "old", Status.rejected⟩]) ∧
    runPair { id := 2, role := Role.mentor, isActive := true } 1
        { id := 3, role := Role.mentor, isActive := true } 2
        [false, true, false, false, false, true, true, true]
        (AcceptPhase.start, AcceptPhase.start, twoPendingRows)
      = (AcceptPhase.done ⟨200, Body.request 1 2 1 (some "first") Status.accepted⟩,
          AcceptPhase.done ⟨200, Body.request 2 3 1 (some "second") Status.accepted⟩,
          [⟨1, 1, 2, some "first", Status.accepted⟩,
            ⟨2, 1, 3, some "second", Status.accepted⟩]) := by
  decide

theorem runPair_append (u1 : User) (id1 : Nat) (u2 : User) (id2 : Nat) (s1 s2 : List Bool)
    (st : AcceptPhase × AcceptPhase × List MatchingRequest) :
    runPair u1 id1 u2 id2 (s1 ++ s2) st = runPair u1 id1 u2 id2 s2 (runPair u1 id1 u2 id2 s1 st) := by
  unfold runPair
  rw [List.foldl_append]

theorem runPair_cons (u1 : User) (id1 : Nat) (u2 : User) (id2 : Nat) (b : Bool) (s : List Bool)
    (st : AcceptPhase × AcceptPhase × List MatchingRequest) :
    runPair u1 id1 u2 id2 (b :: s) st
      = runPair u1 id1 u2 id2 s
          (if b then (st.1, (acceptStep u2 id2 false st.2.1 st.2.2).1,
              (acceptStep u2 id2 false st.2.1 st.2.2).2)
            else ((acceptStep u1 id1 false st.1 st.2.2).1, st.2.1,
              (acceptStep u1 id1 false st.1 st.2.2).2)) := by
  cases b <;> rfl

theorem acceptRun_add (u : User) (id : Nat) (a : Nat) :
    ∀ (b : Nat) (s : AcceptPhase × List MatchingRequest),
      acceptRun u id (a + b) s = acceptRun u id b (acceptRun u id a s) := by
  induction a with
  | zero => intro b s; rw [Nat.zero_add]; rfl
  | succ a ih =>
    intro b s
    have : a + 1 + b = (a + b) + 1 := by omega
    rw [this]
    show acceptRun u id (a + b) _ = acceptRun u id b (acceptRun u id a _)
    exact ih b _

theorem acceptStep_noPending (u : User) (id0 id : Nat) (phase : AcceptPhase)
    (rows : List MatchingRequest) (h : NoPending id rows) :
    NoPending id (acceptStep u id0 false phase rows).2 := by
  have hmap : ∀ (f : MatchingRequest → MatchingRequest),
      (∀ r, (f r).id = r.id ∧ ((f r).status = r.status ∨ (f r).status ≠ Status.pending)) →
      NoPending id (rows.map f) := by
    intro f hf r hr hid
    obtain ⟨r0, hr0, hfr⟩ := List.mem_map.mp hr
    rw [← hfr] at hid ⊢
    rw [(hf r0).1] at hid
    rcases (hf r0).2 with h1 | h1
    · rw [h1]; exact h r0 hr0 hid
    · exact h1
  cases phase with
  | start =>
    unfold acceptStep
    simp only []
    split
    · exact h
    · simp only [Bool.false_eq_true, if_false]
      split <;> exact h
  | found R =>
    simp only [acceptStep, Bool.false_eq_true, if_false, MatchingRequest.save]
    apply hmap
    intro r
    split
    · exact ⟨rfl, Or.inr (by simp)⟩
    · exact ⟨rfl, Or.inl rfl⟩
  | saved R =>
    simp only [acceptStep, Bool.false_eq_true, if_false, MatchingRequest.update]
    apply hmap
    intro r
    split
    · exact ⟨rfl, Or.inr (by simp)⟩
    · exact ⟨rfl, Or.inl rfl⟩
  | cascaded R =>
    simp only [acceptStep, Bool.false_eq_true, if_false, MatchingRequest.update]
    apply hmap
    intro r
    split
    · exact ⟨rfl, Or.inr (by simp)⟩
    · exact ⟨rfl, Or.inl rfl⟩
  | done resp => exact h

theorem acceptRun_noPending (u : User) (id0 id : Nat) (n : Nat) :
    ∀ (s : AcceptPhase × List MatchingRequest), NoPending id s.2 →
      NoPending id (acceptRun u id0 n s).2 := by
  induction n with
  | zero => intro s h; exact h
  | succ n ih =>
    intro s h
    exact ih _ (acceptStep_noPending u id0 id s.1 s.2 h)

theorem acceptRun_two (u : User) (id : Nat) (rows : List MatchingRequest)
    (hrole : u.role = Role.mentor)
    (hex : ∃ R, R ∈ rows ∧ R.id = id ∧ R.mentorId = u.id ∧ R.status = Status.pending) :
    ∃ R, MatchingRequest.findOne rows
        (fun r => r.id == id && r.mentorId == u.id && r.status == Status.pending) = some R ∧
      acceptRun u id 1 (AcceptPhase.start, rows) = (AcceptPhase.found R, rows) ∧
      acceptRun u id 2 (AcceptPhase.start, rows)
        = (AcceptPhase.saved R, rows.map (setStatus id Status.accepted)) := by
  obtain ⟨R, hf, hid⟩ := findOne_of_exists u id rows hex
  have h1 : acceptStep u id false AcceptPhase.start rows = (AcceptPhase.found R, rows) := by
    simp [acceptStep, hrole, hf]
  refine ⟨R, hf, ?_, ?_⟩
  · show acceptStep u id false AcceptPhase.start rows = _
    exact h1
  · show acceptStep u id false (acceptStep u id false AcceptPhase.start rows).1
        (acceptStep u id false AcceptPhase.start rows).2 = _
    rw [h1]
    simp [acceptStep, save_eq_setStatus rows R id Status.accepted hid]

theorem noPending_setStatus (id : Nat) (rows : List MatchingRequest) :
    NoPending id (rows.map (setStatus id Status.accepted)) := by
  intro r hr hid
  obtain ⟨r0, _, hfr⟩ := List.mem_map.mp hr
  rw [← hfr] at hid ⊢
  unfold setStatus at hid ⊢
  by_cases h0 : r0.id = id
  · rw [if_pos h0]
    simp
  · rw [if_neg h0] at hid
    exact absurd hid h0

theorem acceptRun_ge_two_noPending (u : User) (id : Nat) (rows : List MatchingRequest)
    (hrole : u.role = Role.mentor)
    (hex : ∃ R, R ∈ rows ∧ R.id = id ∧ R.mentorId = u.id ∧ R.status = Status.pending)
    (n : Nat) (hn : 2 ≤ n) :
    NoPending id (acceptRun u id n (AcceptPhase.start, rows)).2 := by
  obtain ⟨R, _, _, h2⟩ := acceptRun_two u id rows hrole hex
  have hsplit : n = 2 + (n - 2) := by omega
  rw [hsplit, acceptRun_add, h2]
  exact acceptRun_noPending u id id (n - 2) _ (noPending_setStatus id rows)

theorem acceptStep_start_noPending (u : User) (id : Nat) (rows : List MatchingRequest)
    (hrole : u.role = Role.mentor) (h : NoPending id rows) :
    acceptStep u id false AcceptPhase.start rows
      = (AcceptPhase.done ⟨404, Body.error "Request not found"⟩, rows) := by
  have hnone : MatchingRequest.findOne rows
      (fun r => r.id == id && r.mentorId == u.id && r.status == Status.pending) = none := by
    unfold MatchingRequest.findOne
    rw [List.find?_eq_none]
    intro r hr hc
    simp only [Bool.and_eq_true, beq_iff_eq] at hc
    exact h r hr hc.1.1 hc.2
  simp [acceptStep, hrole, hnone]

theorem runPair_first_only (u1 : User) (id1 : Nat) (u2 : User) (id2 : Nat) (n : Nat) :
    ∀ (p1 p2 : AcceptPhase) (rows : List MatchingRequest),
      runPair u1 id1 u2 id2 (List.replicate n false) (p1, p2, rows)
        = ((acceptRun u1 id1 n (p1, rows)).1, p2, (acceptRun u1 id1 n (p1, rows)).2) := by
  induction n with
  | zero => intro p1 p2 rows; rfl
  | succ n ih =>
    intro p1 p2 rows
    rw [List.replicate_succ, runPair_cons]
    simp only [Bool.false_eq_true, if_false]
    rw [ih]
    rfl

theorem runPair_second_done (u1 : User) (id1 : Nat) (u2 : User) (id2 : Nat)
    (resp : Response) (sched : List Bool) :
    ∀ (p1 : AcceptPhase) (rows : List MatchingRequest),
      runPair u1 id1 u2 id2 sched (p1, AcceptPhase.done resp, rows)
        = ((acceptRun u1 id1 (sched.count false) (p1, rows)).1, AcceptPhase.done resp,
            (acceptRun u1 id1 (sched.count false) (p1, rows)).2) := by
  induction sched with
  | nil => intro p1 rows; rfl
  | cons b rest ih =>
    intro p1 rows
    rw [runPair_cons]
    cases b with
    | true =>
      simp only [if_true, acceptStep]
      rw [ih]
      simp
    | false =>
      simp only [Bool.false_eq_true, if_false]
      rw [ih, List.count_cons_self]
      rfl

theorem runPair_swap (u1 : User) (id1 : Nat) (u2 : User) (id2 : Nat) (sched : List Bool) :
    ∀ (p1 p2 : AcceptPhase) (rows : List MatchingRequest),
      runPair u2 id2 u1 id1 (sched.map (fun b => !b)) (p2, p1, rows)
        = ((runPair u1 id1 u2 id2 sched (p1, p2, rows)).2.1,
            (runPair u1 id1 u2 id2 sched (p1, p2, rows)).1,
            (runPair u1 id1 u2 id2 sched (p1, p2, rows)).2.2) := by
  induction sched with
  | nil => intro p1 p2 rows; rfl
  | cons b rest ih =>
    intro p1 p2 rows
    rw [List.map_cons, runPair_cons, runPair_cons]
    cases b with
    | true =>
      simp only [Bool.not_true, Bool.false_eq_true, if_false, if_true]
      exact ih _ _ _
    | false =>
      simp only [Bool.not_false, Bool.false_eq_true, if_false, if_true]
      exact ih _ _ _


theorem acceptStep_done (u : User) (id : Nat) (resp : Response) (rows : List MatchingRequest) :
    acceptStep u id false (AcceptPhase.done resp) rows = (AcceptPhase.done resp, rows) := rfl

theorem acceptRun_done (u : User) (id : Nat) (resp : Response) (n : Nat) :
    ∀ rows : List MatchingRequest,
      acceptRun u id n (AcceptPhase.done resp, rows) = (AcceptPhase.done resp, rows) := by
  induction n with
  | zero => intro rows; rfl
  | succ n ih =>
    intro rows
    show acceptRun u id n (acceptStep u id false (AcceptPhase.done resp) rows) = _
    rw [acceptStep_done, ih]

theorem acceptRun_four (u : User) (id : Nat) (rows : List MatchingRequest) (k : Nat)
    (hk : 4 ≤ k) :
    acceptRun u id k (AcceptPhase.start, rows)
      = (AcceptPhase.done (putAccept u id rows).1, (putAccept u id rows).2) := by
  have h4 : acceptRun u id 4 (AcceptPhase.start, rows)
      = putAcceptWith (fun _ => false) u id rows := rfl
  have hsplit : k = 4 + (k - 4) := by omega
  rw [hsplit, acceptRun_add, h4, putAcceptWith_noFail, acceptRun_done]

theorem putAccept_found (u : User) (id : Nat) (rows : List MatchingRequest)
    (hrole : u.role = Role.mentor) (R : MatchingRequest)
    (hf : MatchingRequest.findOne rows
      (fun r => r.id == id && r.mentorId == u.id && r.status == Status.pending) = some R) :
    (putAccept u id rows).1 = ⟨200, requestJson { R with status := Status.accepted }⟩ := by
  unfold putAccept
  simp only [hrole, ne_eq, not_true_eq_false, if_false, hf]

theorem acceptStep_phaseAfter (u : User) (id : Nat) (R : MatchingRequest) (k : Nat)
    (rows : List MatchingRequest) :
    (acceptStep u id false (phaseAfter R k) rows).1 = phaseAfter R (k + 1) := by
  match k with
  | 0 => rfl
  | 1 => rfl
  | 2 => rfl
  | _ + 3 => rfl

theorem runPair_phases (u1 : User) (id1 : Nat) (u2 : User) (id2 : Nat)
    (R1 R2 : MatchingRequest) (sched : List Bool) :
    ∀ (k1 k2 : Nat) (rows : List MatchingRequest),
      (runPair u1 id1 u2 id2 sched (phaseAfter R1 k1, phaseAfter R2 k2, rows)).1
          = phaseAfter R1 (k1 + sched.count false) ∧
      (runPair u1 id1 u2 id2 sched (phaseAfter R1 k1, phaseAfter R2 k2, rows)).2.1
          = phaseAfter R2 (k2 + sched.count true) := by
  induction sched with
  | nil => intro k1 k2 rows; exact ⟨rfl, rfl⟩
  | cons b rest ih =>
    intro k1 k2 rows
    rw [runPair_cons]
    cases b with
    | true =>
      simp only [if_true]
      rw [acceptStep_phaseAfter]
      have := ih k1 (k2 + 1) (acceptStep u2 id2 false (phaseAfter R2 k2) rows).2
      rw [List.count_cons_self, List.count_cons_of_ne (by decide)]
      rw [this.1, this.2]
      exact ⟨rfl, by rw [Nat.add_assoc, Nat.add_comm 1]⟩
    | false =>
      simp only [Bool.false_eq_true, if_false]
      rw [acceptStep_phaseAfter]
      have := ih (k1 + 1) k2 (acceptStep u1 id1 false (phaseAfter R1 k1) rows).2
      rw [List.count_cons_self, List.count_cons_of_ne (by decide)]
      rw [this.1, this.2]
      exact ⟨by rw [Nat.add_assoc, Nat.add_comm 1], rfl⟩

theorem phaseAfter_ge_three (R : MatchingRequest) (k : Nat) (hk : 3 ≤ k) :
    phaseAfter R k
      = AcceptPhase.done ⟨200, requestJson { R with status := Status.accepted }⟩ := by
  match k, hk with
  | _ + 3, _ => rfl

theorem count_false_map_not (l : List Bool) :
    (l.map (fun b => !b)).count false = l.count true := by
  induction l with
  | nil => rfl
  | cons b t ih => cases b <;> simp [ih]

/-- C29 amended: two accept calls on one pending request of mentor `u`, their
store operations interleaved by a schedule.  When the lookup of one call runs
after the `save()` of the other, that call answers 404 "Request not found" and
writes nothing: the other call runs as if alone, and run to its end it is the
accept handler and answers 200.  When both lookups run before either `save()`
and both calls run to their end, both answer 200. -/
theorem accepts_on_one_request (u : User) (id : Nat) (rows : List MatchingRequest)
    (hrole : u.role = Role.mentor)
    (hex : ∃ R, R ∈ rows ∧ R.id = id ∧ R.mentorId = u.id ∧ R.status = Status.pending) :
    (∀ (u2 : User) (n : Nat) (rest : List Bool), u2.role = Role.mentor → 2 ≤ n →
      runPair u id u2 id (List.replicate n false ++ true :: rest)
          (AcceptPhase.start, AcceptPhase.start, rows)
        = ((acceptRun u id (n + rest.count false) (AcceptPhase.start, rows)).1,
            AcceptPhase.done ⟨404, Body.error "Request not found"⟩,
            (acceptRun u id (n + rest.count false) (AcceptPhase.start, rows)).2)) ∧
    (∀ (u2 : User) (n : Nat) (rest : List Bool), u2.role = Role.mentor → 2 ≤ n →
      runPair u2 id u id (List.replicate n true ++ false :: rest)
          (AcceptPhase.start, AcceptPhase.start, rows)
        = (AcceptPhase.done ⟨404, Body.error "Request not found"⟩,
            (acceptRun u id (n + rest.count true) (AcceptPhase.start, rows)).1,
            (acceptRun u id (n + rest.count true) (AcceptPhase.start, rows)).2)) ∧
    (∀ k : Nat, 4 ≤ k →
      acceptRun u id k (AcceptPhase.start, rows)
        = (AcceptPhase.done (putAccept u id rows).1, (putAccept u id rows).2)) ∧
    (putAccept u id rows).1.status = 200 ∧
    (∀ (first : Bool) (rest : List Bool), 3 ≤ rest.count false → 3 ≤ rest.count true →
      (runPair u id u id (first :: (!first) :: rest)
          (AcceptPhase.start, AcceptPhase.start, rows)).1
        = AcceptPhase.done (putAccept u id rows).1 ∧
      (runPair u id u id (first :: (!first) :: rest)
          (AcceptPhase.start, AcceptPhase.start, rows)).2.1
        = AcceptPhase.done (putAccept u id rows).1) := by
  have hfirst : ∀ (u2 : User) (n : Nat) (rest : List Bool), u2.role = Role.mentor → 2 ≤ n →
      runPair u id u2 id (List.replicate n false ++ true :: rest)
          (AcceptPhase.start, AcceptPhase.start, rows)
        = ((acceptRun u id (n + rest.count false) (AcceptPhase.start, rows)).1,
            AcceptPhase.done ⟨404, Body.error "Request not found"⟩,
            (acceptRun u id (n + rest.count false) (AcceptPhase.start, rows)).2) := by
    intro u2 n rest hrole2 hn
    rw [runPair_append, runPair_first_only, runPair_cons]
    simp only [if_true]
    rw [acceptStep_start_noPending u2 id _ hrole2
      (acceptRun_ge_two_noPending u id rows hrole hex n hn)]
    simp only []
    rw [runPair_second_done, ← acceptRun_add]
  obtain ⟨R, hf, h1, _⟩ := acceptRun_two u id rows hrole hex
  have hresp := putAccept_found u id rows hrole R hf
  refine ⟨hfirst, ?_, fun k hk => acceptRun_four u id rows k hk, by rw [hresp], ?_⟩
  · intro u2 n rest hrole2 hn
    have hsw := runPair_swap u id u2 id (List.replicate n false ++ true :: rest.map (fun b => !b))
      AcceptPhase.start AcceptPhase.start rows
    have hmap : (List.replicate n false ++ true :: rest.map (fun b => !b)).map (fun b => !b)
        = List.replicate n true ++ false :: rest := by
      simp [List.map_replicate, Function.comp_def]
    have hcount := count_false_map_not rest
    rw [hmap] at hsw
    rw [hsw, hfirst u2 n (rest.map (fun b => !b)) hrole2 hn, hcount]
  · intro first rest h3f h3t
    have hstart : acceptStep u id false AcceptPhase.start rows = (AcceptPhase.found R, rows) :=
      h1
    have hstate : runPair u id u id (first :: (!first) :: rest)
          (AcceptPhase.start, AcceptPhase.start, rows)
        = runPair u id u id rest (phaseAfter R 0, phaseAfter R 0, rows) := by
      rw [runPair_cons, runPair_cons]
      cases first with
      | true =>
        simp only [if_true, Bool.not_true, Bool.false_eq_true, if_false, hstart]
        rfl
      | false =>
        simp only [if_true, Bool.not_false, Bool.false_eq_true, if_false, hstart]
        rfl
    have hph := runPair_phases u id u id R R rest 0 0 rows
    rw [hstate, hph.1, hph.2, hresp, phaseAfter_ge_three R _ (by omega),
      phaseAfter_ge_three R _ (by omega)]
    exact ⟨rfl, rfl⟩


/-- Witness of C29 amended: mentor 2 sends two accept calls for the pending
request 1 of the sample table.  In the first schedule the second lookup comes
right after the first `save()`; in the second both lookups come first. -/
theorem accepts_on_one_request_witness :
    runPair { id := 2, role := Role.mentor, isActive := true } 1
        { id := 2, role := Role.mentor, isActive := true } 1
        (List.replicate 2 false ++ true :: [false, true, false, true, true])
        (AcceptPhase.start, AcceptPhase.start, sampleRows)
      = ((acceptRun { id := 2, role := Role.mentor, isActive := true } 1
            (2 + [false, true, false, true, true].count false)
            (AcceptPhase.start, sampleRows)).1,
          AcceptPhase.done ⟨404, Body.error "Request not found"⟩,
          (acceptRun { id := 2, role := Role.mentor, isActive := true } 1
            (2 + [false, true, false, true, true].count false)
            (AcceptPhase.start, sampleRows)).2) ∧
    (putAccept { id := 2, role := Role.mentor, isActive := true } 1 sampleRows).1.status = 200 ∧
    (runPair { id := 2, role := Role.mentor, isActive := true } 1
        { id := 2, role := Role.mentor, isActive := true } 1
        (true :: (!true) :: [false, true, false, true, false, true])
        (AcceptPhase.start, AcceptPhase.start, sampleRows)).1
      = AcceptPhase.done
          (putAccept { id := 2, role := Role.mentor, isActive := true } 1 sampleRows).1 :=
  ⟨(accepts_on_one_request { id := 2, role := Role.mentor, isActive := true } 1 sampleRows rfl
      ⟨⟨1, 1, 2, some "first", Status.pending⟩, by decide, rfl, rfl, rfl⟩).1
      { id := 2, role := Role.mentor, isActive := true } 2 [false, true, false, true, true]
      rfl (by decide),
    (accepts_on_one_request { id := 2, role := Role.mentor, isActive := true } 1 sampleRows rfl
      ⟨⟨1, 1, 2, some "first", Status.pending⟩, by decide, rfl, rfl, rfl⟩).2.2.2.1,
    ((accepts_on_one_request { id := 2, role := Role.mentor, isActive := true } 1 sampleRows rfl
      ⟨⟨1, 1, 2, some "first", Status.pending⟩, by decide, rfl, rfl, rfl⟩).2.2.2.2
      true [false, true, false, true, false, true] (by decide) (by decide)).1⟩

/-- C30 fails on the code: for every sanitiser and every incoming request, the
body a route handler receives is the payload as it was sent, because
`xssProtection` runs while `req.body` is still undefined and the body parser
fills it in afterwards.  For instance a create request whose message is a script
element reaches the handler with that message, although the sanitiser would
have changed it. -/
theorem body_reaches_handler_unsanitised :
    (∀ (xss : String → String) (payload query params : Json),
      (pipeline xss ⟨some payload, none, query, params⟩).body = some payload) ∧
    (pipeline sampleXss
        ⟨some (Json.obj [("mentorId", Json.num 2),
            ("message", Json.str "<script>alert(1)</script>")]),
          none, Json.obj [], Json.obj []⟩).body
      = some (Json.obj [("mentorId", Json.num 2),
          ("message", Json.str "<script>alert(1)</script>")]) ∧
    sanitizeObject sampleXss
        (Json.obj [("mentorId", Json.num 2),
          ("message", Json.str "<script>alert(1)</script>")])
      = Json.obj [("mentorId", Json.num 2), ("message", Json.str "scriptalert(1)/script")] := by
  refine ⟨fun _ _ _ _ => rfl, rfl, ?_⟩
  simp only [sanitizeObject, sanitizeMembers]
  have h : sampleXss "<script>alert(1)</script>" = "scriptalert(1)/script" := by decide
  rw [h]

/-! ## Users and requests together -/

theorem signup_appends (env : Env) (users : List User) (body : SignupBody) :
    (signup env users body).2 = users ∨
    ∃ new : User, (signup env users body).2 = users ++ [new] ∧
      new.id = nextUserId users ∧ new.isActive = true := by
  unfold signup
  split
  · left; rfl
  · rename_i email password name role hv
    split
    · left; rfl
    · simp only []
      split
      · left; rfl
      · rename_i u users1 hc
        unfold User.create at hc
        split at hc
        · split at hc
          · cases hc
          · injection hc with hc
            injection hc with h1 h2
            right
            refine ⟨u, ?_, ?_, ?_⟩
            · show users1 = users ++ [u]
              rw [← h2, ← h1]
            · rw [← h1]
            · rw [← h1]
        · cases hc

theorem applyProfile_keeps (user : User) (name bio : Option String)
    (skills : Option (List String)) (profileImage : Option String) (v : User) :
    (applyProfile user name bio skills profileImage v).id = v.id ∧
    (applyProfile user name bio skills profileImage v).role = v.role ∧
    (applyProfile user name bio skills profileImage v).isActive = v.isActive := by
  unfold applyProfile
  split <;> exact ⟨rfl, rfl, rfl⟩

theorem uniqueUserIds_append (users : List User) (new : User) (h : UniqueUserIds users)
    (hid : new.id = nextUserId users) : UniqueUserIds (users ++ [new]) := by
  unfold UniqueUserIds at h ⊢
  rw [List.map_append, List.nodup_append]
  refine ⟨h, by simp, ?_⟩
  intro a ha hb
  simp only [List.map_cons, List.map_nil, List.mem_singleton] at hb
  obtain ⟨u, hu, hua⟩ := List.mem_map.mp ha
  have := id_lt_nextUserId users u hu
  omega


/-- A change of the user table that keeps the id, the role and `isActive` of
every user keeps the requests referenced. -/
theorem referenced_of_users (users users1 : List User) (rows : List MatchingRequest)
    (hkeep : ∀ u ∈ users, ∃ v ∈ users1, v.id = u.id ∧ v.role = u.role ∧ v.isActive = u.isActive)
    (h : Referenced users rows) : Referenced users1 rows := by
  intro r hr
  obtain ⟨⟨e, he, he1, he2⟩, ⟨m, hm, hm1, hm2, hm3⟩⟩ := h r hr
  obtain ⟨e1, hin1, h1, h2, _⟩ := hkeep e he
  obtain ⟨m1, hin2, h3, h4, h5⟩ := hkeep m hm
  exact ⟨⟨e1, hin1, by rw [h1, he1], by rw [h2, he2]⟩,
    ⟨m1, hin2, by rw [h3, hm1], by rw [h4, hm2], by rw [h5, hm3]⟩⟩

theorem referenced_map (users : List User) (rows : List MatchingRequest)
    (f : MatchingRequest → MatchingRequest)
    (hf : ∀ r, (f r).menteeId = r.menteeId ∧ (f r).mentorId = r.mentorId)
    (h : Referenced users rows) : Referenced users (rows.map f) := by
  intro r hr
  obtain ⟨r0, hr0, hfr⟩ := List.mem_map.mp hr
  rw [← hfr, (hf r0).1, (hf r0).2]
  exact h r0 hr0

theorem handle_referenced (users : List User) (token : Option Token) (call : Call)
    (rows : List MatchingRequest) (hact : ∀ u ∈ users, u.isActive = true)
    (h : Referenced users rows) :
    Referenced users (handle ⟨users, token, call⟩ rows).2 := by
  unfold handle
  simp only []
  cases ha : authenticateToken users token with
  | error resp => exact h
  | ok u =>
    have hmem := (authenticateToken_ok users token u ha).1
    simp only []
    cases call with
    | createRequest body =>
      simp only [dispatch]
      rcases postMatchRequests_rows users u body rows with h1 | ⟨n, h2, _, _, h5, _, _, h8, m, hm, hm1, hm2⟩
      · rw [h1.2]; exact h
      · rw [h2]
        intro r hr
        rcases List.mem_append.mp hr with h0 | h0
        · exact h r h0
        · rw [List.mem_singleton] at h0
          rw [h0]
          exact ⟨⟨u, hmem, h5.symm, h8⟩, ⟨m, hm, hm1, hm2, hact m hm⟩⟩
    | listIncoming =>
      simp only [dispatch]
      unfold getIncoming
      split <;> exact h
    | listOutgoing =>
      simp only [dispatch]
      unfold getOutgoing
      split <;> exact h
    | accept id =>
      simp only [dispatch]
      rcases putAccept_rows u id rows with h1 | ⟨R, _, _, _, _, _, _, h6⟩
      · rw [h1.2]; exact h
      · rw [h6]
        apply referenced_map users rows _ _ h
        intro r
        obtain ⟨_, h2, h3, _⟩ := evolves_acceptEffect id u.id R.menteeId r
        exact ⟨h2, h3⟩
    | reject id =>
      simp only [dispatch]
      rcases putReject_rows u id rows with h1 | ⟨R, _, _, _, _, _, _, h6⟩
      · rw [h1.2]; exact h
      · rw [h6]
        apply referenced_map users rows _ _ h
        intro r
        obtain ⟨_, h2, h3, _⟩ := evolves_setStatus id Status.rejected (by decide) r
        exact ⟨h2, h3⟩
    | cancel id =>
      simp only [dispatch]
      rcases deleteMatchRequest_rows u id rows with h1 | ⟨R, _, _, _, _, _, _, h6⟩
      · rw [h1.2]; exact h
      · rw [h6]
        apply referenced_map users rows _ _ h
        intro r
        obtain ⟨_, h2, h3, _⟩ := evolves_setStatus id Status.cancelled (by decide) r
        exact ⟨h2, h3⟩

/-- What every request handled on the store keeps: all users are active, no two
users share an id, and the requests are referenced. -/
theorem apiStep_invariant (env : Env) (imageError : String → Option String) (s : Store)
    (r : ApiRequest)
    (h : (∀ u ∈ s.users, u.isActive = true) ∧ UniqueUserIds s.users ∧
      Referenced s.users s.requests) :
    (∀ u ∈ (apiStep env imageError s r).users, u.isActive = true) ∧
      UniqueUserIds (apiStep env imageError s r).users ∧
      Referenced (apiStep env imageError s r).users (apiStep env imageError s r).requests := by
  obtain ⟨hact, huniq, href⟩ := h
  cases r with
  | signup body =>
    simp only [apiStep]
    rcases signup_appends env s.users body with h1 | ⟨new, h1, h2, h3⟩
    · rw [h1]; exact ⟨hact, huniq, href⟩
    · rw [h1]
      refine ⟨?_, uniqueUserIds_append s.users new huniq h2, ?_⟩
      · intro u hu
        rcases List.mem_append.mp hu with h0 | h0
        · exact hact u h0
        · rw [List.mem_singleton] at h0
          rw [h0]; exact h3
      · apply referenced_of_users s.users _ s.requests _ href
        intro u hu
        exact ⟨u, List.mem_append_left _ hu, rfl, rfl, rfl⟩
  | profile token body =>
    simp only [apiStep]
    cases ha : authenticateToken s.users token with
    | error resp => exact ⟨hact, huniq, href⟩
    | ok reqUser =>
      simp only []
      rcases putProfile_rows imageError s.users reqUser body with h1 |
          ⟨user, name, bio, skills, profileImage, _, _, h1⟩
      · rw [h1]; exact ⟨hact, huniq, href⟩
      · rw [h1]
        refine ⟨?_, ?_, ?_⟩
        · intro u hu
          obtain ⟨v, hv, hvu⟩ := List.mem_map.mp hu
          rw [← hvu, (applyProfile_keeps user name bio skills profileImage v).2.2]
          exact hact v hv
        · unfold UniqueUserIds at huniq ⊢
          rw [List.map_map]
          have hfun : ((fun u => u.id) ∘ applyProfile user name bio skills profileImage)
              = (fun (u : User) => u.id) := by
            funext v
            exact (applyProfile_keeps user name bio skills profileImage v).1
          rw [hfun]
          exact huniq
        · apply referenced_of_users s.users _ s.requests _ href
          intro u hu
          exact ⟨applyProfile user name bio skills profileImage u,
            List.mem_map_of_mem _ hu,
            (applyProfile_keeps user name bio skills profileImage u).1,
            (applyProfile_keeps user name bio skills profileImage u).2.1,
            (applyProfile_keeps user name bio skills profileImage u).2.2⟩
  | matching token call =>
    simp only [apiStep]
    exact ⟨hact, huniq, handle_referenced s.users token call s.requests hact href⟩

theorem runApi_invariant (env : Env) (imageError : String → Option String)
    (reqs : List ApiRequest) :
    ∀ s : Store,
      ((∀ u ∈ s.users, u.isActive = true) ∧ UniqueUserIds s.users ∧
        Referenced s.users s.requests) →
      (∀ u ∈ (runApi env imageError reqs s).users, u.isActive = true) ∧
        UniqueUserIds (runApi env imageError reqs s).users ∧
        Referenced (runApi env imageError reqs s).users (runApi env imageError reqs s).requests := by
  induction reqs with
  | nil => intro s h; exact h
  | cons r rest ih =>
    intro s h
    exact ih _ (apiStep_invariant env imageError s r h)

/-- C10: in every state the mounted API reaches from the empty store, whatever
the requests and the presented tokens are, every user has `isActive = true`, no
two users share an id, and every stored request names as mentee a user with role
mentee and as mentor a user with role mentor and `isActive = true`; and a create
request answered with 200 in such a state names a user of the table that has
role mentor and `isActive = true` at that time.  So no reachable state holds a
mentor with `isActive = false` to whom a request could be addressed. -/
theorem stored_requests_reference_users (env : Env) (imageError : String → Option String)
    (reqs : List ApiRequest) :
    (∀ u ∈ (runApi env imageError reqs ⟨[], []⟩).users, u.isActive = true) ∧
    UniqueUserIds (runApi env imageError reqs ⟨[], []⟩).users ∧
    (∀ r ∈ (runApi env imageError reqs ⟨[], []⟩).requests,
      (∃ e ∈ (runApi env imageError reqs ⟨[], []⟩).users,
        e.id = r.menteeId ∧ e.role = Role.mentee) ∧
      (∃ m ∈ (runApi env imageError reqs ⟨[], []⟩).users,
        m.id = r.mentorId ∧ m.role = Role.mentor ∧ m.isActive = true)) ∧
    (∀ (token : Option Token) (body : CreateBody),
      (handle ⟨(runApi env imageError reqs ⟨[], []⟩).users, token, Call.createRequest body⟩
        (runApi env imageError reqs ⟨[], []⟩).requests).1.status = 200 →
      ∃ (k : Int) (m : User), body.mentorId = NumField.int k ∧
        m ∈ (runApi env imageError reqs ⟨[], []⟩).users ∧ m.id = k.toNat ∧
        m.role = Role.mentor ∧ m.isActive = true) := by
  have hinit : (∀ u ∈ (⟨[], []⟩ : Store).users, u.isActive = true) ∧
      UniqueUserIds (⟨[], []⟩ : Store).users ∧
      Referenced (⟨[], []⟩ : Store).users (⟨[], []⟩ : Store).requests :=
    ⟨fun _ h => (by cases h), List.nodup_nil, fun _ h => (by cases h)⟩
  obtain ⟨hact, huniq, href⟩ := runApi_invariant env imageError reqs ⟨[], []⟩ hinit
  refine ⟨hact, huniq, href, ?_⟩
  intro token body hs
  generalize (runApi env imageError reqs ⟨[], []⟩) = s at hact hs ⊢
  unfold handle at hs
  simp only [] at hs
  cases ha : authenticateToken s.users token with
  | error resp =>
    rw [ha] at hs
    unfold authenticateToken at ha
    split at ha
    · injection ha with ha; rw [← ha] at hs; cases hs
    · injection ha with ha; rw [← ha] at hs; cases hs
    · injection ha with ha; rw [← ha] at hs; cases hs
    · split at ha
      · injection ha with ha; rw [← ha] at hs; cases hs
      · cases ha
  | ok u =>
    rw [ha] at hs
    simp only [dispatch] at hs
    obtain ⟨k, msg, h1, _, _, _, _, _, ⟨m, hm, hm1, hm2⟩, _⟩ :=
      postMatchRequests_ok s.users u body s.requests hs
    exact ⟨k, m, h1, hm, hm1, hm2, hact m hm⟩

/-- Witness of C10: the sample session ends in a store with the two registered
users, both active, and one accepted request of mentee 1 to mentor 2, and the
request is referenced. -/
theorem stored_requests_reference_users_witness :
    runApi sampleEnv (fun _ => none) sampleSession ⟨[], []⟩
      = ⟨registeredUsers, [⟨1, 1, 2, some "hello", Status.accepted⟩]⟩ ∧
    (∀ r ∈ (runApi sampleEnv (fun _ => none) sampleSession ⟨[], []⟩).requests,
      (∃ e ∈ (runApi sampleEnv (fun _ => none) sampleSession ⟨[], []⟩).users,
        e.id = r.menteeId ∧ e.role = Role.mentee) ∧
      (∃ m ∈ (runApi sampleEnv (fun _ => none) sampleSession ⟨[], []⟩).users,
        m.id = r.mentorId ∧ m.role = Role.mentor ∧ m.isActive = true)) :=
  ⟨by decide,
    (stored_requests_reference_users sampleEnv (fun _ => none) sampleSession).2.2.1⟩

end MentoMenti
